import Mathlib

/-! Conversation allocation engine.

A shallow embedding of the allocation and grace-period engine of the
conversation routing backend (`src/services/conversationService.js`,
`src/services/gracePeriodService.js`, `src/services/operatorService.js`).

The relational store is a record of tables, each table a list of rows in
storage order.  Every SQL statement of the services is a list operation on
those tables; `NOW()` and `Date.now()` are an explicit `now` argument
(milliseconds).  Each service function is a body that threads the store and
may throw an `AppError`, wrapped in `db.transaction`.

Row locks (`FOR UPDATE`, `SKIP LOCKED`) have no effect in this sequential
model.  Surrogate `id` and `created_at` columns of the join tables are not
represented, and storage-level constraint errors are not modelled.

The list and search queries of `conversationService.js`, the middleware of
`src/middleware/auth.js` and `src/utils/validators.js` and the job of
`src/jobs/gracePeriodJob.js` are embedded the same way.  A pagination cursor
is represented by the values its text was rendered from.  The validation
library is not among the sources: its rules follow their documented meaning
and its conversion of a text to a number is a parameter.
-/

namespace Backend

/-! ## Data model (`src/types/database.types.ts`) -/

/-- Enum `conversation_state`. -/
inductive ConversationState where
  | QUEUED
  | ALLOCATED
  | RESOLVED
deriving DecidableEq, Repr

/-- Enum `operator_status_type`. -/
inductive OperatorStatusType where
  | AVAILABLE
  | OFFLINE
deriving DecidableEq, Repr

/-- Enum `grace_reason`. -/
inductive GraceReason where
  | OFFLINE
  | MANUAL
deriving DecidableEq, Repr

/-- Enum `operator_role`. -/
inductive OperatorRole where
  | OPERATOR
  | MANAGER
  | ADMIN
deriving DecidableEq, Repr

/-- The text of a conversation state, as interpolated into messages. -/
def ConversationState.toString : ConversationState → String
  | .QUEUED => "QUEUED"
  | .ALLOCATED => "ALLOCATED"
  | .RESOLVED => "RESOLVED"

/-- Row of table `conversations`.  Nullable columns are options; the score
is a fixed-point decimal, kept as an integer number of its smallest unit. -/
structure Conversation where
  id : Nat
  tenant_id : Nat
  inbox_id : Nat
  external_conversation_id : String
  customer_phone_number : String
  state : ConversationState
  assigned_operator_id : Option Nat
  message_count : Option Nat
  last_message_at : Nat
  priority_score : Option Int
  created_at : Option Nat
  updated_at : Option Nat
  resolved_at : Option Nat
deriving DecidableEq, Repr

/-- Row of table `operators`. -/
structure Operator where
  id : Nat
  tenant_id : Nat
  role : OperatorRole
  name : String
  email : String
deriving DecidableEq, Repr

/-- Row of table `operator_status`. -/
structure OperatorStatus where
  operator_id : Nat
  status : OperatorStatusType
  last_status_change_at : Option Nat
deriving DecidableEq, Repr

/-- Row of table `operator_inbox_subscriptions`. -/
structure Subscription where
  operator_id : Nat
  inbox_id : Nat
deriving DecidableEq, Repr

/-- Row of table `inboxes`. -/
structure Inbox where
  id : Nat
  tenant_id : Nat
  display_name : String
  phone_number : String
deriving DecidableEq, Repr

/-- Row of table `tenants`. -/
structure Tenant where
  id : Nat
  name : String
  priority_alpha : Option Int
  priority_beta : Option Int
deriving DecidableEq, Repr

/-- Row of table `grace_period_assignments`. -/
structure GracePeriodAssignment where
  conversation_id : Nat
  operator_id : Nat
  expires_at : Nat
  reason : GraceReason
deriving DecidableEq, Repr

/-- Row of table `conversation_labels`. -/
structure ConversationLabel where
  conversation_id : Nat
  label_id : Nat
deriving DecidableEq, Repr

/-- The database: one list of rows per table. -/
structure Store where
  conversations : List Conversation
  operators : List Operator
  operator_status : List OperatorStatus
  operator_inbox_subscriptions : List Subscription
  inboxes : List Inbox
  tenants : List Tenant
  grace_period_assignments : List GracePeriodAssignment
  conversation_labels : List ConversationLabel
deriving DecidableEq, Repr

/-- Class `AppError` of `src/middleware/errorHandler.js`. -/
structure AppError where
  message : String
  statusCode : Nat
deriving DecidableEq, Repr

/-- What the services read from outside the store: `config.pagination`,
`config.gracePeriod` and the SQL function `calculate_priority_score`, whose
definition is not among the sources.  The SQL function receives the current
time first, then its four SQL arguments
`(message_count, last_message_at, priority_alpha, priority_beta)`. -/
structure Env where
  maxConversationFetch : Nat
  gracePeriodMinutes : Nat
  calculate_priority_score : Nat → Option Nat → Nat → Option Int → Option Int → Option Int
  defaultLimit : Nat := 20

/-- Result of a transaction body: what it returned or threw, and the store
as the body left it. -/
abbrev Outcome (α : Type) := Except AppError α × Store

namespace db

/-- Modelled from the spec: `db.transaction` of `src/config/database.js`,
which is not among the sources.  Each operation executes inside a single
atomic transaction; a thrown error rolls the store back to what it was
before the operation, a returned value commits the body's writes. -/
def transaction {α : Type} (body : Store → Outcome α) (s : Store) : Outcome α :=
  match body s with
  | (.ok a, s') => (.ok a, s')
  | (.error e, _) => (.error e, s)

end db

/-! ## SQL building blocks -/

/-- SQL `UPDATE conversations SET ... WHERE p RETURNING *`: the table after
the update, and the updated rows. -/
def updateConversations (p : Conversation → Bool) (f : Conversation → Conversation)
    (rows : List Conversation) : List Conversation × List Conversation :=
  (rows.map (fun c => if p c then f c else c), (rows.filter p).map f)

/-- The assignment `SET state = 'ALLOCATED', assigned_operator_id = $1,
updated_at = NOW()` shared by allocate, claim, manager-allocate and
reassign. -/
def setAllocated (operatorId now : Nat) (c : Conversation) : Conversation :=
  { c with state := .ALLOCATED, assigned_operator_id := some operatorId, updated_at := some now }

/-- The assignment `SET state = 'QUEUED', assigned_operator_id = NULL,
updated_at = NOW()` shared by deallocate and the reclaim sweep. -/
def setQueued (now : Nat) (c : Conversation) : Conversation :=
  { c with state := .QUEUED, assigned_operator_id := none, updated_at := some now }

/-- The assignment `SET state = 'RESOLVED', resolved_at = NOW(), updated_at =
NOW()` of resolve. -/
def setResolved (now : Nat) (c : Conversation) : Conversation :=
  { c with state := .RESOLVED, resolved_at := some now, updated_at := some now }

/-- The assignment `SET inbox_id = $1, state = 'QUEUED', assigned_operator_id
= NULL, updated_at = NOW()` of the inbox move. -/
def setMoved (newInboxId now : Nat) (c : Conversation) : Conversation :=
  { c with inbox_id := newInboxId, state := .QUEUED, assigned_operator_id := none,
           updated_at := some now }

/-- Sort key comparison of `ORDER BY c.priority_score DESC,
c.last_message_at DESC`: `a` is placed no later than `b`.  In a descending
sort a NULL score comes first. -/
def orderByPriority (a b : Conversation) : Bool :=
  match a.priority_score, b.priority_score with
  | none, none => decide (b.last_message_at ≤ a.last_message_at)
  | none, some _ => true
  | some _, none => false
  | some x, some y => decide (y < x) || (decide (y = x) && decide (b.last_message_at ≤ a.last_message_at))

/-- `SELECT status FROM operator_status WHERE operator_id = $1`. -/
def selectStatus (s : Store) (operatorId : Nat) : List OperatorStatusType :=
  (s.operator_status.filter (fun r => r.operator_id = operatorId)).map (fun r => r.status)

/-- `SELECT inbox_id FROM operator_inbox_subscriptions WHERE operator_id = $1`. -/
def selectSubscribedInboxes (s : Store) (operatorId : Nat) : List Nat :=
  (s.operator_inbox_subscriptions.filter (fun r => r.operator_id = operatorId)).map
    (fun r => r.inbox_id)

/-- `SELECT 1 FROM operator_inbox_subscriptions WHERE operator_id = $1 AND
inbox_id = $2`. -/
def selectSubscription (s : Store) (operatorId inboxId : Nat) : List Subscription :=
  s.operator_inbox_subscriptions.filter
    (fun r => r.operator_id = operatorId && r.inbox_id = inboxId)

/-- `SELECT o.tenant_id, t.priority_alpha, t.priority_beta FROM operators o
JOIN tenants t ON o.tenant_id = t.id WHERE o.id = $1`. -/
def selectCompanySettings (s : Store) (operatorId : Nat) : List (Nat × Option Int × Option Int) :=
  (s.operators.filter (fun o => o.id = operatorId)).flatMap (fun o =>
    (s.tenants.filter (fun t => o.tenant_id = t.id)).map (fun t =>
      (o.tenant_id, t.priority_alpha, t.priority_beta)))

/-- `SELECT ... FROM operators o LEFT JOIN operator_status os ON o.id =
os.operator_id WHERE o.id = $1`: each operator row with its status, or with
a NULL status when it has no status row. -/
def selectOperatorWithStatus (s : Store) (operatorId : Nat) :
    List (Operator × Option OperatorStatusType) :=
  (s.operators.filter (fun o => o.id = operatorId)).flatMap (fun o =>
    match s.operator_status.filter (fun r => o.id = r.operator_id) with
    | [] => [(o, none)]
    | rs => rs.map (fun r => (o, some r.status)))

/-- `SELECT * FROM conversations WHERE id = $1`. -/
def selectConversation (s : Store) (conversationId : Nat) : List Conversation :=
  s.conversations.filter (fun c => c.id = conversationId)

/-- `SELECT c.*, i.tenant_id as inbox_tenant_id FROM conversations c JOIN
inboxes i ON c.inbox_id = i.id WHERE c.id = $1`. -/
def selectConversationWithInbox (s : Store) (conversationId : Nat) : List (Conversation × Nat) :=
  (s.conversations.filter (fun c => c.id = conversationId)).flatMap (fun c =>
    (s.inboxes.filter (fun i => c.inbox_id = i.id)).map (fun i => (c, i.tenant_id)))

/-- `DELETE FROM grace_period_assignments WHERE conversation_id = $1`. -/
def deleteGracePeriod (s : Store) (conversationId : Nat) : Store :=
  let remaining :=
    s.grace_period_assignments.filter (fun g => !(g.conversation_id = conversationId))
  { s with grace_period_assignments := remaining }

/-- The candidate query of `allocateConversation`: `SELECT c.id FROM
conversations c WHERE c.state = 'QUEUED' AND c.tenant_id = $1 AND c.inbox_id
= ANY($2) ORDER BY c.priority_score DESC, c.last_message_at DESC LIMIT
maxConversationFetch`. -/
def selectAvailableConversations (env : Env) (s : Store) (tenantId : Nat)
    (availableInboxes : List Nat) : List Conversation :=
  ((s.conversations.filter (fun c =>
      c.state = .QUEUED && c.tenant_id = tenantId && availableInboxes.contains c.inbox_id)).insertionSort
    (fun a b => orderByPriority a b = true)).take env.maxConversationFetch

/-! ## Allocation engine (`src/services/conversationService.js`) -/

/-- Body of `allocateConversation`. -/
def allocateConversationBody (env : Env) (now operatorId : Nat) (s : Store) :
    Outcome (Option Conversation) :=
  match selectStatus s operatorId with
  | [] => (.error ⟨"Operator is not available", 400⟩, s)
  | status :: _ =>
    if status ≠ .AVAILABLE then (.error ⟨"Operator is not available", 400⟩, s)
    else
      match selectSubscribedInboxes s operatorId with
      | [] => (.error ⟨"Operator is not subscribed to any inbox", 400⟩, s)
      | inbox :: inboxes =>
        match selectCompanySettings s operatorId with
        | [] => (.error ⟨"Operator not found", 404⟩, s)
        | (tenant_id, _, _) :: _ =>
          match selectAvailableConversations env s tenant_id (inbox :: inboxes) with
          | [] => (.ok none, s)
          | best :: _ =>
            let allocationResult :=
              updateConversations (fun c => c.id = best.id) (setAllocated operatorId now)
                s.conversations
            (.ok allocationResult.2.head?, { s with conversations := allocationResult.1 })

/-- Auto-assign the next highest priority conversation to an operator. -/
def allocateConversation (env : Env) (now operatorId : Nat) (s : Store) :
    Outcome (Option Conversation) :=
  db.transaction (allocateConversationBody env now operatorId) s

/-- Body of `managerAllocateConversation`. -/
def managerAllocateConversationBody (now whoToAssignTo whichConversation : Nat)
    (whoIsAsking : OperatorRole) (s : Store) : Outcome (Option Conversation) :=
  if !([OperatorRole.MANAGER, OperatorRole.ADMIN].contains whoIsAsking) then
    (.error ⟨"Only managers and admins can allocate conversations to operators", 403⟩, s)
  else
    match selectOperatorWithStatus s whoToAssignTo with
    | [] => (.error ⟨"Target operator not found", 404⟩, s)
    | (operatorInfo, status) :: _ =>
      if status ≠ some .AVAILABLE then (.error ⟨"Target operator is not available", 400⟩, s)
      else
        match selectConversationWithInbox s whichConversation with
        | [] => (.error ⟨"Conversation not found", 404⟩, s)
        | (conversationInfo, inbox_tenant_id) :: _ =>
          if inbox_tenant_id ≠ operatorInfo.tenant_id then
            (.error ⟨"Operator and conversation must be in the same tenant", 400⟩, s)
          else if conversationInfo.state ≠ .QUEUED then
            (.error ⟨"Conversation is not in QUEUED state (current: "
              ++ conversationInfo.state.toString ++ ")", 400⟩, s)
          else
            match selectSubscription s whoToAssignTo conversationInfo.inbox_id with
            | [] => (.error ⟨"Target operator is not subscribed to this inbox", 400⟩, s)
            | _ :: _ =>
              let assignmentResult :=
                updateConversations (fun c => c.id = whichConversation)
                  (setAllocated whoToAssignTo now) s.conversations
              (.ok assignmentResult.2.head?, { s with conversations := assignmentResult.1 })

/-- Let managers and admins manually assign conversations to operators. -/
def managerAllocateConversation (now whoToAssignTo whichConversation : Nat)
    (whoIsAsking : OperatorRole) (s : Store) : Outcome (Option Conversation) :=
  db.transaction (managerAllocateConversationBody now whoToAssignTo whichConversation whoIsAsking) s

/-- Body of `claimConversation`. -/
def claimConversationBody (now operatorId conversationId : Nat) (s : Store) :
    Outcome (Option Conversation) :=
  match selectStatus s operatorId with
  | [] => (.error ⟨"Operator is not available", 400⟩, s)
  | status :: _ =>
    if status ≠ .AVAILABLE then (.error ⟨"Operator is not available", 400⟩, s)
    else
      match selectConversation s conversationId with
      | [] => (.error ⟨"Conversation not found", 404⟩, s)
      | conversation :: _ =>
        if conversation.state ≠ .QUEUED then
          (.error ⟨"Conversation is not available for claiming", 400⟩, s)
        else
          match selectSubscription s operatorId conversation.inbox_id with
          | [] => (.error ⟨"Operator is not subscribed to this inbox", 403⟩, s)
          | _ :: _ =>
            let updateResult :=
              updateConversations (fun c => c.id = conversationId) (setAllocated operatorId now)
                s.conversations
            (.ok updateResult.2.head?, { s with conversations := updateResult.1 })

/-- Manually claim a specific conversation. -/
def claimConversation (now operatorId conversationId : Nat) (s : Store) :
    Outcome (Option Conversation) :=
  db.transaction (claimConversationBody now operatorId conversationId) s

/-- Body of `resolveConversation`.  The event sent to the orchestrator after
the update is fire-and-forget and does not touch the store. -/
def resolveConversationBody (now conversationId operatorId : Nat) (operatorRole : OperatorRole)
    (s : Store) : Outcome (Option Conversation) :=
  match selectConversation s conversationId with
  | [] => (.error ⟨"Conversation not found", 404⟩, s)
  | conversation :: _ =>
    if conversation.state = .RESOLVED then (.error ⟨"Conversation is already resolved", 400⟩, s)
    else
      let canResolve :=
        [OperatorRole.MANAGER, OperatorRole.ADMIN].contains operatorRole
          || decide (conversation.assigned_operator_id = some operatorId)
      if !canResolve then
        (.error ⟨"Only assigned operator or manager/admin can resolve", 403⟩, s)
      else
        let updateResult :=
          updateConversations (fun c => c.id = conversationId) (setResolved now) s.conversations
        (.ok updateResult.2.head?,
          deleteGracePeriod { s with conversations := updateResult.1 } conversationId)

/-- Resolve a conversation. -/
def resolveConversation (now conversationId operatorId : Nat) (operatorRole : OperatorRole)
    (s : Store) : Outcome (Option Conversation) :=
  db.transaction (resolveConversationBody now conversationId operatorId operatorRole) s

/-- `UPDATE conversations c SET priority_score = calculate_priority_score(...)
FROM tenants t WHERE c.tenant_id = t.id AND p c`: every selected row that
joins a tenant gets the score computed from that tenant's weights. -/
def recomputeScores (env : Env) (now : Nat) (p : Conversation → Bool) (s : Store) : Store :=
  { s with conversations := s.conversations.map (fun c =>
      if p c then
        match s.tenants.filter (fun t => c.tenant_id = t.id) with
        | [] => c
        | t :: _ =>
          let score :=
            env.calculate_priority_score now c.message_count c.last_message_at
              t.priority_alpha t.priority_beta
          { c with priority_score := score }
      else c) }

/-- Update priority score for a conversation. -/
def updatePriorityScore (env : Env) (now : Nat) (s : Store) (conversationId : Nat) : Store :=
  recomputeScores env now (fun c => c.id = conversationId) s

/-- Body of `deallocateConversation`. -/
def deallocateConversationBody (env : Env) (now conversationId : Nat) (s : Store) :
    Outcome (Option Conversation) :=
  let result :=
    updateConversations (fun c => c.id = conversationId && c.state = .ALLOCATED) (setQueued now)
      s.conversations
  let s1 := { s with conversations := result.1 }
  match result.2 with
  | [] => (.error ⟨"Conversation not found or not allocated", 404⟩, s1)
  | row :: _ =>
    let s2 := deleteGracePeriod s1 conversationId
    let s3 := updatePriorityScore env now s2 conversationId
    (.ok (some row), s3)

/-- Deallocate a conversation back to queue. -/
def deallocateConversation (env : Env) (now conversationId : Nat) (s : Store) :
    Outcome (Option Conversation) :=
  db.transaction (deallocateConversationBody env now conversationId) s

/-- Body of `reassignConversation`. -/
def reassignConversationBody (now conversationId newOperatorId : Nat)
    (requestingOperatorRole : OperatorRole) (s : Store) : Outcome (Option Conversation) :=
  match selectOperatorWithStatus s newOperatorId with
  | [] => (.error ⟨"Target operator not found", 404⟩, s)
  | (_, status) :: _ =>
    if status ≠ some .AVAILABLE then (.error ⟨"Target operator is not available", 400⟩, s)
    else
      match selectConversation s conversationId with
      | [] => (.error ⟨"Conversation not found", 404⟩, s)
      | conversation :: _ =>
        if conversation.state = .RESOLVED then
          (.error ⟨"Cannot reassign resolved conversation", 400⟩, s)
        else
          let isManagerOrAdmin :=
            [OperatorRole.MANAGER, OperatorRole.ADMIN].contains requestingOperatorRole
          if !isManagerOrAdmin && (selectSubscription s newOperatorId conversation.inbox_id).isEmpty then
            (.error ⟨"Target operator is not subscribed to this inbox", 400⟩, s)
          else
            let updateResult :=
              updateConversations (fun c => c.id = conversationId)
                (setAllocated newOperatorId now) s.conversations
            (.ok updateResult.2.head?, { s with conversations := updateResult.1 })

/-- Reassign conversation to another operator. -/
def reassignConversation (now conversationId newOperatorId : Nat)
    (requestingOperatorRole : OperatorRole) (s : Store) : Outcome (Option Conversation) :=
  db.transaction (reassignConversationBody now conversationId newOperatorId requestingOperatorRole) s

/-- Body of `moveConversation`. -/
def moveConversationBody (now conversationId newInboxId tenantId : Nat) (s : Store) :
    Outcome (Option Conversation) :=
  match (s.inboxes.filter (fun i => i.id = newInboxId)).map (fun i => i.tenant_id) with
  | [] => (.error ⟨"Target inbox not found", 404⟩, s)
  | inboxTenant :: _ =>
    if inboxTenant ≠ tenantId then
      (.error ⟨"Cannot move conversation to different tenant", 400⟩, s)
    else
      let updateResult :=
        updateConversations (fun c => c.id = conversationId) (setMoved newInboxId now)
          s.conversations
      let s1 := { s with conversations := updateResult.1 }
      match updateResult.2 with
      | [] => (.error ⟨"Conversation not found", 404⟩, s1)
      | row :: _ =>
        let labels :=
          s1.conversation_labels.filter (fun l => !(l.conversation_id = conversationId))
        (.ok (some row), { s1 with conversation_labels := labels })

/-- Move conversation to different inbox. -/
def moveConversation (now conversationId newInboxId tenantId : Nat) (s : Store) :
    Outcome (Option Conversation) :=
  db.transaction (moveConversationBody now conversationId newInboxId tenantId) s

/-! ## Grace-period reclaimer (`src/services/gracePeriodService.js`) -/

/-- Return value of `processExpiredGracePeriods`. -/
structure SweepResult where
  processed : Nat
  released : Nat
deriving DecidableEq, Repr

/-- `SELECT gpa.conversation_id, gpa.operator_id, c.state FROM
grace_period_assignments gpa JOIN conversations c ON gpa.conversation_id =
c.id WHERE gpa.expires_at <= NOW()`. -/
def selectExpiredGracePeriods (now : Nat) (s : Store) : List (Nat × Nat × ConversationState) :=
  (s.grace_period_assignments.filter (fun gpa => gpa.expires_at ≤ now)).flatMap (fun gpa =>
    (s.conversations.filter (fun c => gpa.conversation_id = c.id)).map (fun c =>
      (gpa.conversation_id, gpa.operator_id, c.state)))

/-- Body of `processExpiredGracePeriods`. -/
def processExpiredGracePeriodsBody (env : Env) (now : Nat) (s : Store) : Outcome SweepResult :=
  match selectExpiredGracePeriods now s with
  | [] => (.ok ⟨0, 0⟩, s)
  | row :: rows =>
    let conversationsToRelease := (row :: rows).map (fun r => r.1)
    let releaseResult :=
      updateConversations
        (fun c => conversationsToRelease.contains c.id && c.state = .ALLOCATED) (setQueued now)
        s.conversations
    let s1 := { s with conversations := releaseResult.1 }
    let s2 := recomputeScores env now (fun c => conversationsToRelease.contains c.id) s1
    let remaining :=
      s2.grace_period_assignments.filter
        (fun g => !(conversationsToRelease.contains g.conversation_id))
    let s3 := { s2 with grace_period_assignments := remaining }
    (.ok ⟨(row :: rows).length, releaseResult.2.length⟩, s3)

/-- Clean up conversations from operators who have been offline too long. -/
def processExpiredGracePeriods (env : Env) (now : Nat) (s : Store) : Outcome SweepResult :=
  db.transaction (processExpiredGracePeriodsBody env now) s

/-! ## Operator status (`src/services/operatorService.js`) -/

/-- `INSERT INTO operator_status ... ON CONFLICT (operator_id) DO UPDATE SET
status = $2, last_status_change_at = NOW() RETURNING *`: the table after the
statement and the returned rows. -/
def upsertOperatorStatus (now operatorId : Nat) (status : OperatorStatusType)
    (rows : List OperatorStatus) : List OperatorStatus × List OperatorStatus :=
  let row : OperatorStatus := ⟨operatorId, status, some now⟩
  if rows.any (fun r => r.operator_id = operatorId) then
    (rows.map (fun r => if r.operator_id = operatorId then
        { r with status := status, last_status_change_at := some now } else r),
      (rows.filter (fun r => r.operator_id = operatorId)).map (fun r =>
        { r with status := status, last_status_change_at := some now }))
  else (rows ++ [row], [row])

/-- `INSERT INTO grace_period_assignments (conversation_id, operator_id,
expires_at, reason) VALUES ($1, $2, $3, 'OFFLINE') ON CONFLICT
(conversation_id) DO NOTHING`. -/
def insertOfflineGracePeriod (operatorId expiresAt : Nat) (rows : List GracePeriodAssignment)
    (conversationId : Nat) : List GracePeriodAssignment :=
  if rows.any (fun g => g.conversation_id = conversationId) then rows
  else rows ++ [⟨conversationId, operatorId, expiresAt, .OFFLINE⟩]

/-- Initiate grace period for the conversations of an operator. -/
def initiateGracePeriod (env : Env) (now : Nat) (s : Store) (operatorId : Nat) : Store :=
  let expiresAt := now + env.gracePeriodMinutes * 60 * 1000
  let conversationIds :=
    (s.conversations.filter (fun c =>
      c.assigned_operator_id = some operatorId && c.state = .ALLOCATED)).map (fun c => c.id)
  let holds :=
    conversationIds.foldl (insertOfflineGracePeriod operatorId expiresAt)
      s.grace_period_assignments
  { s with grace_period_assignments := holds }

/-- Remove grace period for operator: `DELETE FROM grace_period_assignments
WHERE operator_id = $1 AND reason = 'OFFLINE' RETURNING conversation_id`. -/
def removeGracePeriod (s : Store) (operatorId : Nat) : List Nat × Store :=
  let deleted :=
    s.grace_period_assignments.filter (fun g => g.operator_id = operatorId && g.reason = .OFFLINE)
  let remaining :=
    s.grace_period_assignments.filter
      (fun g => !(g.operator_id = operatorId && g.reason = .OFFLINE))
  (deleted.map (fun g => g.conversation_id), { s with grace_period_assignments := remaining })

/-- Body of `updateOperatorStatus`. -/
def updateOperatorStatusBody (env : Env) (now operatorId : Nat) (status : OperatorStatusType)
    (s : Store) : Outcome (Option OperatorStatus) :=
  let currentStatus : Option OperatorStatusType := (selectStatus s operatorId).head?
  let result := upsertOperatorStatus now operatorId status s.operator_status
  let s1 := { s with operator_status := result.1 }
  let s2 :=
    if currentStatus = some .AVAILABLE ∧ status = .OFFLINE then
      initiateGracePeriod env now s1 operatorId
    else s1
  let s3 :=
    if currentStatus = some .OFFLINE ∧ status = .AVAILABLE then
      (removeGracePeriod s2 operatorId).2
    else s2
  (.ok result.2.head?, s3)

/-- Update operator status. -/
def updateOperatorStatus (env : Env) (now operatorId : Nat) (status : OperatorStatusType)
    (s : Store) : Outcome (Option OperatorStatus) :=
  db.transaction (updateOperatorStatusBody env now operatorId status) s

/-! ## The engine as a labelled transition system -/

/-- One call of an engine operation, with its arguments. -/
inductive EngineOp where
  | allocate (operatorId : Nat)
  | claim (operatorId conversationId : Nat)
  | managerAllocate (whoToAssignTo whichConversation : Nat) (whoIsAsking : OperatorRole)
  | resolve (conversationId operatorId : Nat) (operatorRole : OperatorRole)
  | deallocate (conversationId : Nat)
  | reassign (conversationId newOperatorId : Nat) (requestingOperatorRole : OperatorRole)
  | moveInbox (conversationId newInboxId tenantId : Nat)
  | reclaimSweep
  | updateStatus (operatorId : Nat) (status : OperatorStatusType)
deriving DecidableEq, Repr

/-- The store after the operation has run at time `now`, committed or rolled
back. -/
def EngineOp.apply (env : Env) (now : Nat) (s : Store) : EngineOp → Store
  | .allocate operatorId => (allocateConversation env now operatorId s).2
  | .claim operatorId conversationId => (claimConversation now operatorId conversationId s).2
  | .managerAllocate whoToAssignTo whichConversation whoIsAsking =>
    (managerAllocateConversation now whoToAssignTo whichConversation whoIsAsking s).2
  | .resolve conversationId operatorId operatorRole =>
    (resolveConversation now conversationId operatorId operatorRole s).2
  | .deallocate conversationId => (deallocateConversation env now conversationId s).2
  | .reassign conversationId newOperatorId requestingOperatorRole =>
    (reassignConversation now conversationId newOperatorId requestingOperatorRole s).2
  | .moveInbox conversationId newInboxId tenantId =>
    (moveConversation now conversationId newInboxId tenantId s).2
  | .reclaimSweep => (processExpiredGracePeriods env now s).2
  | .updateStatus operatorId status => (updateOperatorStatus env now operatorId status s).2

/-- The stored row of a conversation: the first row with that id, which is
what `rows[0]` of a lookup by id reads. -/
def Store.conversation? (s : Store) (conversationId : Nat) : Option Conversation :=
  s.conversations.find? (fun c => c.id = conversationId)

/-- The predicate of the data model: `assigned_operator_id` is non-null iff
state = ALLOCATED, for every conversation. -/
def AssignedIffAllocated (s : Store) : Prop :=
  ∀ c ∈ s.conversations, c.assigned_operator_id ≠ none ↔ c.state = .ALLOCATED

/-- The same predicate over the conversations that are not RESOLVED. -/
def AssignedIffAllocatedUnlessResolved (s : Store) : Prop :=
  ∀ c ∈ s.conversations, c.state ≠ .RESOLVED →
    (c.assigned_operator_id ≠ none ↔ c.state = .ALLOCATED)

/-- SQL comparison `a > b` of two nullable scores: it holds only between two
scores that are both present. -/
def scoreGt : Option Int → Option Int → Bool
  | some x, some y => decide (y < x)
  | _, _ => false

/-- A candidate of `allocateConversation` for an operator of tenant
`tenantId`: a QUEUED conversation of that tenant in an inbox the operator is
subscribed to. -/
def Eligible (s : Store) (operatorId tenantId : Nat) (c : Conversation) : Prop :=
  c.state = .QUEUED ∧ c.tenant_id = tenantId ∧
    ∃ sub ∈ s.operator_inbox_subscriptions, sub.operator_id = operatorId ∧ sub.inbox_id = c.inbox_id

/-- A property of conversation rows that every write of the engine other
than the resolve update establishes or keeps. -/
structure StableUnderWrites (P : Conversation → Prop) : Prop where
  allocated : ∀ c operatorId now, P (setAllocated operatorId now c)
  queued : ∀ c now, P (setQueued now c)
  moved : ∀ c newInboxId now, P (setMoved newInboxId now c)
  rescored : ∀ (c : Conversation) score, P c → P { c with priority_score := score }

/-- The stored status of an operator: the first `operator_status` row of
that operator, if any. -/
def Store.status? (s : Store) (operatorId : Nat) : Option OperatorStatusType :=
  (s.operator_status.find? (fun r => r.operator_id = operatorId)).map (fun r => r.status)

/-- The stored row of an operator. -/
def Store.operator? (s : Store) (operatorId : Nat) : Option Operator :=
  s.operators.find? (fun o => o.id = operatorId)

/-- The stored row of an inbox. -/
def Store.inbox? (s : Store) (inboxId : Nat) : Option Inbox :=
  s.inboxes.find? (fun i => i.id = inboxId)

/-- The stored row of a tenant. -/
def Store.tenant? (s : Store) (tenantId : Nat) : Option Tenant :=
  s.tenants.find? (fun t => t.id = tenantId)

/-- The operator has a subscription row for the inbox. -/
def Subscribed (s : Store) (operatorId inboxId : Nat) : Prop :=
  ∃ sub ∈ s.operator_inbox_subscriptions, sub.operator_id = operatorId ∧ sub.inbox_id = inboxId

/-- Primary key of `conversations`: no two rows share an id. -/
def UniqueConversationIds (s : Store) : Prop :=
  (s.conversations.map (fun c => c.id)).Nodup

/-- Unique constraint of `grace_period_assignments`: at most one hold per
conversation. -/
def UniqueHolds (s : Store) : Prop :=
  (s.grace_period_assignments.map (fun g => g.conversation_id)).Nodup

/-- Foreign key of `grace_period_assignments.conversation_id`: every hold
refers to a stored conversation. -/
def HoldsReferToConversations (s : Store) : Prop :=
  ∀ g ∈ s.grace_period_assignments, ∃ c ∈ s.conversations, c.id = g.conversation_id

/-- What the score update writes for one selected row: the row with the
score computed from the weights of the first tenant row it joins, and the
row itself when it joins none. -/
def rescore (env : Env) (now : Nat) (tenants : List Tenant) (c : Conversation) : Conversation :=
  match tenants.filter (fun t => c.tenant_id = t.id) with
  | [] => c
  | t :: _ =>
    let score :=
      env.calculate_priority_score now c.message_count c.last_message_at
        t.priority_alpha t.priority_beta
    { c with priority_score := score }

/-- The conversation ids the reclaim sweep collects: those of the holds that
are due at `now` and join a conversation. -/
def sweepIds (now : Nat) (s : Store) : List Nat :=
  (selectExpiredGracePeriods now s).map (fun r => r.1)

/-! ## Manual grace periods (`src/services/gracePeriodService.js`) -/

/-- Create grace period manually: `INSERT INTO grace_period_assignments
(conversation_id, operator_id, expires_at, reason) VALUES ($1, $2, $3, $4)
ON CONFLICT (conversation_id) DO UPDATE SET expires_at = $3, reason = $4
RETURNING *`, run outside a transaction; the result is the first returned
row.  A caller that leaves `reason` out passes 'MANUAL'. -/
def createGracePeriod (conversationId operatorId expiresAt : Nat) (reason : GraceReason)
    (s : Store) : Option GracePeriodAssignment × Store :=
  let conflicting :=
    s.grace_period_assignments.filter (fun g => g.conversation_id = conversationId)
  match conflicting with
  | [] =>
    let row : GracePeriodAssignment := ⟨conversationId, operatorId, expiresAt, reason⟩
    (some row, { s with grace_period_assignments := s.grace_period_assignments ++ [row] })
  | _ :: _ =>
    let doUpdate := fun (g : GracePeriodAssignment) =>
      { g with expires_at := expiresAt, reason := reason }
    let rows :=
      s.grace_period_assignments.map
        (fun g => if g.conversation_id = conversationId then doUpdate g else g)
    ((conflicting.map doUpdate).head?, { s with grace_period_assignments := rows })

/-! ## Bulk score update and the reclaim job (`src/jobs/gracePeriodJob.js`) -/

/-- Bulk update priority scores for all queued conversations: `UPDATE
conversations c SET priority_score = calculate_priority_score(...) FROM
tenants t WHERE c.tenant_id = t.id AND c.state = 'QUEUED'`; the result is the
row count. -/
def updateAllPriorityScores (env : Env) (now : Nat) (s : Store) : Outcome Nat :=
  let updated :=
    s.conversations.filter (fun c =>
      c.state = .QUEUED && (s.tenants.any (fun t => c.tenant_id = t.id)))
  (.ok updated.length, recomputeScores env now (fun c => c.state = .QUEUED) s)

/-- State of class `GracePeriodJob`. -/
structure GracePeriodJob where
  intervalMinutes : Nat
  isRunning : Bool
deriving DecidableEq, Repr

/-- What one call of `GracePeriodJob.run` leaves behind: the job, the store,
how many times it called `processExpiredGracePeriods`, and the error that
reached the caller, if any. -/
structure JobRun where
  job : GracePeriodJob
  store : Store
  sweeps : Nat
  thrown : Option AppError
deriving DecidableEq, Repr

/-- Body of `GracePeriodJob.run`, over the two service calls it makes.  A
call that throws leaves the store as it returns it; the `catch` block logs
the error and the `finally` block clears `isRunning`. -/
def GracePeriodJob.runWith (sweep : Store → Outcome SweepResult)
    (updateAll : Store → Outcome Nat) (job : GracePeriodJob) (s : Store) : JobRun :=
  if job.isRunning then
    ⟨job, s, 0, none⟩
  else
    let running := { job with isRunning := true }
    match sweep s with
    | (.error _, s1) => ⟨{ running with isRunning := false }, s1, 1, none⟩
    | (.ok result, s1) =>
      if result.released > 0 then
        match updateAll s1 with
        | (.error _, s2) => ⟨{ running with isRunning := false }, s2, 1, none⟩
        | (.ok _, s2) => ⟨{ running with isRunning := false }, s2, 1, none⟩
      else
        ⟨{ running with isRunning := false }, s1, 1, none⟩

/-- Run the grace period expiration job. -/
def GracePeriodJob.run (env : Env) (now : Nat) (job : GracePeriodJob) (s : Store) : JobRun :=
  GracePeriodJob.runWith (processExpiredGracePeriods env now) (updateAllPriorityScores env now)
    job s

/-! ## Middleware (`src/middleware/auth.js`, `src/utils/validators.js`) -/

/-- What a middleware does with a request: it calls `next()`, it calls
`next(error)`, or it sends a response and does not call `next`. -/
inductive Handled where
  | next
  | nextError (error : AppError)
  | respond (status : Nat) (message : String)
deriving DecidableEq, Repr

/-- The middleware returned by `authorize(...allowedRoles)`, applied to a
request whose `req.operator` is `operator`. -/
def authorize (allowedRoles : List OperatorRole) (operator : Option Operator) : Handled :=
  match operator with
  | none => .nextError ⟨"Authentication required", 401⟩
  | some op =>
    if !allowedRoles.contains op.role then .nextError ⟨"Insufficient permissions", 403⟩
    else .next

/-- The authorization step of `router.post('/deallocate', authenticate,
authorize('MANAGER', 'ADMIN'), ...)`. -/
def deallocateRouteAuthorize (operator : Option Operator) : Handled :=
  authorize [.MANAGER, .ADMIN] operator

/-- Figure out who is making the request: the operator row of the
`x-operator-id` header, which becomes `req.operator`. -/
def authenticate (s : Store) (whoIsThis : Option Nat) : Except AppError Operator :=
  match whoIsThis with
  | none => .error ⟨"Authentication required", 401⟩
  | some operatorId =>
    match selectOperatorWithStatus s operatorId with
    | [] => .error ⟨"Operator not found", 404⟩
    | (operator, _) :: _ => .ok operator

/-- A JavaScript condition `if (x)` on an optional number: absent and 0 are
both false. -/
def truthy (x : Option Nat) : Option Nat :=
  x.filter (fun n => n ≠ 0)

/-- Check if operator has access to the inbox. -/
def checkInboxAccess (s : Store) (operator : Operator) (inboxId : Option Nat) : Handled :=
  if [OperatorRole.ADMIN, OperatorRole.MANAGER].contains operator.role then .next
  else
    match truthy inboxId with
    | none => .next
    | some inbox =>
      match selectSubscription s operator.id inbox with
      | [] => .nextError ⟨"Access denied to this inbox", 403⟩
      | _ :: _ => .next

/-! ## Listing and search (`src/services/conversationService.js`) -/

/-- `rows LEFT JOIN table ON cond`: every pairing of a row with a matching
table row, and the row with NULL when no table row matches. -/
def leftJoin {α β : Type} (rows : List α) (table : List β) (cond : α → β → Bool) :
    List (α × Option β) :=
  rows.flatMap (fun a =>
    match table.filter (cond a) with
    | [] => [(a, none)]
    | bs => bs.map (fun b => (a, some b)))

/-- Row of `SELECT c.*, i.display_name as inbox_name, o.name as
operator_name`. -/
structure NamedConversation where
  conversation : Conversation
  inbox_name : Option String
  operator_name : Option String
deriving DecidableEq, Repr

/-- `SELECT c.*, i.display_name as inbox_name, o.name as operator_name FROM
conversations c LEFT JOIN inboxes i ON c.inbox_id = i.id LEFT JOIN operators
o ON c.assigned_operator_id = o.id`. -/
def selectWithNames (s : Store) : List NamedConversation :=
  (leftJoin (leftJoin s.conversations s.inboxes (fun c i => c.inbox_id = i.id)) s.operators
      (fun r o => r.1.assigned_operator_id = some o.id)).map
    (fun r => ⟨r.1.1, r.1.2.map (fun i => i.display_name), r.2.map (fun o => o.name)⟩)

/-- Search conversations by phone number: the joined rows `WHERE
c.customer_phone_number = $1 AND c.tenant_id = $2 ORDER BY c.last_message_at
DESC`.  A query only; the store is not written. -/
def searchByPhoneNumber (s : Store) (phoneNumber : String) (tenantId : Nat) :
    List NamedConversation :=
  ((selectWithNames s).filter (fun r =>
      r.conversation.customer_phone_number = phoneNumber &&
        r.conversation.tenant_id = tenantId)).insertionSort
    (fun a b => b.conversation.last_message_at ≤ a.conversation.last_message_at)

/-- Values of the `sort` filter. -/
inductive ListSort where
  | priority
  | newest
  | oldest
deriving DecidableEq, Repr

/-- Values behind the cursor text `priority_score|last_message_at|id`.  The
score is absent when the row had a NULL score: the text then starts with
`null`, which `parseFloat` reads as NaN. -/
structure PriorityCursor where
  score : Option Int
  time : Nat
  id : Nat
deriving DecidableEq, Repr

/-- A cursor text, represented by the values it was rendered from: the three
fields of a 'priority' cursor, or the id of a 'newest' or 'oldest' cursor. -/
inductive ListCursor where
  | priority (fields : PriorityCursor)
  | id (id : Nat)
deriving DecidableEq, Repr

/-- The `filters` argument of `getConversations`. -/
structure ListFilters where
  limit : Option Nat
  cursor : Option ListCursor
  inbox_id : Option Nat
  state : Option ConversationState
  operator_id : Option Nat
  label_id : Option Nat
  sort : Option ListSort
deriving DecidableEq, Repr

/-- Row of the list query: the joined row and the ids of the labels
attached to the conversation (the `labels` column). -/
structure ListedConversation where
  conversation : Conversation
  inbox_name : Option String
  operator_name : Option String
  labels : List Nat
deriving DecidableEq, Repr

/-- Result of `getConversations`. -/
structure ListPage where
  conversations : List ListedConversation
  next_cursor : Option ListCursor
  has_more : Bool
deriving DecidableEq, Repr

/-- How `getConversations` can throw. -/
inductive ListFailure where
  | queryRejected
  | typeError
deriving DecidableEq, Repr

/-- The list query before its WHERE clause: the joined rows with their
`labels` column. -/
def selectListed (s : Store) : List ListedConversation :=
  (selectWithNames s).map (fun r =>
    ⟨r.conversation, r.inbox_name, r.operator_name,
      (s.conversation_labels.filter
        (fun l => l.conversation_id = r.conversation.id)).map (fun l => l.label_id)⟩)

/-- The filter conditions `getConversations` appends to `WHERE 1=1`. -/
def filterClause (s : Store) (filters : ListFilters) (c : Conversation) : Bool :=
  (match truthy filters.inbox_id with
    | none => true
    | some inbox => c.inbox_id = inbox) &&
  (match filters.state with
    | none => true
    | some state => c.state = state) &&
  (match truthy filters.operator_id with
    | none => true
    | some operator => c.assigned_operator_id = some operator) &&
  (match truthy filters.label_id with
    | none => true
    | some label =>
      s.conversation_labels.any (fun l => l.conversation_id = c.id && l.label_id = label))

/-- The cursor condition of sort 'priority': `c.priority_score < $n OR
(c.priority_score = $n AND c.last_message_at < $m) OR (c.priority_score = $n
AND c.last_message_at = $m AND c.id > $k)`.  No comparison with a NULL score
is true; a NaN parameter is above every stored score and equal to none. -/
def afterPriorityCursor (k : PriorityCursor) (c : Conversation) : Bool :=
  match c.priority_score, k.score with
  | none, _ => false
  | some _, none => true
  | some x, some p =>
    decide (x < p) || (decide (x = p) && decide (c.last_message_at < k.time)) ||
      (decide (x = p) && decide (c.last_message_at = k.time) && decide (k.id < c.id))

/-- The cursor condition, if the database accepts its parameters.  Under
'priority' the text is split at `|` into score, time and id; under 'newest'
and 'oldest' `parseInt` reads the leading integer of the text, and the
condition is `c.id < $n` or `c.id > $n`.  A cursor that leaves `parseInt`
without a number makes the id parameter NaN, which the database rejects. -/
def cursorClause (sort : ListSort) (cursor : Option ListCursor) :
    Except ListFailure (Conversation → Bool) :=
  match cursor, sort with
  | none, _ => .ok (fun _ => true)
  | some (.priority k), .priority => .ok (afterPriorityCursor k)
  | some (.id _), .priority => .error .queryRejected
  | some (.id k), .newest => .ok (fun c => decide (c.id < k))
  | some (.id k), .oldest => .ok (fun c => decide (k < c.id))
  | some (.priority ⟨none, _, _⟩), _ => .error .queryRejected
  | some (.priority ⟨some x, _, _⟩), .newest => .ok (fun c => decide ((c.id : Int) < x))
  | some (.priority ⟨some x, _, _⟩), .oldest => .ok (fun c => decide (x < (c.id : Int)))

/-- Sort key comparison of `ORDER BY c.last_message_at DESC, c.id ASC`. -/
def orderByTimeDescIdAsc (a b : Conversation) : Bool :=
  decide (b.last_message_at < a.last_message_at) ||
    (decide (b.last_message_at = a.last_message_at) && decide (a.id ≤ b.id))

/-- Sort key comparison of the three orders of `getConversations`: `a` is
placed no later than `b`.  'priority' is `c.priority_score DESC,
c.last_message_at DESC, c.id ASC` with a NULL score first, 'newest' is
`c.last_message_at DESC, c.id DESC`, 'oldest' is `c.last_message_at ASC,
c.id ASC`. -/
def listOrder (sort : ListSort) (a b : Conversation) : Bool :=
  match sort with
  | .priority =>
    match a.priority_score, b.priority_score with
    | none, none => orderByTimeDescIdAsc a b
    | none, some _ => true
    | some _, none => false
    | some x, some y => decide (y < x) || (decide (y = x) && orderByTimeDescIdAsc a b)
  | .newest =>
    decide (b.last_message_at < a.last_message_at) ||
      (decide (b.last_message_at = a.last_message_at) && decide (b.id ≤ a.id))
  | .oldest =>
    decide (a.last_message_at < b.last_message_at) ||
      (decide (a.last_message_at = b.last_message_at) && decide (a.id ≤ b.id))

/-- The cursor text generated from the last row of a page. -/
def nextCursor (sort : ListSort) (lastConv : Conversation) : ListCursor :=
  match sort with
  | .priority => .priority ⟨lastConv.priority_score, lastConv.last_message_at, lastConv.id⟩
  | _ => .id lastConv.id

/-- Get conversations with cursor-based pagination. -/
def getConversations (env : Env) (s : Store) (filters : ListFilters) :
    Except ListFailure ListPage :=
  let limit := filters.limit.getD env.defaultLimit
  let sort := filters.sort.getD .priority
  match cursorClause sort filters.cursor with
  | .error e => .error e
  | .ok afterCursor =>
    let rows :=
      (((selectListed s).filter (fun r =>
          filterClause s filters r.conversation && afterCursor r.conversation)).insertionSort
        (fun a b => listOrder sort a.conversation b.conversation = true)).take (limit + 1)
    let hasMore := decide (rows.length > limit)
    let conversations := if hasMore then rows.take limit else rows
    if hasMore then
      match conversations.getLast? with
      | none => .error .typeError
      | some lastConv =>
        .ok ⟨conversations, some (nextCursor sort lastConv.conversation), hasMore⟩
    else .ok ⟨conversations, none, hasMore⟩

/-- What the list endpoint answers. -/
inductive ListResponse where
  | json (page : ListPage)
  | failed (error : AppError)
  | thrown (failure : ListFailure)
deriving DecidableEq, Repr

/-- The route `GET /api/v1/conversations`: `authenticate`, the validation of
the query (`query` is the validated value), `checkInboxAccess`, then
`listConversations`, which passes `req.query` to `getConversations`. -/
def listConversations (env : Env) (s : Store) (whoIsThis : Option Nat) (query : ListFilters) :
    ListResponse :=
  match authenticate s whoIsThis with
  | .error e => .failed e
  | .ok operator =>
    match checkInboxAccess s operator query.inbox_id with
    | .nextError e => .failed e
    | .respond status message => .failed ⟨message, status⟩
    | .next =>
      match getConversations env s query with
      | .error f => .thrown f
      | .ok page => .json page

/-! ## Validation of the list query (`src/utils/validators.js`) -/

/-- The fields of `req.query` on the list endpoint, as the query string
carries them. -/
structure ListQueryText where
  limit : Option String
  cursor : Option String
  inbox_id : Option String
  state : Option String
  operator_id : Option String
  label_id : Option String
  sort : Option String
deriving DecidableEq, Repr

/-- The value `conversationSchemas.list` yields for a valid query. -/
structure ListQuery where
  limit : Int
  cursor : Option String
  inbox_id : Option Int
  state : Option ConversationState
  operator_id : Option Int
  label_id : Option Int
  sort : ListSort
deriving DecidableEq, Repr

/-- The text of a `sort` value. -/
def ListSort.toString : ListSort → String
  | .priority => "priority"
  | .newest => "newest"
  | .oldest => "oldest"

/-- Rule `Joi.number().integer()` with its `.min` and `.max` on a present
field: the integer the text stands for, when it is an integer within the
bounds.  `toNumber` is the conversion of a text to a number that the
validation library performs. -/
def joiInteger (toNumber : String → Option ℚ) (min max : Option Int) (text : String) :
    Option Int :=
  match toNumber text with
  | none => none
  | some q =>
    if q.isInt && min.all (fun (m : Int) => decide ((m : ℚ) ≤ q)) &&
        max.all (fun (m : Int) => decide (q ≤ (m : ℚ)))
    then some q.num
    else none

/-- Rule `Joi.string()` on a present field: any text but the empty one. -/
def joiString (text : String) : Option String :=
  if text = "" then none else some text

/-- Rule `Joi.string().valid(...)` on a present field: one of the listed
values, by its text. -/
def joiValid {α : Type} (values : List α) (toText : α → String) (text : String) : Option α :=
  values.find? (fun v => toText v = text)

/-- Rule modifier `.optional()`: an absent field is valid and stays absent. -/
def joiOptional {α : Type} (rule : String → Option α) (field : Option String) :
    Option (Option α) :=
  match field with
  | none => some none
  | some text => (rule text).map some

/-- Rule modifier `.default(value)`: an absent field is valid and becomes
`value`. -/
def joiDefault {α : Type} (rule : String → Option α) (value : α) (field : Option String) :
    Option α :=
  match field with
  | none => some value
  | some text => rule text

namespace conversationSchemas

/-- Rule of the field `limit` in `conversationSchemas.list`:
`Joi.number().integer().min(1).max(100).default(20)`. -/
def listLimit (toNumber : String → Option ℚ) (field : Option String) : Option Int :=
  joiDefault (joiInteger toNumber (some 1) (some 100)) 20 field

/-- Schema `conversationSchemas.list`, validated with `abortEarly: false`:
the validated value, or the names of the fields in error. -/
def list (toNumber : String → Option ℚ) (data : ListQueryText) :
    Except (List String) ListQuery :=
  let limit := listLimit toNumber data.limit
  let cursor := joiOptional joiString data.cursor
  let inbox_id := joiOptional (joiInteger toNumber none none) data.inbox_id
  let state :=
    joiOptional (joiValid [ConversationState.QUEUED, .ALLOCATED, .RESOLVED]
      ConversationState.toString) data.state
  let operator_id := joiOptional (joiInteger toNumber none none) data.operator_id
  let label_id := joiOptional (joiInteger toNumber none none) data.label_id
  let sort :=
    joiDefault (joiValid [ListSort.newest, .oldest, .priority] ListSort.toString) .priority
      data.sort
  match limit, cursor, inbox_id, state, operator_id, label_id, sort with
  | some limit, some cursor, some inbox_id, some state, some operator_id, some label_id,
      some sort =>
    .ok ⟨limit, cursor, inbox_id, state, operator_id, label_id, sort⟩
  | _, _, _, _, _, _, _ =>
    .error
      ((if limit.isNone then ["limit"] else []) ++ (if cursor.isNone then ["cursor"] else []) ++
        (if inbox_id.isNone then ["inbox_id"] else []) ++
        (if state.isNone then ["state"] else []) ++
        (if operator_id.isNone then ["operator_id"] else []) ++
        (if label_id.isNone then ["label_id"] else []) ++
        (if sort.isNone then ["sort"] else []))

end conversationSchemas

/-- The middleware returned by `validate(schema, source)`, applied to the
data of the request: on an error it responds with status 400 and message
'Validation failed'; otherwise it replaces the data with the validated value
and calls `next()`. -/
def validate {Q V : Type} (schema : Q → Except (List String) V) (data : Q) :
    Handled × Option V :=
  match schema data with
  | .error _ => (.respond 400 "Validation failed", none)
  | .ok value => (.next, some value)

/-- Primary key of `inboxes`. -/
def UniqueInboxIds (s : Store) : Prop :=
  (s.inboxes.map (fun i => i.id)).Nodup

/-- Primary key of `operators`. -/
def UniqueOperatorIds (s : Store) : Prop :=
  (s.operators.map (fun o => o.id)).Nodup

/-- The joined row of a conversation when the joins are on primary keys: the
display name of its stored inbox and the name of its stored assignee. -/
def withNames (s : Store) (c : Conversation) : NamedConversation :=
  ⟨c, (s.inboxes.find? (fun i => c.inbox_id = i.id)).map (fun i => i.display_name),
    (s.operators.find? (fun o => c.assigned_operator_id = some o.id)).map (fun o => o.name)⟩

/-- The page of a list request without a cursor, followed by the page for the
`next_cursor` it returned, when it returned one. -/
def twoPages (env : Env) (s : Store) (filters : ListFilters) :
    Except ListFailure (List ListedConversation) :=
  match getConversations env s { filters with cursor := none } with
  | .error e => .error e
  | .ok first =>
    match first.next_cursor with
    | none => .ok first.conversations
    | some k =>
      match getConversations env s { filters with cursor := some k } with
      | .error e => .error e
      | .ok second => .ok (first.conversations ++ second.conversations)

/-- The rows that match the filters of a list request, in the order of its
sort. -/
def matchingInOrder (s : Store) (filters : ListFilters) : List ListedConversation :=
  ((selectListed s).filter (fun r => filterClause s filters r.conversation)).insertionSort
    (fun a b => listOrder (filters.sort.getD .priority) a.conversation b.conversation = true)

/-! ## Sample data -/

namespace Sample

/-- A conversation row with the columns that matter to the engine. -/
def conv (id tenant inbox : Nat) (state : ConversationState) (assignee : Option Nat)
    (lastMessageAt : Nat) (score : Option Int) : Conversation :=
  { id := id, tenant_id := tenant, inbox_id := inbox, external_conversation_id := "ext",
    customer_phone_number := "+100", state := state, assigned_operator_id := assignee,
    message_count := some 3, last_message_at := lastMessageAt, priority_score := score,
    created_at := some 0, updated_at := some 0, resolved_at := none }

/-- Configuration with the default fetch window and grace duration, and a
score that grows with the wait. -/
def env : Env :=
  { maxConversationFetch := 100, gracePeriodMinutes := 15,
    calculate_priority_score := fun now _ lastMessageAt _ _ => some (now - lastMessageAt) }

/-- One tenant with two inboxes, an available operator subscribed to inbox
1, two queued conversations, one allocated conversation with an expired
hold and one resolved conversation. -/
def store : Store :=
  { conversations :=
      [conv 1 1 1 .QUEUED none 5 (some 3), conv 2 1 1 .QUEUED none 7 (some 9),
       conv 3 1 1 .ALLOCATED (some 1) 7 (some 9),
       { conv 4 1 1 .RESOLVED (some 1) 2 (some 1) with resolved_at := some 50 }],
    operators := [⟨1, 1, .OPERATOR, "Ann", "ann@a"⟩, ⟨2, 1, .MANAGER, "Bob", "bob@a"⟩],
    operator_status := [⟨1, .AVAILABLE, some 0⟩, ⟨2, .AVAILABLE, some 0⟩],
    operator_inbox_subscriptions := [⟨1, 1⟩],
    inboxes := [⟨1, 1, "Support", "+1"⟩, ⟨2, 1, "Sales", "+2"⟩],
    tenants := [⟨1, "Acme", some 4, some 6⟩],
    grace_period_assignments := [⟨3, 1, 10, .OFFLINE⟩],
    conversation_labels := [⟨3, 1⟩, ⟨4, 2⟩] }

/-- Two tenants: conversation 1 and operator 1 belong to tenant 1, operator
7 and inbox 5 belong to tenant 2. -/
def twoTenants : Store :=
  { conversations := [conv 1 1 1 .ALLOCATED (some 1) 5 (some 3)],
    operators := [⟨1, 1, .OPERATOR, "Ann", "ann@a"⟩, ⟨7, 2, .OPERATOR, "Zed", "zed@b"⟩],
    operator_status := [⟨1, .AVAILABLE, some 0⟩, ⟨7, .AVAILABLE, some 0⟩],
    operator_inbox_subscriptions := [⟨1, 1⟩, ⟨7, 5⟩],
    inboxes := [⟨1, 1, "Support", "+1"⟩, ⟨5, 2, "Other", "+5"⟩],
    tenants := [⟨1, "Acme", some 4, some 6⟩, ⟨2, "Bolt", some 5, some 5⟩],
    grace_period_assignments := [],
    conversation_labels := [] }

/-- The sample store with a third operator, who is OFFLINE and has no
subscription. -/
def withOffline : Store :=
  { store with
    operators := store.operators ++ [⟨3, 1, .OPERATOR, "Cy", "cy@a"⟩],
    operator_status := store.operator_status ++ [⟨3, .OFFLINE, some 0⟩] }

/-- The sample store in which the hold on conversation 3 was created by
hand. -/
def manualHold : Store :=
  { store with grace_period_assignments := [⟨3, 1, 10, .MANUAL⟩] }

/-- The sample store with operator 1 OFFLINE, the hold of the offline
transition on conversation 3 and a hold created by hand on conversation 2. -/
def away : Store :=
  { store with
    operator_status := [⟨1, .OFFLINE, some 0⟩, ⟨2, .AVAILABLE, some 0⟩],
    grace_period_assignments := [⟨3, 1, 500, .OFFLINE⟩, ⟨2, 2, 600, .MANUAL⟩] }

/-- The two tenants with a second conversation, which belongs to tenant 2. -/
def bothTenants : Store :=
  { twoTenants with
    conversations := twoTenants.conversations ++ [conv 2 2 5 .QUEUED none 9 (some 8)] }

/-- The sample store with two queued conversations, neither of which has a
score. -/
def unscored : Store :=
  { store with
    conversations := [conv 1 1 1 .QUEUED none 5 none, conv 2 1 1 .QUEUED none 3 none] }

/-- A reading of numeric texts that knows three of them. -/
def toNumber (text : String) : Option ℚ :=
  if text = "10" then some 10
  else if text = "150" then some 150
  else if text = "2.5" then some (5 / 2)
  else none

/-- A list query that carries a `limit` only. -/
def limitOnly (limit : String) : ListQueryText :=
  { limit := some limit, cursor := none, inbox_id := none, state := none, operator_id := none,
    label_id := none, sort := none }

/-- A validated list query with no filter: limit `n` and sort `sort`. -/
def listBy (n : Nat) (sort : ListSort) : ListFilters :=
  { limit := some n, cursor := none, inbox_id := none, state := none, operator_id := none,
    label_id := none, sort := some sort }

/-- Twenty queued conversations with score 1000 and conversation 3,
ALLOCATED to operator 1. -/
def crowded : Store :=
  { store with
    conversations :=
      (List.range 20).map (fun k => conv (k + 10) 1 1 .QUEUED none 50 (some 1000)) ++
        [conv 3 1 1 .ALLOCATED (some 1) 7 (some 9)] }

end Sample

/-! ## Transactions and updates -/

theorem transaction_eq_ok_iff {α : Type} (body : Store → Outcome α) (s s' : Store) (a : α) :
    db.transaction body s = (.ok a, s') ↔ body s = (.ok a, s') := by
  unfold db.transaction
  rcases hb : body s with ⟨r, s1⟩
  cases r <;> simp

theorem transaction_of_error {α : Type} (body : Store → Outcome α) (s s1 : Store) (e : AppError)
    (h : body s = (.error e, s1)) : db.transaction body s = (.error e, s) := by
  simp [db.transaction, h]

theorem head?_filter_eq_find? {α : Type} (p : α → Bool) (l : List α) :
    (l.filter p).head? = l.find? p := by
  induction l with
  | nil => rfl
  | cons a l ih =>
    cases hp : p a
    · simp [List.filter_cons, List.find?_cons, hp]
    · simp [List.filter_cons, List.find?_cons, hp]

theorem find?_updateConversations (k : Nat) (f : Conversation → Conversation)
    (hf : ∀ c, (f c).id = c.id) (rows : List Conversation) :
    (updateConversations (fun c => c.id = k) f rows).1.find? (fun c => c.id = k)
      = (updateConversations (fun c => c.id = k) f rows).2.head? := by
  induction rows with
  | nil => simp [updateConversations]
  | cons c rows ih =>
    simp only [updateConversations] at ih ⊢
    by_cases hk : c.id = k
    · simp [hk, hf]
    · simp only [List.map_cons, List.filter_cons, List.find?_cons, hk, decide_False,
        Bool.false_eq_true, if_false]
      exact ih

theorem mem_updateConversations {p : Conversation → Bool} {f : Conversation → Conversation}
    {rows : List Conversation} {c' : Conversation}
    (h : c' ∈ (updateConversations p f rows).1) :
    ∃ c ∈ rows, c' = if p c then f c else c := by
  simp only [updateConversations, List.mem_map] at h
  obtain ⟨c, hc, rfl⟩ := h
  exact ⟨c, hc, rfl⟩

theorem head?_updateConversations {p : Conversation → Bool} {f : Conversation → Conversation}
    {rows : List Conversation} {r : Conversation}
    (h : (updateConversations p f rows).2.head? = some r) :
    ∃ c ∈ rows, p c = true ∧ r = f c := by
  have hr : r ∈ (updateConversations p f rows).2 := List.mem_of_mem_head? h
  simp only [updateConversations, List.mem_map, List.mem_filter] at hr
  obtain ⟨c, ⟨hc, hp⟩, rfl⟩ := hr
  exact ⟨c, hc, hp, rfl⟩

/-- What the shared assignment statement `UPDATE conversations SET state =
'ALLOCATED', assigned_operator_id = $1 ... WHERE id = $2 RETURNING *`
guarantees about the row it returns and the rows it leaves in the table. -/
theorem setAllocated_returning (operatorId now k : Nat) (rows : List Conversation)
    (r : Conversation)
    (h : (updateConversations (fun c => c.id = k) (setAllocated operatorId now) rows).2.head?
      = some r) :
    r.id = k ∧ r.state = .ALLOCATED ∧ r.assigned_operator_id = some operatorId ∧
    (updateConversations (fun c => c.id = k) (setAllocated operatorId now) rows).1.find?
      (fun c => c.id = k) = some r ∧
    ∀ c ∈ (updateConversations (fun c => c.id = k) (setAllocated operatorId now) rows).1,
      c.id = k → c.state = .ALLOCATED ∧ c.assigned_operator_id = some operatorId := by
  obtain ⟨c, _, hp, rfl⟩ := head?_updateConversations h
  refine ⟨by simpa [setAllocated] using hp, rfl, rfl, ?_, ?_⟩
  · rw [find?_updateConversations k (setAllocated operatorId now) (fun c => rfl), h]
  · intro c' hc' hid
    obtain ⟨c0, _, rfl⟩ := mem_updateConversations hc'
    by_cases h0 : c0.id = k
    · simp [h0, setAllocated]
    · simp [h0] at hid

/-! ## Allocate and claim -/

/-- Inversion of a successful `allocateConversation`: the checks that passed,
the candidate that was selected and the update that was run. -/
theorem allocateConversationBody_ok {env : Env} {now operatorId : Nat} {s s' : Store}
    {r : Conversation}
    (h : allocateConversationBody env now operatorId s = (.ok (some r), s')) :
    ∃ tenant best,
      (selectStatus s operatorId).head? = some .AVAILABLE ∧
      (selectCompanySettings s operatorId).head?.map (fun x => x.1) = some tenant ∧
      (selectAvailableConversations env s tenant (selectSubscribedInboxes s operatorId)).head?
        = some best ∧
      (updateConversations (fun c => c.id = best.id) (setAllocated operatorId now)
        s.conversations).2.head? = some r ∧
      s' = { s with conversations :=
        (updateConversations (fun c => c.id = best.id) (setAllocated operatorId now)
          s.conversations).1 } := by
  unfold allocateConversationBody at h
  split at h
  · simp at h
  · rename_i status rest hstatus
    split at h
    · simp at h
    · rename_i havail
      split at h
      · simp at h
      · rename_i inbox inboxes hsubs
        split at h
        · simp at h
        · rename_i tenant a b settings hsettings
          split at h
          · simp at h
          · rename_i best candidates hbest
            simp only [Prod.mk.injEq, Except.ok.injEq] at h
            refine ⟨tenant, best, ?_, ?_, ?_, h.1, h.2.symm⟩
            · have : status = .AVAILABLE := by simpa using havail
              simp [hstatus, this]
            · simp [hsettings]
            · simp [hsubs, hbest]

/-- Inversion of a successful `claimConversation`. -/
theorem claimConversationBody_ok {now operatorId conversationId : Nat} {s s' : Store}
    {r : Option Conversation}
    (h : claimConversationBody now operatorId conversationId s = (.ok r, s')) :
    ∃ conversation,
      (selectStatus s operatorId).head? = some .AVAILABLE ∧
      (selectConversation s conversationId).head? = some conversation ∧
      conversation.state = .QUEUED ∧
      selectSubscription s operatorId conversation.inbox_id ≠ [] ∧
      (updateConversations (fun c => c.id = conversationId) (setAllocated operatorId now)
        s.conversations).2.head? = r ∧
      s' = { s with conversations :=
        (updateConversations (fun c => c.id = conversationId) (setAllocated operatorId now)
          s.conversations).1 } := by
  unfold claimConversationBody at h
  split at h
  · simp at h
  · rename_i status rest hstatus
    split at h
    · simp at h
    · rename_i havail
      split at h
      · simp at h
      · rename_i conversation others hconv
        split at h
        · simp at h
        · rename_i hqueued
          split at h
          · simp at h
          · rename_i sub subs hsub
            simp only [Prod.mk.injEq, Except.ok.injEq] at h
            refine ⟨conversation, ?_, ?_, ?_, ?_, h.1, h.2.symm⟩
            · have : status = .AVAILABLE := by simpa using havail
              simp [hstatus, this]
            · simp [hconv]
            · simpa using hqueued
            · simp [hsub]

/-- C1: whenever `allocateConversation` or `claimConversation` returns a
conversation for operator `op`, the returned row has state ALLOCATED and
assignee `op`, it is the stored row of its id after the call, and every
stored row with that id has state ALLOCATED and assignee `op`. -/
theorem allocate_claim_returns_allocated (env : Env) (now op : Nat) (s s' : Store)
    (r : Conversation) :
    (allocateConversation env now op s = (.ok (some r), s') →
      r.state = .ALLOCATED ∧ r.assigned_operator_id = some op ∧
      s'.conversation? r.id = some r ∧
      ∀ c ∈ s'.conversations, c.id = r.id →
        c.state = .ALLOCATED ∧ c.assigned_operator_id = some op) ∧
    (∀ conversationId, claimConversation now op conversationId s = (.ok (some r), s') →
      r.id = conversationId ∧ r.state = .ALLOCATED ∧ r.assigned_operator_id = some op ∧
      s'.conversation? r.id = some r ∧
      ∀ c ∈ s'.conversations, c.id = r.id →
        c.state = .ALLOCATED ∧ c.assigned_operator_id = some op) := by
  constructor
  · intro h
    rw [allocateConversation, transaction_eq_ok_iff] at h
    obtain ⟨_, best, _, _, _, hr, rfl⟩ := allocateConversationBody_ok h
    obtain ⟨hid, hst, hop, hfind, hall⟩ := setAllocated_returning op now best.id _ r hr
    exact ⟨hst, hop, by simpa [Store.conversation?, hid] using hfind,
      fun c hc hcid => hall c hc (hcid.trans hid)⟩
  · intro conversationId h
    rw [claimConversation, transaction_eq_ok_iff] at h
    obtain ⟨_, _, _, _, _, hr, rfl⟩ := claimConversationBody_ok h
    obtain ⟨hid, hst, hop, hfind, hall⟩ := setAllocated_returning op now conversationId _ r hr
    exact ⟨hid, hst, hop, by simpa [Store.conversation?, hid] using hfind,
      fun c hc hcid => hall c hc (hcid.trans hid)⟩

/-! ## Priority order of the candidate query -/

theorem orderByPriority_total (a b : Conversation) :
    orderByPriority a b = true ∨ orderByPriority b a = true := by
  unfold orderByPriority
  rcases ha : a.priority_score with _ | x <;> rcases hb : b.priority_score with _ | y <;>
    simp <;> omega

theorem orderByPriority_trans (a b c : Conversation)
    (hab : orderByPriority a b = true) (hbc : orderByPriority b c = true) :
    orderByPriority a c = true := by
  unfold orderByPriority at *
  rcases ha : a.priority_score with _ | x <;> rcases hb : b.priority_score with _ | y <;>
    rcases hc : c.priority_score with _ | z <;> simp [ha, hb, hc] at hab hbc ⊢ <;> omega

instance orderByPriority_isTotal :
    IsTotal Conversation (fun a b => orderByPriority a b = true) :=
  ⟨orderByPriority_total⟩

instance orderByPriority_isTrans :
    IsTrans Conversation (fun a b => orderByPriority a b = true) :=
  ⟨orderByPriority_trans⟩

/-- A row placed no later than `d` by the order has no smaller score than `d`
and, at equal score, no earlier last message. -/
theorem not_outranked_of_orderByPriority (c d : Conversation)
    (h : orderByPriority c d = true) :
    scoreGt d.priority_score c.priority_score = false ∧
    ¬ (d.priority_score = c.priority_score ∧ c.last_message_at < d.last_message_at) := by
  unfold orderByPriority at h
  unfold scoreGt
  rcases hc : c.priority_score with _ | x <;> rcases hd : d.priority_score with _ | y <;>
    simp [hc, hd] at h ⊢ <;> omega

/-- The first row of the candidate query is a candidate, and the order
places it no later than any other candidate. -/
theorem selectAvailableConversations_head (env : Env) (s : Store) (tenantId : Nat)
    (availableInboxes : List Nat) (best : Conversation)
    (h : (selectAvailableConversations env s tenantId availableInboxes).head? = some best) :
    (best ∈ s.conversations ∧ best.state = .QUEUED ∧ best.tenant_id = tenantId ∧
      best.inbox_id ∈ availableInboxes) ∧
    ∀ d ∈ s.conversations, d.state = .QUEUED → d.tenant_id = tenantId →
      d.inbox_id ∈ availableInboxes → orderByPriority best d = true := by
  unfold selectAvailableConversations at h
  set cands := s.conversations.filter (fun c =>
      c.state = .QUEUED && c.tenant_id = tenantId && availableInboxes.contains c.inbox_id)
    with hcands
  set sorted := cands.insertionSort (fun a b => orderByPriority a b = true) with hsorted
  have hmem : ∀ d, d ∈ sorted ↔ (d ∈ s.conversations ∧ d.state = .QUEUED ∧
      d.tenant_id = tenantId ∧ d.inbox_id ∈ availableInboxes) := by
    intro d
    rw [hsorted, List.mem_insertionSort, hcands, List.mem_filter]
    simp [and_assoc]
  have hs : List.Sorted (fun a b => orderByPriority a b = true) sorted :=
    List.sorted_insertionSort _ cands
  cases hl : sorted with
  | nil => simp [hl] at h
  | cons b tl =>
    have hb : b = best := by
      rw [hl] at h
      cases hn : env.maxConversationFetch with
      | zero => simp [hn] at h
      | succ n => simpa [hn] using h
    subst hb
    rw [hl] at hs
    refine ⟨(hmem b).1 (by simp [hl]), ?_⟩
    intro d hd hq ht hi
    have hdm : d ∈ sorted := (hmem d).2 ⟨hd, hq, ht, hi⟩
    rw [hl] at hdm
    rcases List.mem_cons.1 hdm with rfl | hdt
    · exact (orderByPriority_total d d).elim id id
    · exact List.rel_of_sorted_cons hs d hdt

theorem mem_selectSubscribedInboxes (s : Store) (operatorId inboxId : Nat) :
    inboxId ∈ selectSubscribedInboxes s operatorId ↔
      ∃ sub ∈ s.operator_inbox_subscriptions,
        sub.operator_id = operatorId ∧ sub.inbox_id = inboxId := by
  simp [selectSubscribedInboxes, and_assoc]

theorem selectCompanySettings_head (s : Store) (operatorId tenant : Nat)
    (h : (selectCompanySettings s operatorId).head?.map (fun x => x.1) = some tenant) :
    ∃ o ∈ s.operators, o.id = operatorId ∧ o.tenant_id = tenant := by
  rcases hh : (selectCompanySettings s operatorId).head? with _ | x
  · simp [hh] at h
  · have hx : x ∈ selectCompanySettings s operatorId := List.mem_of_mem_head? hh
    simp only [selectCompanySettings, List.mem_flatMap, List.mem_filter, List.mem_map] at hx
    obtain ⟨o, ⟨ho, hid⟩, t, _, rfl⟩ := hx
    refine ⟨o, ho, by simpa using hid, ?_⟩
    simpa [hh] using h

/-- C2: when `allocateConversation` returns a conversation, the store held,
before the call, a row of that id that was QUEUED, of the operator's tenant
and in an inbox the operator is subscribed to; and no conversation meeting
those three conditions had a strictly greater priority score, or the same
score with a strictly later last message. -/
theorem allocate_selects_highest_priority (env : Env) (now op : Nat) (s s' : Store)
    (r : Conversation) (h : allocateConversation env now op s = (.ok (some r), s')) :
    ∃ tenant, (∃ o ∈ s.operators, o.id = op ∧ o.tenant_id = tenant) ∧
      ∃ c ∈ s.conversations, c.id = r.id ∧ Eligible s op tenant c ∧
        ∀ d ∈ s.conversations, Eligible s op tenant d →
          scoreGt d.priority_score c.priority_score = false ∧
          ¬ (d.priority_score = c.priority_score ∧ c.last_message_at < d.last_message_at) := by
  rw [allocateConversation, transaction_eq_ok_iff] at h
  obtain ⟨tenant, best, _, htenant, hbest, hr, _⟩ := allocateConversationBody_ok h
  obtain ⟨⟨hmem, hq, ht, hi⟩, hmax⟩ := selectAvailableConversations_head env s tenant _ best hbest
  obtain ⟨hid, _⟩ := setAllocated_returning op now best.id _ r hr
  refine ⟨tenant, selectCompanySettings_head s op tenant htenant, best, hmem, hid.symm,
    ⟨hq, ht, (mem_selectSubscribedInboxes s op _).1 hi⟩, ?_⟩
  intro d hd ⟨hdq, hdt, hdi⟩
  exact not_outranked_of_orderByPriority best d
    (hmax d hd hdq hdt ((mem_selectSubscribedInboxes s op _).2 hdi))

/-! ## Invariants of the conversation table -/

theorem transaction_store {α : Type} (body : Store → Outcome α) (s : Store) :
    (db.transaction body s).2 = s ∨ (db.transaction body s).2 = (body s).2 := by
  unfold db.transaction
  rcases hb : body s with ⟨r, s1⟩
  cases r <;> simp

theorem forall_updateConversations {P : Conversation → Prop} {p : Conversation → Bool}
    {f : Conversation → Conversation} {rows : List Conversation}
    (h : ∀ c ∈ rows, P c) (hf : ∀ c ∈ rows, p c = true → P (f c)) :
    ∀ c ∈ (updateConversations p f rows).1, P c := by
  intro c' hc'
  obtain ⟨c, hc, rfl⟩ := mem_updateConversations hc'
  by_cases hp : p c = true
  · simpa [hp] using hf c hc hp
  · simpa [hp] using h c hc

theorem forall_recomputeScores {P : Conversation → Prop} (env : Env) (now : Nat)
    (p : Conversation → Bool) (s : Store)
    (hP : ∀ (c : Conversation) score, P c → P { c with priority_score := score })
    (h : ∀ c ∈ s.conversations, P c) :
    ∀ c ∈ (recomputeScores env now p s).conversations, P c := by
  intro c' hc'
  simp only [recomputeScores, List.mem_map] at hc'
  obtain ⟨c, hc, rfl⟩ := hc'
  split
  · split
    · exact h c hc
    · exact hP c _ (h c hc)
  · exact h c hc

theorem allocate_preserves {P : Conversation → Prop} (hP : StableUnderWrites P) (env : Env)
    (now operatorId : Nat) (s : Store) (h : ∀ c ∈ s.conversations, P c) :
    ∀ c ∈ (allocateConversationBody env now operatorId s).2.conversations, P c := by
  unfold allocateConversationBody
  dsimp only
  repeat' split
  all_goals first
    | exact h
    | exact forall_updateConversations h (fun c _ _ => hP.allocated c _ _)

theorem managerAllocate_preserves {P : Conversation → Prop} (hP : StableUnderWrites P)
    (now whoToAssignTo whichConversation : Nat) (whoIsAsking : OperatorRole) (s : Store)
    (h : ∀ c ∈ s.conversations, P c) :
    ∀ c ∈ (managerAllocateConversationBody now whoToAssignTo whichConversation whoIsAsking
      s).2.conversations, P c := by
  unfold managerAllocateConversationBody
  dsimp only
  repeat' split
  all_goals first
    | exact h
    | exact forall_updateConversations h (fun c _ _ => hP.allocated c _ _)

theorem claim_preserves {P : Conversation → Prop} (hP : StableUnderWrites P)
    (now operatorId conversationId : Nat) (s : Store) (h : ∀ c ∈ s.conversations, P c) :
    ∀ c ∈ (claimConversationBody now operatorId conversationId s).2.conversations, P c := by
  unfold claimConversationBody
  dsimp only
  repeat' split
  all_goals first
    | exact h
    | exact forall_updateConversations h (fun c _ _ => hP.allocated c _ _)

theorem reassign_preserves {P : Conversation → Prop} (hP : StableUnderWrites P)
    (now conversationId newOperatorId : Nat) (role : OperatorRole) (s : Store)
    (h : ∀ c ∈ s.conversations, P c) :
    ∀ c ∈ (reassignConversationBody now conversationId newOperatorId role s).2.conversations,
      P c := by
  unfold reassignConversationBody
  dsimp only
  repeat' split
  all_goals first
    | exact h
    | exact forall_updateConversations h (fun c _ _ => hP.allocated c _ _)

theorem resolve_preserves {P : Conversation → Prop}
    (hR : ∀ c now, P c → P (setResolved now c))
    (now conversationId operatorId : Nat) (role : OperatorRole) (s : Store)
    (h : ∀ c ∈ s.conversations, P c) :
    ∀ c ∈ (resolveConversationBody now conversationId operatorId role s).2.conversations,
      P c := by
  unfold resolveConversationBody
  dsimp only
  repeat' split
  all_goals first
    | exact h
    | exact forall_updateConversations h (fun c hc _ => hR c _ (h c hc))

theorem deallocate_preserves {P : Conversation → Prop} (hP : StableUnderWrites P) (env : Env)
    (now conversationId : Nat) (s : Store) (h : ∀ c ∈ s.conversations, P c) :
    ∀ c ∈ (deallocateConversationBody env now conversationId s).2.conversations, P c := by
  have h1 := forall_updateConversations
    (p := fun c => c.id = conversationId && c.state = .ALLOCATED) (f := setQueued now) h
    (fun c _ _ => hP.queued c _)
  unfold deallocateConversationBody
  dsimp only
  split
  · exact h1
  · exact forall_recomputeScores env now _ _ hP.rescored h1

theorem move_preserves {P : Conversation → Prop} (hP : StableUnderWrites P)
    (now conversationId newInboxId tenantId : Nat) (s : Store)
    (h : ∀ c ∈ s.conversations, P c) :
    ∀ c ∈ (moveConversationBody now conversationId newInboxId tenantId s).2.conversations,
      P c := by
  unfold moveConversationBody
  dsimp only
  repeat' split
  all_goals first
    | exact h
    | exact forall_updateConversations h (fun c _ _ => hP.moved c _ _)

theorem sweep_preserves {P : Conversation → Prop} (hP : StableUnderWrites P) (env : Env)
    (now : Nat) (s : Store) (h : ∀ c ∈ s.conversations, P c) :
    ∀ c ∈ (processExpiredGracePeriodsBody env now s).2.conversations, P c := by
  unfold processExpiredGracePeriodsBody
  dsimp only
  split
  · exact h
  · exact forall_recomputeScores env now _ _ hP.rescored
      (forall_updateConversations h (fun c _ _ => hP.queued c _))

/-- The operator status update writes no conversation row. -/
theorem updateOperatorStatus_conversations (env : Env) (now operatorId : Nat)
    (status : OperatorStatusType) (s : Store) :
    (updateOperatorStatusBody env now operatorId status s).2.conversations = s.conversations := by
  unfold updateOperatorStatusBody
  simp only
  split <;> split <;> simp [initiateGracePeriod, removeGracePeriod]

/-- Every engine operation keeps a row property that its writes establish
or keep; for resolve, the property has to survive the resolve update. -/
theorem EngineOp.apply_preserves {P : Conversation → Prop} (hP : StableUnderWrites P)
    (env : Env) (now : Nat) (s : Store) (op : EngineOp)
    (hR : (∀ a b r, op ≠ .resolve a b r) ∨ ∀ c t, P c → P (setResolved t c))
    (h : ∀ c ∈ s.conversations, P c) :
    ∀ c ∈ (op.apply env now s).conversations, P c := by
  cases op with
  | allocate operatorId =>
    rcases transaction_store (allocateConversationBody env now operatorId) s with h1 | h1
    · simpa [EngineOp.apply, allocateConversation, h1] using h
    · simpa [EngineOp.apply, allocateConversation, h1] using allocate_preserves hP env now _ s h
  | claim operatorId conversationId =>
    rcases transaction_store (claimConversationBody now operatorId conversationId) s with h1 | h1
    · simpa [EngineOp.apply, claimConversation, h1] using h
    · simpa [EngineOp.apply, claimConversation, h1] using claim_preserves hP now _ _ s h
  | managerAllocate whoToAssignTo whichConversation whoIsAsking =>
    rcases transaction_store
      (managerAllocateConversationBody now whoToAssignTo whichConversation whoIsAsking) s
      with h1 | h1
    · simpa [EngineOp.apply, managerAllocateConversation, h1] using h
    · simpa [EngineOp.apply, managerAllocateConversation, h1] using
        managerAllocate_preserves hP now _ _ _ s h
  | resolve conversationId operatorId operatorRole =>
    rcases hR with hR | hR
    · exact absurd rfl (hR conversationId operatorId operatorRole)
    · rcases transaction_store
        (resolveConversationBody now conversationId operatorId operatorRole) s with h1 | h1
      · simpa [EngineOp.apply, resolveConversation, h1] using h
      · simpa [EngineOp.apply, resolveConversation, h1] using
          resolve_preserves hR now _ _ _ s h
  | deallocate conversationId =>
    rcases transaction_store (deallocateConversationBody env now conversationId) s with h1 | h1
    · simpa [EngineOp.apply, deallocateConversation, h1] using h
    · simpa [EngineOp.apply, deallocateConversation, h1] using
        deallocate_preserves hP env now _ s h
  | reassign conversationId newOperatorId requestingOperatorRole =>
    rcases transaction_store
      (reassignConversationBody now conversationId newOperatorId requestingOperatorRole) s
      with h1 | h1
    · simpa [EngineOp.apply, reassignConversation, h1] using h
    · simpa [EngineOp.apply, reassignConversation, h1] using reassign_preserves hP now _ _ _ s h
  | moveInbox conversationId newInboxId tenantId =>
    rcases transaction_store (moveConversationBody now conversationId newInboxId tenantId) s
      with h1 | h1
    · simpa [EngineOp.apply, moveConversation, h1] using h
    · simpa [EngineOp.apply, moveConversation, h1] using move_preserves hP now _ _ _ s h
  | reclaimSweep =>
    rcases transaction_store (processExpiredGracePeriodsBody env now) s with h1 | h1
    · simpa [EngineOp.apply, processExpiredGracePeriods, h1] using h
    · simpa [EngineOp.apply, processExpiredGracePeriods, h1] using sweep_preserves hP env now s h
  | updateStatus operatorId status =>
    rcases transaction_store (updateOperatorStatusBody env now operatorId status) s with h1 | h1
    · simpa [EngineOp.apply, updateOperatorStatus, h1] using h
    · simpa [EngineOp.apply, updateOperatorStatus, h1,
        updateOperatorStatus_conversations] using h

theorem stable_assignedIffAllocated :
    StableUnderWrites (fun c => c.assigned_operator_id ≠ none ↔ c.state = .ALLOCATED) where
  allocated := by intro c operatorId now; simp [setAllocated]
  queued := by intro c now; simp [setQueued]
  moved := by intro c inbox now; simp [setMoved]
  rescored := by intro c score h; exact h

theorem stable_assignedIffAllocatedUnlessResolved :
    StableUnderWrites (fun c => c.state ≠ .RESOLVED →
      (c.assigned_operator_id ≠ none ↔ c.state = .ALLOCATED)) where
  allocated := by intro c operatorId now; simp [setAllocated]
  queued := by intro c now; simp [setQueued]
  moved := by intro c inbox now; simp [setMoved]
  rescored := by intro c score h; exact h

/-- C4, as the code has it: over the conversations that are not RESOLVED,
`assigned_operator_id` is non-null iff state = ALLOCATED, and this is kept by
every engine operation (allocate, claim, managerAllocate, resolve,
deallocate, reassign, moveInbox, the reclaim sweep, the operator status
update); over all conversations the predicate is kept by every operation
other than resolve. -/
theorem assignment_invariant_preserved (env : Env) (now : Nat) (s : Store) (op : EngineOp) :
    (AssignedIffAllocatedUnlessResolved s →
      AssignedIffAllocatedUnlessResolved (op.apply env now s)) ∧
    ((∀ a b r, op ≠ .resolve a b r) → AssignedIffAllocated s →
      AssignedIffAllocated (op.apply env now s)) := by
  constructor
  · intro h
    exact EngineOp.apply_preserves stable_assignedIffAllocatedUnlessResolved env now s op
      (Or.inr (fun c t _ hne => absurd rfl hne)) h
  · intro hop h
    exact EngineOp.apply_preserves stable_assignedIffAllocated env now s op (Or.inl hop) h

/-- C4 as stated fails: resolving an ALLOCATED conversation leaves its
assignee in place, so a store that satisfies the predicate no longer does
after `resolveConversation`. -/
theorem resolve_breaks_assignedIffAllocated :
    AssignedIffAllocated Sample.twoTenants ∧
    ¬ AssignedIffAllocated
      ((EngineOp.resolve 1 1 .OPERATOR).apply Sample.env 100 Sample.twoTenants) := by
  constructor
  · unfold AssignedIffAllocated; decide
  · unfold AssignedIffAllocated; decide

theorem assignment_invariant_preserved_witness :
    (AssignedIffAllocatedUnlessResolved Sample.store ∧
      AssignedIffAllocatedUnlessResolved
        ((EngineOp.resolve 3 1 .OPERATOR).apply Sample.env 100 Sample.store)) ∧
    (AssignedIffAllocated Sample.twoTenants ∧
      AssignedIffAllocated ((EngineOp.deallocate 1).apply Sample.env 100 Sample.twoTenants)) :=
  have h1 : AssignedIffAllocatedUnlessResolved Sample.store := by
    unfold AssignedIffAllocatedUnlessResolved; decide
  have h2 : AssignedIffAllocated Sample.twoTenants := by
    unfold AssignedIffAllocated; decide
  ⟨⟨h1, (assignment_invariant_preserved Sample.env 100 Sample.store _).1 h1⟩,
    ⟨h2, (assignment_invariant_preserved Sample.env 100 Sample.twoTenants _).2
      (by intro a b r h; cases h) h2⟩⟩

theorem allocate_claim_returns_allocated_witness :
    (∃ r s', allocateConversation Sample.env 100 1 Sample.store = (.ok (some r), s') ∧
      r.id = 2 ∧ r.state = .ALLOCATED ∧ r.assigned_operator_id = some 1 ∧
      s'.conversation? r.id = some r) ∧
    (∃ r s', claimConversation 100 1 1 Sample.store = (.ok (some r), s') ∧
      r.id = 1 ∧ r.state = .ALLOCATED ∧ r.assigned_operator_id = some 1 ∧
      s'.conversation? r.id = some r) :=
  ⟨⟨_, _, rfl, rfl,
      ((allocate_claim_returns_allocated Sample.env 100 1 Sample.store _ _).1 rfl).1,
      ((allocate_claim_returns_allocated Sample.env 100 1 Sample.store _ _).1 rfl).2.1,
      ((allocate_claim_returns_allocated Sample.env 100 1 Sample.store _ _).1 rfl).2.2.1⟩,
    ⟨_, _, rfl,
      ((allocate_claim_returns_allocated Sample.env 100 1 Sample.store _ _).2 1 rfl).1,
      ((allocate_claim_returns_allocated Sample.env 100 1 Sample.store _ _).2 1 rfl).2.1,
      ((allocate_claim_returns_allocated Sample.env 100 1 Sample.store _ _).2 1 rfl).2.2.1,
      ((allocate_claim_returns_allocated Sample.env 100 1 Sample.store _ _).2 1 rfl).2.2.2.1⟩⟩

theorem allocate_selects_highest_priority_witness :
    ∃ r s', allocateConversation Sample.env 100 1 Sample.store = (.ok (some r), s') ∧
      r.id = 2 ∧
      ∃ tenant, (∃ o ∈ Sample.store.operators, o.id = 1 ∧ o.tenant_id = tenant) ∧
        ∃ c ∈ Sample.store.conversations, c.id = r.id ∧ Eligible Sample.store 1 tenant c ∧
          ∀ d ∈ Sample.store.conversations, Eligible Sample.store 1 tenant d →
            scoreGt d.priority_score c.priority_score = false ∧
            ¬ (d.priority_score = c.priority_score ∧ c.last_message_at < d.last_message_at) :=
  ⟨_, _, rfl, rfl, allocate_selects_highest_priority Sample.env 100 1 Sample.store _ _ rfl⟩

/-! ## Resolve -/

theorem selectConversation_head? (s : Store) (conversationId : Nat) :
    (selectConversation s conversationId).head? = s.conversation? conversationId :=
  head?_filter_eq_find? _ _

theorem selectConversation_eq_cons {s : Store} {conversationId : Nat} {conv : Conversation}
    (h : s.conversation? conversationId = some conv) :
    ∃ others, selectConversation s conversationId = conv :: others := by
  rw [← selectConversation_head?] at h
  cases hl : selectConversation s conversationId with
  | nil => simp [hl] at h
  | cons c others => exact ⟨others, by simpa [hl] using h⟩

/-- C8: on a conversation whose stored row is RESOLVED, `resolveConversation`
fails with the 400 error "Conversation is already resolved" for every actor
and role, having written nothing: the store, `resolved_at` included, is the
one before the call. -/
theorem resolve_already_resolved (now conversationId actor : Nat) (role : OperatorRole)
    (s : Store) (conv : Conversation) (hc : s.conversation? conversationId = some conv)
    (hs : conv.state = .RESOLVED) :
    resolveConversationBody now conversationId actor role s
      = (.error ⟨"Conversation is already resolved", 400⟩, s) ∧
    resolveConversation now conversationId actor role s
      = (.error ⟨"Conversation is already resolved", 400⟩, s) := by
  obtain ⟨others, hsel⟩ := selectConversation_eq_cons hc
  have hb : resolveConversationBody now conversationId actor role s
      = (.error ⟨"Conversation is already resolved", 400⟩, s) := by
    unfold resolveConversationBody
    rw [hsel]
    simp [hs]
  exact ⟨hb, transaction_of_error _ s s _ hb⟩

theorem resolve_already_resolved_witness :
    Sample.store.conversation? 4 = some
      { Sample.conv 4 1 1 .RESOLVED (some 1) 2 (some 1) with resolved_at := some 50 } ∧
    resolveConversation 100 4 2 .MANAGER Sample.store
      = (.error ⟨"Conversation is already resolved", 400⟩, Sample.store) :=
  ⟨rfl, (resolve_already_resolved 100 4 2 .MANAGER Sample.store _ rfl rfl).2⟩

/-- The resolve update returns a RESOLVED row stamped with the current time
and leaves it, and nothing else under that id, in the table. -/
theorem setResolved_returning (now k : Nat) (rows : List Conversation) (r : Conversation)
    (h : (updateConversations (fun c => c.id = k) (setResolved now) rows).2.head? = some r) :
    r.id = k ∧ r.state = .RESOLVED ∧ r.resolved_at = some now ∧
    (updateConversations (fun c => c.id = k) (setResolved now) rows).1.find?
      (fun c => c.id = k) = some r ∧
    ∀ c ∈ (updateConversations (fun c => c.id = k) (setResolved now) rows).1,
      c.id = k → c.state = .RESOLVED ∧ c.resolved_at = some now := by
  obtain ⟨c, _, hp, rfl⟩ := head?_updateConversations h
  refine ⟨by simpa [setResolved] using hp, rfl, rfl, ?_, ?_⟩
  · rw [find?_updateConversations k (setResolved now) (fun c => rfl), h]
  · intro c' hc' hid
    obtain ⟨c0, _, rfl⟩ := mem_updateConversations hc'
    by_cases h0 : c0.id = k
    · simp [h0, setResolved]
    · simp [h0] at hid

/-- C9: on a conversation whose stored row is not RESOLVED,
`resolveConversation` succeeds iff the role is MANAGER or ADMIN or the actor
is the assigned operator; otherwise it fails with the 403 error and writes
nothing; on success the conversation is RESOLVED with `resolved_at` the
current time and no grace-period hold remains for it. -/
theorem resolve_unresolved (now conversationId actor : Nat) (role : OperatorRole)
    (s : Store) (conv : Conversation) (hc : s.conversation? conversationId = some conv)
    (hs : conv.state ≠ .RESOLVED) :
    ((∃ r s', resolveConversation now conversationId actor role s = (.ok r, s')) ↔
      (role = .MANAGER ∨ role = .ADMIN ∨ conv.assigned_operator_id = some actor)) ∧
    (¬ (role = .MANAGER ∨ role = .ADMIN ∨ conv.assigned_operator_id = some actor) →
      resolveConversationBody now conversationId actor role s
        = (.error ⟨"Only assigned operator or manager/admin can resolve", 403⟩, s) ∧
      resolveConversation now conversationId actor role s
        = (.error ⟨"Only assigned operator or manager/admin can resolve", 403⟩, s)) ∧
    ((role = .MANAGER ∨ role = .ADMIN ∨ conv.assigned_operator_id = some actor) →
      ∃ r s', resolveConversation now conversationId actor role s = (.ok (some r), s') ∧
        r.id = conversationId ∧ r.state = .RESOLVED ∧ r.resolved_at = some now ∧
        s'.conversation? conversationId = some r ∧
        (∀ c ∈ s'.conversations, c.id = conversationId →
          c.state = .RESOLVED ∧ c.resolved_at = some now) ∧
        ∀ g ∈ s'.grace_period_assignments, g.conversation_id ≠ conversationId) := by
  obtain ⟨others, hsel⟩ := selectConversation_eq_cons hc
  have hcan : ([OperatorRole.MANAGER, OperatorRole.ADMIN].contains role
      || decide (conv.assigned_operator_id = some actor)) = true ↔
      (role = .MANAGER ∨ role = .ADMIN ∨ conv.assigned_operator_id = some actor) := by
    cases role <;> simp
  have hfail : ¬ (role = .MANAGER ∨ role = .ADMIN ∨ conv.assigned_operator_id = some actor) →
      resolveConversationBody now conversationId actor role s
        = (.error ⟨"Only assigned operator or manager/admin can resolve", 403⟩, s) := by
    intro hno
    have hno' := mt hcan.1 hno
    simp only [Bool.not_eq_true] at hno'
    unfold resolveConversationBody
    rw [hsel]
    simp only [hs, hno', if_false, Bool.not_false, if_true]
  have hok : (role = .MANAGER ∨ role = .ADMIN ∨ conv.assigned_operator_id = some actor) →
      ∃ r s', resolveConversation now conversationId actor role s = (.ok (some r), s') ∧
        r.id = conversationId ∧ r.state = .RESOLVED ∧ r.resolved_at = some now ∧
        s'.conversation? conversationId = some r ∧
        (∀ c ∈ s'.conversations, c.id = conversationId →
          c.state = .RESOLVED ∧ c.resolved_at = some now) ∧
        ∀ g ∈ s'.grace_period_assignments, g.conversation_id ≠ conversationId := by
    intro hyes
    have hyes' := hcan.2 hyes
    have hmem : conv ∈ s.conversations ∧ conv.id = conversationId := by
      have := List.mem_of_find?_eq_some hc
      have hid := List.find?_some hc
      exact ⟨this, by simpa using hid⟩
    obtain ⟨r, hr⟩ : ∃ r, (updateConversations (fun c => c.id = conversationId)
        (setResolved now) s.conversations).2.head? = some r := by
      have hne : (updateConversations (fun c => c.id = conversationId)
          (setResolved now) s.conversations).2 ≠ [] := by
        simp only [updateConversations, ne_eq, List.map_eq_nil_iff, List.filter_eq_nil_iff,
          not_forall]
        exact ⟨conv, hmem.1, by simp [hmem.2]⟩
      cases hl : (updateConversations (fun c => c.id = conversationId)
          (setResolved now) s.conversations).2 with
      | nil => exact absurd hl hne
      | cons r tl => exact ⟨r, rfl⟩
    obtain ⟨hid, hst, hat, hfind, hall⟩ := setResolved_returning now conversationId _ r hr
    refine ⟨r, deleteGracePeriod { s with conversations :=
      (updateConversations (fun c => c.id = conversationId) (setResolved now)
        s.conversations).1 } conversationId, ?_, hid, hst, hat, ?_, ?_, ?_⟩
    · rw [resolveConversation, transaction_eq_ok_iff]
      unfold resolveConversationBody
      rw [hsel]
      simp only [hs, if_false]
      simp only [hyes', Bool.not_true, Bool.false_eq_true, if_false, hr]
    · simpa [Store.conversation?, deleteGracePeriod] using hfind
    · simpa [deleteGracePeriod] using hall
    · intro g hg
      simp only [deleteGracePeriod, List.mem_filter] at hg
      simpa using hg.2
  refine ⟨⟨?_, fun h => ?_⟩, fun hno => ⟨hfail hno, transaction_of_error _ s s _ (hfail hno)⟩, hok⟩
  · rintro ⟨r, s', hres⟩
    by_contra hno
    rw [resolveConversation, transaction_of_error _ s s _ (hfail hno)] at hres
    simp at hres
  · obtain ⟨r, s', hres, _⟩ := hok h
    exact ⟨some r, s', hres⟩

theorem resolve_unresolved_witness :
    Sample.store.conversation? 3 = some (Sample.conv 3 1 1 .ALLOCATED (some 1) 7 (some 9)) ∧
    (Sample.conv 3 1 1 .ALLOCATED (some 1) 7 (some 9)).state ≠ .RESOLVED ∧
    (∃ r s', resolveConversation 100 3 1 .OPERATOR Sample.store = (.ok (some r), s') ∧
      r.id = 3 ∧ r.state = .RESOLVED ∧ r.resolved_at = some 100 ∧
      s'.conversation? 3 = some r ∧
      (∀ c ∈ s'.conversations, c.id = 3 → c.state = .RESOLVED ∧ c.resolved_at = some 100) ∧
      ∀ g ∈ s'.grace_period_assignments, g.conversation_id ≠ 3) ∧
    resolveConversation 100 3 9 .OPERATOR Sample.store
      = (.error ⟨"Only assigned operator or manager/admin can resolve", 403⟩, Sample.store) :=
  ⟨rfl, by decide,
    (resolve_unresolved 100 3 1 .OPERATOR Sample.store _ rfl (by decide)).2.2
      (Or.inr (Or.inr rfl)),
    ((resolve_unresolved 100 3 9 .OPERATOR Sample.store _ rfl (by decide)).2.1
      (by decide)).2⟩

/-! ## Manager allocation -/

/-- C10: for every role other than MANAGER and ADMIN, and for every target
operator, conversation and store, `managerAllocateConversation` fails with
the 403 error whatever the store holds, and the store is unchanged. -/
theorem managerAllocate_forbidden (now whoToAssignTo whichConversation : Nat)
    (whoIsAsking : OperatorRole) (s : Store)
    (hm : whoIsAsking ≠ .MANAGER) (ha : whoIsAsking ≠ .ADMIN) :
    managerAllocateConversationBody now whoToAssignTo whichConversation whoIsAsking s
      = (.error ⟨"Only managers and admins can allocate conversations to operators", 403⟩, s) ∧
    managerAllocateConversation now whoToAssignTo whichConversation whoIsAsking s
      = (.error ⟨"Only managers and admins can allocate conversations to operators", 403⟩, s) := by
  have hb : managerAllocateConversationBody now whoToAssignTo whichConversation whoIsAsking s
      = (.error ⟨"Only managers and admins can allocate conversations to operators", 403⟩, s) := by
    unfold managerAllocateConversationBody
    cases whoIsAsking
    · simp
    · exact absurd rfl hm
    · exact absurd rfl ha
  exact ⟨hb, transaction_of_error _ s s _ hb⟩

theorem managerAllocate_forbidden_witness :
    OperatorRole.OPERATOR ≠ .MANAGER ∧ OperatorRole.OPERATOR ≠ .ADMIN ∧
    managerAllocateConversation 100 1 1 .OPERATOR Sample.store
      = (.error ⟨"Only managers and admins can allocate conversations to operators", 403⟩,
          Sample.store) :=
  ⟨by decide, by decide,
    (managerAllocate_forbidden 100 1 1 .OPERATOR Sample.store (by decide) (by decide)).2⟩

/-! ## Where the code departs from tenant isolation and from the state machine -/

/-- C5 fails on the code: `moveConversation` has no check of the state, so
it puts a RESOLVED conversation back to QUEUED, its `resolved_at` still
set. -/
theorem move_requeues_resolved :
    (Sample.store.conversation? 4).map (fun c => c.state) = some .RESOLVED ∧
    (((EngineOp.moveInbox 4 2 1).apply Sample.env 100 Sample.store).conversation? 4).map
      (fun c => (c.state, c.inbox_id, c.assigned_operator_id, c.resolved_at))
      = some (.QUEUED, 2, none, some 50) := by
  constructor <;> rfl

/-- C6 fails on the code: `reassignConversation` never reads a tenant, so a
manager reassigns a conversation of tenant 1 to an available operator of
tenant 2. -/
theorem reassign_crosses_tenants :
    (Sample.twoTenants.conversation? 1).map (fun c => c.tenant_id) = some 1 ∧
    (Sample.twoTenants.operators.filter (fun o => o.id = 7)).map (fun o => o.tenant_id) = [2] ∧
    ∃ r s', reassignConversation 100 1 7 .MANAGER Sample.twoTenants = (.ok (some r), s') ∧
      r.tenant_id = 1 ∧ r.state = .ALLOCATED ∧ r.assigned_operator_id = some 7 ∧
      s'.conversation? 1 = some r ∧ s' ≠ Sample.twoTenants := by
  refine ⟨rfl, rfl, _, _, rfl, rfl, rfl, rfl, rfl, ?_⟩
  decide

/-- C7 fails on the code: `moveConversation` compares the tenant of the
target inbox with `tenantId` but never the tenant of the conversation, so a
caller of tenant 2 moves a conversation of tenant 1 into an inbox of
tenant 2. -/
theorem move_crosses_tenants :
    (Sample.twoTenants.conversation? 1).map (fun c => c.tenant_id) = some 1 ∧
    (Sample.twoTenants.inboxes.filter (fun i => i.id = 5)).map (fun i => i.tenant_id) = [2] ∧
    ∃ r s', moveConversation 100 1 5 2 Sample.twoTenants = (.ok (some r), s') ∧
      r.tenant_id = 1 ∧ r.inbox_id = 5 ∧ r.state = .QUEUED ∧ r.assigned_operator_id = none ∧
      s'.conversation? 1 = some r ∧ s' ≠ Sample.twoTenants := by
  refine ⟨rfl, rfl, _, _, rfl, rfl, rfl, rfl, rfl, rfl, ?_⟩
  decide

/-- The half of C7 that the code has: when the target inbox belongs to
another tenant than `tenantId`, `moveConversation` fails with the 400 error
and the store is unchanged. -/
theorem move_rejects_foreign_inbox (now conversationId newInboxId tenantId : Nat) (s : Store)
    (inbox : Inbox) (hi : s.inboxes.find? (fun i => i.id = newInboxId) = some inbox)
    (ht : inbox.tenant_id ≠ tenantId) :
    moveConversationBody now conversationId newInboxId tenantId s
      = (.error ⟨"Cannot move conversation to different tenant", 400⟩, s) ∧
    moveConversation now conversationId newInboxId tenantId s
      = (.error ⟨"Cannot move conversation to different tenant", 400⟩, s) := by
  have hsel : ∃ others, (s.inboxes.filter (fun i => i.id = newInboxId)).map
      (fun i => i.tenant_id) = inbox.tenant_id :: others := by
    have hh := head?_filter_eq_find? (fun i : Inbox => decide (i.id = newInboxId)) s.inboxes
    rw [hi] at hh
    cases hl : s.inboxes.filter (fun i => i.id = newInboxId) with
    | nil => simp [hl] at hh
    | cons i rest =>
      have : i = inbox := by simpa [hl] using hh
      exact ⟨rest.map (fun i => i.tenant_id), by simp [this]⟩
  obtain ⟨others, hsel⟩ := hsel
  have hb : moveConversationBody now conversationId newInboxId tenantId s
      = (.error ⟨"Cannot move conversation to different tenant", 400⟩, s) := by
    unfold moveConversationBody
    rw [hsel]
    simp [ht]
  exact ⟨hb, transaction_of_error _ s s _ hb⟩

/-! ## RESOLVED is terminal for every operation but the inbox move -/

/-- Inversion of a successful `managerAllocateConversation`. -/
theorem managerAllocateConversationBody_ok {now whoToAssignTo whichConversation : Nat}
    {whoIsAsking : OperatorRole} {s s' : Store} {r : Option Conversation}
    (h : managerAllocateConversationBody now whoToAssignTo whichConversation whoIsAsking s
      = (.ok r, s')) :
    ∃ operatorInfo conversationInfo,
      (whoIsAsking = .MANAGER ∨ whoIsAsking = .ADMIN) ∧
      (selectOperatorWithStatus s whoToAssignTo).head? = some (operatorInfo, some .AVAILABLE) ∧
      (selectConversationWithInbox s whichConversation).head?
        = some (conversationInfo, operatorInfo.tenant_id) ∧
      conversationInfo.state = .QUEUED ∧
      selectSubscription s whoToAssignTo conversationInfo.inbox_id ≠ [] ∧
      (updateConversations (fun c => c.id = whichConversation) (setAllocated whoToAssignTo now)
        s.conversations).2.head? = r ∧
      s' = { s with conversations :=
        (updateConversations (fun c => c.id = whichConversation)
          (setAllocated whoToAssignTo now) s.conversations).1 } := by
  unfold managerAllocateConversationBody at h
  split at h
  · simp at h
  · rename_i hrole
    split at h
    · simp at h
    · rename_i operatorInfo status rest hop
      split at h
      · simp at h
      · rename_i havail
        split at h
        · simp at h
        · rename_i conversationInfo inboxTenant others hconv
          split at h
          · simp at h
          · rename_i htenant
            split at h
            · simp at h
            · rename_i hqueued
              split at h
              · simp at h
              · rename_i sub subs hsub
                simp only [Prod.mk.injEq, Except.ok.injEq] at h
                have hst : status = some .AVAILABLE := by simpa using havail
                have hten : inboxTenant = operatorInfo.tenant_id := by simpa using htenant
                refine ⟨operatorInfo, conversationInfo, ?_, ?_, ?_, ?_, ?_, h.1, h.2.symm⟩
                · cases whoIsAsking <;> simp at hrole ⊢
                · simp [hop, hst]
                · simp [hconv, hten]
                · simpa using hqueued
                · simp [hsub]

/-- Inversion of a successful `reassignConversation`. -/
theorem reassignConversationBody_ok {now conversationId newOperatorId : Nat}
    {requestingOperatorRole : OperatorRole} {s s' : Store} {r : Option Conversation}
    (h : reassignConversationBody now conversationId newOperatorId requestingOperatorRole s
      = (.ok r, s')) :
    ∃ targetOperator conversation,
      (selectOperatorWithStatus s newOperatorId).head? = some (targetOperator, some .AVAILABLE) ∧
      (selectConversation s conversationId).head? = some conversation ∧
      conversation.state ≠ .RESOLVED ∧
      (requestingOperatorRole = .MANAGER ∨ requestingOperatorRole = .ADMIN ∨
        selectSubscription s newOperatorId conversation.inbox_id ≠ []) ∧
      (updateConversations (fun c => c.id = conversationId) (setAllocated newOperatorId now)
        s.conversations).2.head? = r ∧
      s' = { s with conversations :=
        (updateConversations (fun c => c.id = conversationId)
          (setAllocated newOperatorId now) s.conversations).1 } := by
  unfold reassignConversationBody at h
  split at h
  · simp at h
  · rename_i targetOperator status rest hop
    split at h
    · simp at h
    · rename_i havail
      split at h
      · simp at h
      · rename_i conversation others hconv
        split at h
        · simp at h
        · rename_i hres
          dsimp only at h
          split at h
          · simp at h
          · rename_i hsub
            simp only [Prod.mk.injEq, Except.ok.injEq] at h
            have hst : status = some .AVAILABLE := by simpa using havail
            refine ⟨targetOperator, conversation, ?_, ?_, hres, ?_, h.1, h.2.symm⟩
            · simp [hop, hst]
            · simp [hconv]
            · cases requestingOperatorRole <;> simp at hsub ⊢
              exact hsub

theorem mem_of_head?_selectConversation {s : Store} {conversationId : Nat}
    {conv : Conversation} (h : (selectConversation s conversationId).head? = some conv) :
    conv ∈ s.conversations ∧ conv.id = conversationId := by
  have hm := List.mem_of_mem_head? h
  simp only [selectConversation, List.mem_filter] at hm
  exact ⟨hm.1, by simpa using hm.2⟩

theorem mem_of_head?_selectConversationWithInbox {s : Store} {conversationId : Nat}
    {x : Conversation × Nat} (h : (selectConversationWithInbox s conversationId).head? = some x) :
    x.1 ∈ s.conversations ∧ x.1.id = conversationId := by
  have hm := List.mem_of_mem_head? h
  simp only [selectConversationWithInbox, List.mem_flatMap, List.mem_filter, List.mem_map] at hm
  obtain ⟨c, ⟨hc, hid⟩, i, _, rfl⟩ := hm
  exact ⟨hc, by simpa using hid⟩

/-- Assigning the rows of id `k`, one of which is not RESOLVED, leaves every
conversation whose rows are all RESOLVED as it is. -/
theorem setAllocated_keeps_resolved (cid k operatorId now : Nat) (rows : List Conversation)
    (c0 : Conversation) (h0 : c0 ∈ rows) (hk : c0.id = k) (hs : c0.state ≠ .RESOLVED)
    (h : ∀ c ∈ rows, c.id = cid → c.state = .RESOLVED) :
    ∀ c ∈ (updateConversations (fun c => c.id = k) (setAllocated operatorId now) rows).1,
      c.id = cid → c.state = .RESOLVED := by
  have hne : k ≠ cid := fun hkc => hs (h c0 h0 (hk.trans hkc))
  refine forall_updateConversations h ?_
  intro c _ hp hid
  exact absurd ((by simpa using hp : c.id = k).symm.trans hid) hne

/-- The store `allocateConversation` leaves: the one it found, or the one
with the rows of the selected candidate assigned. -/
theorem allocateConversationBody_store (env : Env) (now operatorId : Nat) (s : Store) :
    (allocateConversationBody env now operatorId s).2 = s ∨
    ∃ tenant best,
      (selectAvailableConversations env s tenant (selectSubscribedInboxes s operatorId)).head?
        = some best ∧
      (allocateConversationBody env now operatorId s).2 = { s with conversations :=
        (updateConversations (fun c => c.id = best.id) (setAllocated operatorId now)
          s.conversations).1 } := by
  unfold allocateConversationBody
  split
  · exact Or.inl rfl
  · split
    · exact Or.inl rfl
    · split
      · exact Or.inl rfl
      · rename_i inbox inboxes hsubs
        split
        · exact Or.inl rfl
        · rename_i tenant a b settings hsettings
          split
          · exact Or.inl rfl
          · rename_i best candidates hbest
            exact Or.inr ⟨tenant, best, by simp [hsubs, hbest], rfl⟩

/-- Every engine operation other than the inbox move leaves a RESOLVED
conversation RESOLVED: if all rows of id `cid` are RESOLVED before the
operation, they are after it. -/
theorem resolved_stays_resolved (env : Env) (now : Nat) (s : Store) (op : EngineOp) (cid : Nat)
    (hop : ∀ a b c, op ≠ .moveInbox a b c)
    (h : ∀ c ∈ s.conversations, c.id = cid → c.state = .RESOLVED) :
    ∀ c ∈ (op.apply env now s).conversations, c.id = cid → c.state = .RESOLVED := by
  cases op with
  | allocate operatorId =>
    rcases transaction_store (allocateConversationBody env now operatorId) s with h2 | h2
    · simpa [EngineOp.apply, allocateConversation, h2] using h
    · rcases allocateConversationBody_store env now operatorId s with h3 | ⟨tenant, best, hbest, h3⟩
      · simpa [EngineOp.apply, allocateConversation, h2, h3] using h
      · obtain ⟨⟨hmem, hq, _, _⟩, _⟩ := selectAvailableConversations_head env s tenant _ best hbest
        simpa [EngineOp.apply, allocateConversation, h2, h3] using
          setAllocated_keeps_resolved cid best.id operatorId now _ best hmem rfl
            (by simp [hq]) h
  | claim operatorId conversationId =>
    rcases hb : claimConversationBody now operatorId conversationId s with ⟨_ | r, s1⟩
    · simpa [EngineOp.apply, claimConversation, db.transaction, hb] using h
    · obtain ⟨conv, _, hconv, hq, _, _, rfl⟩ := claimConversationBody_ok hb
      obtain ⟨hmem, hid⟩ := mem_of_head?_selectConversation hconv
      simpa [EngineOp.apply, claimConversation, db.transaction, hb] using
        setAllocated_keeps_resolved cid conversationId operatorId now _ conv hmem hid
          (by simp [hq]) h
  | managerAllocate whoToAssignTo whichConversation whoIsAsking =>
    rcases hb : managerAllocateConversationBody now whoToAssignTo whichConversation whoIsAsking s
      with ⟨_ | r, s1⟩
    · simpa [EngineOp.apply, managerAllocateConversation, db.transaction, hb] using h
    · obtain ⟨_, conv, _, _, hconv, hq, _, _, rfl⟩ := managerAllocateConversationBody_ok hb
      obtain ⟨hmem, hid⟩ := mem_of_head?_selectConversationWithInbox hconv
      simpa [EngineOp.apply, managerAllocateConversation, db.transaction, hb] using
        setAllocated_keeps_resolved cid whichConversation whoToAssignTo now _ conv hmem hid
          (by simp [hq]) h
  | resolve conversationId operatorId operatorRole =>
    rcases transaction_store
      (resolveConversationBody now conversationId operatorId operatorRole) s with h2 | h2
    · simpa [EngineOp.apply, resolveConversation, h2] using h
    · simpa [EngineOp.apply, resolveConversation, h2] using
        resolve_preserves (P := fun c => c.id = cid → c.state = .RESOLVED)
          (fun _ _ _ _ => rfl) now conversationId operatorId operatorRole s h
  | deallocate conversationId =>
    have h1 := forall_updateConversations
      (P := fun c => c.id = cid → c.state = .RESOLVED)
      (p := fun c => c.id = conversationId && c.state = .ALLOCATED) (f := setQueued now) h
      (by
        intro c hc hp hid
        simp only [Bool.and_eq_true, decide_eq_true_eq] at hp
        have := h c hc hid
        rw [hp.2] at this
        cases this)
    rcases transaction_store (deallocateConversationBody env now conversationId) s with h2 | h2
    · simpa [EngineOp.apply, deallocateConversation, h2] using h
    · simp only [EngineOp.apply, deallocateConversation, h2]
      unfold deallocateConversationBody
      dsimp only
      split
      · exact h1
      · exact forall_recomputeScores env now _ _ (fun _ _ hc => hc) h1
  | reassign conversationId newOperatorId requestingOperatorRole =>
    rcases hb : reassignConversationBody now conversationId newOperatorId requestingOperatorRole s
      with ⟨_ | r, s1⟩
    · simpa [EngineOp.apply, reassignConversation, db.transaction, hb] using h
    · obtain ⟨_, conv, _, hconv, hres, _, _, rfl⟩ := reassignConversationBody_ok hb
      obtain ⟨hmem, hid⟩ := mem_of_head?_selectConversation hconv
      simpa [EngineOp.apply, reassignConversation, db.transaction, hb] using
        setAllocated_keeps_resolved cid conversationId newOperatorId now _ conv hmem hid hres h
  | moveInbox conversationId newInboxId tenantId =>
    exact absurd rfl (hop conversationId newInboxId tenantId)
  | reclaimSweep =>
    rcases transaction_store (processExpiredGracePeriodsBody env now) s with h2 | h2
    · simpa [EngineOp.apply, processExpiredGracePeriods, h2] using h
    · simp only [EngineOp.apply, processExpiredGracePeriods, h2]
      unfold processExpiredGracePeriodsBody
      dsimp only
      split
      · exact h
      · refine forall_recomputeScores env now _ _ (fun _ _ hc => hc)
          (forall_updateConversations h ?_)
        intro c hc hp hid
        simp only [Bool.and_eq_true, decide_eq_true_eq] at hp
        have := h c hc hid
        rw [hp.2] at this
        cases this
  | updateStatus operatorId status =>
    rcases transaction_store (updateOperatorStatusBody env now operatorId status) s with h2 | h2
    · simpa [EngineOp.apply, updateOperatorStatus, h2] using h
    · simpa [EngineOp.apply, updateOperatorStatus, h2,
        updateOperatorStatus_conversations] using h

/-! ## Lookups behind the queries -/

theorem exists_cons_of_head? {α : Type} {l : List α} {a : α} (h : l.head? = some a) :
    ∃ t, l = a :: t := by
  cases l with
  | nil => simp at h
  | cons b t => exact ⟨t, by simpa using h⟩

theorem selectStatus_head? (s : Store) (operatorId : Nat) :
    (selectStatus s operatorId).head? = s.status? operatorId := by
  unfold selectStatus Store.status?
  rw [List.head?_map, head?_filter_eq_find?]

theorem selectSubscribedInboxes_eq_nil_iff (s : Store) (operatorId : Nat) :
    selectSubscribedInboxes s operatorId = [] ↔ ∀ inboxId, ¬ Subscribed s operatorId inboxId := by
  unfold selectSubscribedInboxes Subscribed
  simp only [List.map_eq_nil_iff, List.filter_eq_nil_iff, decide_eq_true_eq]
  constructor
  · rintro h inboxId ⟨sub, hsub, hop, _⟩
    exact h sub hsub hop
  · intro h sub hsub hop
    exact h sub.inbox_id ⟨sub, hsub, hop, rfl⟩

theorem selectSubscription_ne_nil_iff (s : Store) (operatorId inboxId : Nat) :
    selectSubscription s operatorId inboxId ≠ [] ↔ Subscribed s operatorId inboxId := by
  unfold selectSubscription Subscribed
  simp only [ne_eq, List.filter_eq_nil_iff, not_forall, Bool.and_eq_true, decide_eq_true_eq,
    not_not]
  constructor
  · rintro ⟨sub, hsub, h⟩
    exact ⟨sub, hsub, h⟩
  · rintro ⟨sub, hsub, h⟩
    exact ⟨sub, hsub, h⟩

/-! ## Allocate: the operator checks -/

/-- No error path of `allocateConversation` writes to the store. -/
theorem allocateConversationBody_error {env : Env} {now operatorId : Nat} {s s1 : Store}
    {e : AppError} (h : allocateConversationBody env now operatorId s = (.error e, s1)) :
    s1 = s := by
  unfold allocateConversationBody at h
  dsimp only at h
  repeat' split at h
  all_goals simp_all

/-- C13: when the operator has no status row or a status other than
AVAILABLE, `allocateConversation` fails with the 400 error "Operator is not
available"; when the operator is AVAILABLE and has no subscription it fails
with the 400 error "Operator is not subscribed to any inbox"; in both cases
the body has written nothing and the store is the one before the call. -/
theorem allocate_operator_checks (env : Env) (now op : Nat) (s : Store) :
    (s.status? op ≠ some .AVAILABLE →
      allocateConversationBody env now op s = (.error ⟨"Operator is not available", 400⟩, s) ∧
      allocateConversation env now op s = (.error ⟨"Operator is not available", 400⟩, s)) ∧
    (s.status? op = some .AVAILABLE → (∀ inboxId, ¬ Subscribed s op inboxId) →
      allocateConversationBody env now op s
        = (.error ⟨"Operator is not subscribed to any inbox", 400⟩, s) ∧
      allocateConversation env now op s
        = (.error ⟨"Operator is not subscribed to any inbox", 400⟩, s)) := by
  constructor
  · intro hst
    rw [← selectStatus_head?] at hst
    have hb : allocateConversationBody env now op s
        = (.error ⟨"Operator is not available", 400⟩, s) := by
      unfold allocateConversationBody
      cases hl : selectStatus s op with
      | nil => rfl
      | cons status rest =>
        have : status ≠ .AVAILABLE := by simpa [hl] using hst
        simp [this]
    exact ⟨hb, transaction_of_error _ s s _ hb⟩
  · intro hst hsub
    rw [← selectStatus_head?] at hst
    obtain ⟨rest, hl⟩ := exists_cons_of_head? hst
    have hnil := (selectSubscribedInboxes_eq_nil_iff s op).2 hsub
    have hb : allocateConversationBody env now op s
        = (.error ⟨"Operator is not subscribed to any inbox", 400⟩, s) := by
      unfold allocateConversationBody
      rw [hl, hnil]
      simp
    exact ⟨hb, transaction_of_error _ s s _ hb⟩

theorem allocate_operator_checks_witness :
    (Sample.withOffline.status? 3 ≠ some .AVAILABLE ∧
      allocateConversation Sample.env 100 3 Sample.withOffline
        = (.error ⟨"Operator is not available", 400⟩, Sample.withOffline)) ∧
    (Sample.store.status? 2 = some .AVAILABLE ∧ (∀ inboxId, ¬ Subscribed Sample.store 2 inboxId) ∧
      allocateConversation Sample.env 100 2 Sample.store
        = (.error ⟨"Operator is not subscribed to any inbox", 400⟩, Sample.store)) :=
  have hsub : ∀ inboxId, ¬ Subscribed Sample.store 2 inboxId := by
    rintro inboxId ⟨sub, hsub, hop, _⟩
    simp only [Sample.store, List.mem_singleton] at hsub
    subst hsub
    simp at hop
  ⟨⟨by decide,
      ((allocate_operator_checks Sample.env 100 3 Sample.withOffline).1 (by decide)).2⟩,
    ⟨rfl, hsub, ((allocate_operator_checks Sample.env 100 2 Sample.store).2 rfl hsub).2⟩⟩

/-! ## Claim: outcomes -/

/-- No error path of `claimConversation` writes to the store. -/
theorem claimConversationBody_error {now operatorId conversationId : Nat} {s s1 : Store}
    {e : AppError} (h : claimConversationBody now operatorId conversationId s = (.error e, s1)) :
    s1 = s := by
  unfold claimConversationBody at h
  dsimp only at h
  repeat' split at h
  all_goals simp_all

/-- The rows returned by an update by id start with the updated stored row. -/
theorem head?_updateConversations_id (k : Nat) (f : Conversation → Conversation)
    (rows : List Conversation) :
    (updateConversations (fun c => c.id = k) f rows).2.head?
      = (rows.find? (fun c => c.id = k)).map f := by
  simp only [updateConversations, List.head?_map, head?_filter_eq_find?]

/-- C12: `claimConversation` succeeds iff the operator is AVAILABLE, the
conversation exists with state QUEUED and the operator is subscribed to its
inbox.  Each guard fails with its own error, in the order of the code: 400
when the operator is not AVAILABLE, 400 when the conversation is stored and
not QUEUED, 403 when the subscription check is reached (operator AVAILABLE,
conversation QUEUED) and the operator is not subscribed; a conversation that
is not stored gives 404 to an AVAILABLE operator.  No failure writes to the
store. -/
theorem claim_outcomes (now op conversationId : Nat) (s : Store) :
    ((∃ r s', claimConversation now op conversationId s = (.ok r, s')) ↔
      (s.status? op = some .AVAILABLE ∧ ∃ conv, s.conversation? conversationId = some conv ∧
        conv.state = .QUEUED ∧ Subscribed s op conv.inbox_id)) ∧
    (s.status? op ≠ some .AVAILABLE →
      claimConversation now op conversationId s
        = (.error ⟨"Operator is not available", 400⟩, s)) ∧
    (∀ conv, s.conversation? conversationId = some conv → conv.state ≠ .QUEUED →
      ∃ e, claimConversation now op conversationId s = (.error e, s) ∧ e.statusCode = 400) ∧
    (s.status? op = some .AVAILABLE → s.conversation? conversationId = none →
      claimConversation now op conversationId s = (.error ⟨"Conversation not found", 404⟩, s)) ∧
    (s.status? op = some .AVAILABLE → ∀ conv, s.conversation? conversationId = some conv →
      conv.state = .QUEUED → ¬ Subscribed s op conv.inbox_id →
      claimConversation now op conversationId s
        = (.error ⟨"Operator is not subscribed to this inbox", 403⟩, s)) ∧
    (∀ e s1, claimConversationBody now op conversationId s = (.error e, s1) → s1 = s) ∧
    (∀ e s1, claimConversation now op conversationId s = (.error e, s1) → s1 = s) := by
  have hunavail : s.status? op ≠ some .AVAILABLE →
      claimConversationBody now op conversationId s
        = (.error ⟨"Operator is not available", 400⟩, s) := by
    intro hst
    rw [← selectStatus_head?] at hst
    unfold claimConversationBody
    cases hl : selectStatus s op with
    | nil => rfl
    | cons status rest =>
      have : status ≠ .AVAILABLE := by simpa [hl] using hst
      simp [this]
  have hmissing : s.status? op = some .AVAILABLE → s.conversation? conversationId = none →
      claimConversationBody now op conversationId s
        = (.error ⟨"Conversation not found", 404⟩, s) := by
    intro hst hc
    rw [← selectStatus_head?] at hst
    obtain ⟨rest, hl⟩ := exists_cons_of_head? hst
    rw [← selectConversation_head?] at hc
    have hnil : selectConversation s conversationId = [] := by
      cases hs : selectConversation s conversationId with
      | nil => rfl
      | cons c cs => simp [hs] at hc
    unfold claimConversationBody
    rw [hl, hnil]
    simp
  have hstate : s.status? op = some .AVAILABLE → ∀ conv,
      s.conversation? conversationId = some conv → conv.state ≠ .QUEUED →
      claimConversationBody now op conversationId s
        = (.error ⟨"Conversation is not available for claiming", 400⟩, s) := by
    intro hst conv hc hq
    rw [← selectStatus_head?] at hst
    obtain ⟨rest, hl⟩ := exists_cons_of_head? hst
    obtain ⟨others, hsel⟩ := selectConversation_eq_cons hc
    unfold claimConversationBody
    rw [hl, hsel]
    simp [hq]
  have hnosub : s.status? op = some .AVAILABLE → ∀ conv,
      s.conversation? conversationId = some conv → conv.state = .QUEUED →
      ¬ Subscribed s op conv.inbox_id →
      claimConversationBody now op conversationId s
        = (.error ⟨"Operator is not subscribed to this inbox", 403⟩, s) := by
    intro hst conv hc hq hsub
    rw [← selectStatus_head?] at hst
    obtain ⟨rest, hl⟩ := exists_cons_of_head? hst
    obtain ⟨others, hsel⟩ := selectConversation_eq_cons hc
    have hnil : selectSubscription s op conv.inbox_id = [] := by
      by_contra hne
      exact hsub ((selectSubscription_ne_nil_iff s op conv.inbox_id).1 hne)
    unfold claimConversationBody
    rw [hl, hsel]
    simp [hq, hnil]
  have hok : s.status? op = some .AVAILABLE → ∀ conv,
      s.conversation? conversationId = some conv → conv.state = .QUEUED →
      Subscribed s op conv.inbox_id →
      ∃ r s', claimConversationBody now op conversationId s = (.ok r, s') := by
    intro hst conv hc hq hsub
    rw [← selectStatus_head?] at hst
    obtain ⟨rest, hl⟩ := exists_cons_of_head? hst
    obtain ⟨others, hsel⟩ := selectConversation_eq_cons hc
    have hne := (selectSubscription_ne_nil_iff s op conv.inbox_id).2 hsub
    obtain ⟨sub, subs, hsubs⟩ : ∃ sub subs, selectSubscription s op conv.inbox_id = sub :: subs := by
      cases hs : selectSubscription s op conv.inbox_id with
      | nil => exact absurd hs hne
      | cons sub subs => exact ⟨sub, subs, rfl⟩
    refine ⟨(updateConversations (fun c => c.id = conversationId) (setAllocated op now)
        s.conversations).2.head?,
      { s with conversations := (updateConversations (fun c => c.id = conversationId)
        (setAllocated op now) s.conversations).1 }, ?_⟩
    unfold claimConversationBody
    rw [hl, hsel]
    simp only [hq, ne_eq, not_true_eq_false, if_false, hsubs]
  refine ⟨⟨?_, ?_⟩, fun h => transaction_of_error _ s s _ (hunavail h), ?_,
    fun h1 h2 => transaction_of_error _ s s _ (hmissing h1 h2),
    fun h1 conv h2 h3 h4 => transaction_of_error _ s s _ (hnosub h1 conv h2 h3 h4),
    fun e s1 h => claimConversationBody_error h, ?_⟩
  · rintro ⟨r, s', h⟩
    rw [claimConversation, transaction_eq_ok_iff] at h
    obtain ⟨conv, hst, hconv, hq, hsub, _, _⟩ := claimConversationBody_ok h
    rw [selectStatus_head?] at hst
    rw [selectConversation_head?] at hconv
    exact ⟨hst, conv, hconv, hq, (selectSubscription_ne_nil_iff s op conv.inbox_id).1 hsub⟩
  · rintro ⟨hst, conv, hc, hq, hsub⟩
    obtain ⟨r, s', h⟩ := hok hst conv hc hq hsub
    exact ⟨r, s', by rw [claimConversation, transaction_eq_ok_iff]; exact h⟩
  · intro conv hc hq
    by_cases hst : s.status? op = some .AVAILABLE
    · exact ⟨_, transaction_of_error _ s s _ (hstate hst conv hc hq), rfl⟩
    · exact ⟨_, transaction_of_error _ s s _ (hunavail hst), rfl⟩
  · intro e s1 h
    unfold claimConversation db.transaction at h
    rcases hb : claimConversationBody now op conversationId s with ⟨_ | r, s2⟩
    · rw [hb] at h
      simp only [Prod.mk.injEq] at h
      exact h.2.symm
    · rw [hb] at h
      simp at h

/-- The guards of `claimConversation` run in order: an operator who is
OFFLINE and also not subscribed to the inbox of a QUEUED conversation gets
the 400 error of the availability check, which comes first. -/
theorem claim_offline_unsubscribed_is_400 :
    Sample.withOffline.status? 3 = some .OFFLINE ∧
    (Sample.withOffline.conversation? 1).map (fun c => (c.state, c.inbox_id))
      = some (.QUEUED, 1) ∧
    ¬ Subscribed Sample.withOffline 3 1 ∧
    claimConversation 100 3 1 Sample.withOffline
      = (.error ⟨"Operator is not available", 400⟩, Sample.withOffline) := by
  refine ⟨rfl, rfl, ?_, rfl⟩
  rintro ⟨sub, hsub, hop, _⟩
  simp only [Sample.withOffline, Sample.store, List.mem_singleton] at hsub
  subst hsub
  simp at hop

theorem claim_outcomes_witness :
    (Sample.store.status? 1 = some .AVAILABLE ∧
      ∃ r s', claimConversation 100 1 1 Sample.store = (.ok r, s')) ∧
    (Sample.withOffline.status? 3 ≠ some .AVAILABLE ∧
      claimConversation 100 3 1 Sample.withOffline
        = (.error ⟨"Operator is not available", 400⟩, Sample.withOffline)) ∧
    (Sample.store.status? 2 = some .AVAILABLE ∧ ¬ Subscribed Sample.store 2 1 ∧
      claimConversation 100 2 1 Sample.store
        = (.error ⟨"Operator is not subscribed to this inbox", 403⟩, Sample.store)) :=
  have hsub1 : Subscribed Sample.store 1 1 := ⟨⟨1, 1⟩, by simp [Sample.store], rfl, rfl⟩
  have hsub2 : ¬ Subscribed Sample.store 2 1 := by
    rintro ⟨sub, hsub, hop, _⟩
    simp only [Sample.store, List.mem_singleton] at hsub
    subst hsub
    simp at hop
  ⟨⟨rfl, (claim_outcomes 100 1 1 Sample.store).1.2 ⟨rfl, _, rfl, rfl, hsub1⟩⟩,
    ⟨by decide, (claim_outcomes 100 3 1 Sample.withOffline).2.1 (by decide)⟩,
    ⟨rfl, hsub2, (claim_outcomes 100 2 1 Sample.store).2.2.2.2.1 rfl _ rfl rfl hsub2⟩⟩

/-! ## Manager allocation: outcomes -/

theorem transaction_error_store {α : Type} {body : Store → Outcome α} {s s1 : Store}
    {e : AppError} (h : db.transaction body s = (.error e, s1)) : s1 = s := by
  unfold db.transaction at h
  rcases hb : body s with ⟨_ | r, s2⟩
  · rw [hb] at h
    simp only [Prod.mk.injEq] at h
    exact h.2.symm
  · rw [hb] at h
    simp at h

/-- No error path of `managerAllocateConversation` writes to the store. -/
theorem managerAllocateConversationBody_error {now whoToAssignTo whichConversation : Nat}
    {whoIsAsking : OperatorRole} {s s1 : Store} {e : AppError}
    (h : managerAllocateConversationBody now whoToAssignTo whichConversation whoIsAsking s
      = (.error e, s1)) : s1 = s := by
  unfold managerAllocateConversationBody at h
  dsimp only at h
  repeat' split at h
  all_goals simp_all

/-- The first row of the operator lookup with its LEFT JOIN: the stored
operator with the stored status, NULL when there is no status row. -/
theorem selectOperatorWithStatus_head? (s : Store) (operatorId : Nat) :
    (selectOperatorWithStatus s operatorId).head?
      = (s.operator? operatorId).map (fun o => (o, s.status? operatorId)) := by
  unfold selectOperatorWithStatus Store.operator?
  induction s.operators with
  | nil => rfl
  | cons o rows ih =>
    by_cases ho : o.id = operatorId
    · subst ho
      have hpred : (fun r : OperatorStatus => decide (o.id = r.operator_id))
          = (fun r => decide (r.operator_id = o.id)) := by
        funext r
        simp [eq_comm]
      have hst : s.status? o.id
          = ((s.operator_status.filter (fun r => decide (o.id = r.operator_id))).head?).map
              (fun r => r.status) := by
        rw [hpred, head?_filter_eq_find?]
        rfl
      rw [hst]
      cases hl : s.operator_status.filter (fun r => decide (o.id = r.operator_id)) with
      | nil => simp [List.filter_cons, List.find?_cons, hl]
      | cons r rs => simp [List.filter_cons, List.find?_cons, hl]
    · simpa [List.filter_cons, ho, List.find?_cons] using ih

theorem filter_id_of_nodup (rows : List Conversation) (k : Nat)
    (hnd : (rows.map (fun c => c.id)).Nodup) :
    rows.filter (fun c => decide (c.id = k)) = (rows.find? (fun c => decide (c.id = k))).toList := by
  induction rows with
  | nil => rfl
  | cons c rows ih =>
    rw [List.map_cons, List.nodup_cons] at hnd
    by_cases hc : c.id = k
    · have hnone : rows.filter (fun c => decide (c.id = k)) = [] := by
        rw [List.filter_eq_nil_iff]
        intro x hx hxid
        exact hnd.1 (List.mem_map.2 ⟨x, hx, by simpa [hc] using hxid⟩)
      simp [List.filter_cons, List.find?_cons, hc, hnone]
    · simpa [List.filter_cons, List.find?_cons, hc] using ih hnd.2

/-- Under the primary key, the rows of a conversation id are the stored row
alone. -/
theorem selectConversation_of_unique {s : Store} (hpk : UniqueConversationIds s)
    (conversationId : Nat) :
    selectConversation s conversationId = (s.conversation? conversationId).toList :=
  filter_id_of_nodup s.conversations conversationId hpk

/-- Under the primary key, the first row of the conversation lookup with its
JOIN on inboxes: the stored conversation with the tenant of its stored
inbox. -/
theorem selectConversationWithInbox_head? {s : Store} (hpk : UniqueConversationIds s)
    (conversationId : Nat) :
    (selectConversationWithInbox s conversationId).head?
      = (s.conversation? conversationId).bind (fun conv =>
          (s.inbox? conv.inbox_id).map (fun i => (conv, i.tenant_id))) := by
  have h := selectConversation_of_unique hpk conversationId
  unfold selectConversation at h
  unfold selectConversationWithInbox
  rw [h]
  cases s.conversation? conversationId with
  | none => rfl
  | some conv =>
    have hpred : (fun i : Inbox => decide (conv.inbox_id = i.id))
        = (fun i => decide (i.id = conv.inbox_id)) := by
      funext i
      simp [eq_comm]
    simp only [Option.toList, List.flatMap_cons, List.flatMap_nil, List.append_nil,
      List.head?_map, hpred, head?_filter_eq_find?, Option.some_bind]
    rfl

/-- C11: for a MANAGER or ADMIN, `managerAllocateConversation` succeeds iff
the target operator exists with status AVAILABLE, the conversation exists
with state QUEUED, the tenant of its inbox is the tenant of the target, and
the target is subscribed to its inbox; on success the conversation is
ALLOCATED to the target, and no failure writes to the store. -/
theorem managerAllocate_outcomes (now target conversationId : Nat) (role : OperatorRole)
    (s : Store) (hrole : role = .MANAGER ∨ role = .ADMIN) (hpk : UniqueConversationIds s) :
    ((∃ r s', managerAllocateConversation now target conversationId role s = (.ok r, s')) ↔
      ∃ o conv inbox, s.operator? target = some o ∧ s.status? target = some .AVAILABLE ∧
        s.conversation? conversationId = some conv ∧ conv.state = .QUEUED ∧
        s.inbox? conv.inbox_id = some inbox ∧ inbox.tenant_id = o.tenant_id ∧
        Subscribed s target conv.inbox_id) ∧
    (∀ r s', managerAllocateConversation now target conversationId role s = (.ok r, s') →
      ∃ row, r = some row ∧ row.id = conversationId ∧ row.state = .ALLOCATED ∧
        row.assigned_operator_id = some target ∧ s'.conversation? conversationId = some row ∧
        ∀ c ∈ s'.conversations, c.id = conversationId →
          c.state = .ALLOCATED ∧ c.assigned_operator_id = some target) ∧
    (∀ e s1, managerAllocateConversationBody now target conversationId role s = (.error e, s1) →
      s1 = s) ∧
    (∀ e s1, managerAllocateConversation now target conversationId role s = (.error e, s1) →
      s1 = s) := by
  have hcontains : [OperatorRole.MANAGER, OperatorRole.ADMIN].contains role = true := by
    rcases hrole with rfl | rfl <;> rfl
  refine ⟨⟨?_, ?_⟩, ?_, fun e s1 h => managerAllocateConversationBody_error h,
    fun e s1 h => transaction_error_store h⟩
  · rintro ⟨r, s', h⟩
    rw [managerAllocateConversation, transaction_eq_ok_iff] at h
    obtain ⟨o, conv, _, hop, hconv, hq, hsub, _, _⟩ := managerAllocateConversationBody_ok h
    rw [selectOperatorWithStatus_head?] at hop
    rw [selectConversationWithInbox_head? hpk] at hconv
    cases ho : s.operator? target with
    | none => simp [ho] at hop
    | some o' =>
      simp only [ho, Option.map_some', Option.some.injEq, Prod.mk.injEq] at hop
      obtain ⟨rfl, hst⟩ := hop
      cases hc : s.conversation? conversationId with
      | none => simp [hc] at hconv
      | some conv' =>
        cases hi : s.inbox? conv'.inbox_id with
        | none => simp [hc, hi] at hconv
        | some inbox =>
          simp only [hc, hi, Option.some_bind, Option.map_some', Option.some.injEq,
            Prod.mk.injEq] at hconv
          obtain ⟨rfl, hten⟩ := hconv
          exact ⟨o', conv', inbox, rfl, hst, rfl, hq, hi, hten,
            (selectSubscription_ne_nil_iff s target conv'.inbox_id).1 hsub⟩
  · rintro ⟨o, conv, inbox, ho, hst, hc, hq, hi, hten, hsub⟩
    have hop : (selectOperatorWithStatus s target).head? = some (o, some .AVAILABLE) := by
      rw [selectOperatorWithStatus_head?, ho, hst]
      rfl
    have hconv : (selectConversationWithInbox s conversationId).head?
        = some (conv, inbox.tenant_id) := by
      rw [selectConversationWithInbox_head? hpk, hc]
      simp [hi]
    obtain ⟨ops, hops⟩ := exists_cons_of_head? hop
    obtain ⟨convs, hconvs⟩ := exists_cons_of_head? hconv
    have hne := (selectSubscription_ne_nil_iff s target conv.inbox_id).2 hsub
    obtain ⟨sub, subs, hsubs⟩ : ∃ sub subs,
        selectSubscription s target conv.inbox_id = sub :: subs := by
      cases hs : selectSubscription s target conv.inbox_id with
      | nil => exact absurd hs hne
      | cons sub subs => exact ⟨sub, subs, rfl⟩
    refine ⟨(updateConversations (fun c => c.id = conversationId) (setAllocated target now)
        s.conversations).2.head?,
      { s with conversations := (updateConversations (fun c => c.id = conversationId)
        (setAllocated target now) s.conversations).1 }, ?_⟩
    rw [managerAllocateConversation, transaction_eq_ok_iff]
    unfold managerAllocateConversationBody
    rw [hops, hconvs]
    simp only [hcontains, Bool.not_true, Bool.false_eq_true, if_false, ne_eq, not_true_eq_false,
      hten, hq, hsubs]
  · intro r s' h
    rw [managerAllocateConversation, transaction_eq_ok_iff] at h
    obtain ⟨o, conv, _, _, hconv, _, _, hr, rfl⟩ := managerAllocateConversationBody_ok h
    obtain ⟨hmem, hid⟩ := mem_of_head?_selectConversationWithInbox hconv
    cases r with
    | none =>
      rw [head?_updateConversations_id] at hr
      have : (s.conversations.find? (fun c => decide (c.id = conversationId))).isSome := by
        rw [List.find?_isSome]
        exact ⟨conv, hmem, by simpa using hid⟩
      cases hf : s.conversations.find? (fun c => decide (c.id = conversationId)) with
      | none => simp [hf] at this
      | some x => simp [hf] at hr
    | some row =>
      obtain ⟨h1, h2, h3, h4, h5⟩ := setAllocated_returning target now conversationId _ row hr
      exact ⟨row, rfl, h1, h2, h3, by simpa [Store.conversation?] using h4, h5⟩

theorem managerAllocate_outcomes_witness :
    UniqueConversationIds Sample.store ∧
    (∃ r s', managerAllocateConversation 100 1 1 .MANAGER Sample.store = (.ok r, s')) ∧
    ∃ row, some (setAllocated 1 100 (Sample.conv 1 1 1 .QUEUED none 5 (some 3))) = some row ∧
      row.id = 1 ∧ row.state = .ALLOCATED ∧ row.assigned_operator_id = some 1 ∧
      (managerAllocateConversation 100 1 1 .MANAGER Sample.store).2.conversation? 1 = some row ∧
      ∀ c ∈ (managerAllocateConversation 100 1 1 .MANAGER Sample.store).2.conversations,
        c.id = 1 → c.state = .ALLOCATED ∧ c.assigned_operator_id = some 1 :=
  have hpk : UniqueConversationIds Sample.store := by
    unfold UniqueConversationIds; decide
  ⟨hpk, (managerAllocate_outcomes 100 1 1 .MANAGER Sample.store (Or.inl rfl) hpk).1.2
      ⟨_, _, _, rfl, rfl, rfl, rfl, rfl, rfl, ⟨⟨1, 1⟩, by simp [Sample.store], rfl, rfl⟩⟩,
    (managerAllocate_outcomes 100 1 1 .MANAGER Sample.store (Or.inl rfl) hpk).2.1 _ _ rfl⟩

/-! ## Allocate: the empty result -/

theorem selectCompanySettings_head?_of {s : Store} {operatorId : Nat} {o : Operator}
    {t : Tenant} (ho : s.operator? operatorId = some o) (ht : s.tenant? o.tenant_id = some t) :
    (selectCompanySettings s operatorId).head?
      = some (o.tenant_id, t.priority_alpha, t.priority_beta) := by
  unfold Store.operator? at ho
  rw [← head?_filter_eq_find?] at ho
  obtain ⟨ops, hops⟩ := exists_cons_of_head? ho
  have hpred : (fun x : Tenant => decide (o.tenant_id = x.id))
      = (fun x => decide (x.id = o.tenant_id)) := by
    funext x
    simp [eq_comm]
  unfold Store.tenant? at ht
  rw [← head?_filter_eq_find?, ← hpred] at ht
  obtain ⟨ts, hts⟩ := exists_cons_of_head? ht
  unfold selectCompanySettings
  rw [hops, List.flatMap_cons, hts]
  rfl

/-- With a positive fetch window, the candidate query is empty iff no
conversation is a candidate. -/
theorem selectAvailableConversations_eq_nil_iff (env : Env) (s : Store) (operatorId tenantId : Nat)
    (hlimit : 0 < env.maxConversationFetch) :
    selectAvailableConversations env s tenantId (selectSubscribedInboxes s operatorId) = [] ↔
      ¬ ∃ c ∈ s.conversations, Eligible s operatorId tenantId c := by
  unfold selectAvailableConversations
  rw [List.take_eq_nil_iff, ← List.length_eq_zero, List.length_insertionSort,
    List.length_eq_zero, List.filter_eq_nil_iff]
  constructor
  · rintro (h | h)
    · omega
    · rintro ⟨c, hc, hq, ht, hsub⟩
      apply h c hc
      have hm := (mem_selectSubscribedInboxes s operatorId c.inbox_id).2 hsub
      simp [hq, ht, hm]
  · intro h
    right
    intro c hc hp
    have hp' : (c.state = .QUEUED ∧ c.tenant_id = tenantId) ∧
        c.inbox_id ∈ selectSubscribedInboxes s operatorId := by simpa using hp
    exact h ⟨c, hc, hp'.1.1, hp'.1.2,
      (mem_selectSubscribedInboxes s operatorId c.inbox_id).1 hp'.2⟩

/-- C14: for an operator that exists (with its tenant row), is AVAILABLE and
has a subscription, and with a positive fetch window,
`allocateConversation` returns null with the store unchanged iff no QUEUED
conversation of the operator's tenant lies in a subscribed inbox; otherwise
it returns a conversation. -/
theorem allocate_none_iff (env : Env) (now op : Nat) (s : Store) (o : Operator) (t : Tenant)
    (hlimit : 0 < env.maxConversationFetch)
    (ho : s.operator? op = some o) (ht : s.tenant? o.tenant_id = some t)
    (hst : s.status? op = some .AVAILABLE) (hsub : ∃ inboxId, Subscribed s op inboxId) :
    (allocateConversation env now op s = (.ok none, s) ↔
      ¬ ∃ c ∈ s.conversations, Eligible s op o.tenant_id c) ∧
    ((∃ c ∈ s.conversations, Eligible s op o.tenant_id c) →
      ∃ r s', allocateConversation env now op s = (.ok (some r), s')) := by
  rw [← selectStatus_head?] at hst
  obtain ⟨rest, hl⟩ := exists_cons_of_head? hst
  obtain ⟨inbox, inboxes, hsubs⟩ : ∃ inbox inboxes,
      selectSubscribedInboxes s op = inbox :: inboxes := by
    cases hs : selectSubscribedInboxes s op with
    | nil =>
      obtain ⟨i, hi⟩ := hsub
      exact absurd hi ((selectSubscribedInboxes_eq_nil_iff s op).1 hs i)
    | cons inbox inboxes => exact ⟨inbox, inboxes, rfl⟩
  obtain ⟨settings, hset⟩ := exists_cons_of_head? (selectCompanySettings_head?_of ho ht)
  have hnil := selectAvailableConversations_eq_nil_iff env s op o.tenant_id hlimit
  rw [hsubs] at hnil
  have hsome : (∃ c ∈ s.conversations, Eligible s op o.tenant_id c) →
      ∃ r s', allocateConversation env now op s = (.ok (some r), s') := by
    intro hex
    cases hc : selectAvailableConversations env s o.tenant_id (inbox :: inboxes) with
    | nil => exact absurd hex (hnil.1 hc)
    | cons best cands =>
      have hbest : (selectAvailableConversations env s o.tenant_id (inbox :: inboxes)).head?
          = some best := by rw [hc]; rfl
      obtain ⟨⟨hmem, _⟩, _⟩ := selectAvailableConversations_head env s o.tenant_id _ best hbest
      have hr : (updateConversations (fun c => c.id = best.id) (setAllocated op now)
          s.conversations).2.head? = some (setAllocated op now
            ((s.conversations.find? (fun c => decide (c.id = best.id))).getD best)) := by
        rw [head?_updateConversations_id]
        cases hf : s.conversations.find? (fun c => decide (c.id = best.id)) with
        | none =>
          have := List.find?_eq_none.1 hf best hmem
          simp at this
        | some x => rfl
      refine ⟨setAllocated op now
          ((s.conversations.find? (fun c => decide (c.id = best.id))).getD best),
        { s with conversations := (updateConversations (fun c => c.id = best.id)
          (setAllocated op now) s.conversations).1 }, ?_⟩
      rw [allocateConversation, transaction_eq_ok_iff]
      unfold allocateConversationBody
      rw [hl, hsubs, hset]
      simp only [ne_eq, not_true_eq_false, if_false, hc, hr]
  refine ⟨⟨?_, ?_⟩, hsome⟩
  · intro h hex
    obtain ⟨r, s', h'⟩ := hsome hex
    rw [h] at h'
    simp at h'
  · intro hno
    have hc := hnil.2 hno
    rw [allocateConversation, transaction_eq_ok_iff]
    unfold allocateConversationBody
    rw [hl, hsubs, hset]
    simp only [ne_eq, not_true_eq_false, if_false, hc]

theorem allocate_none_iff_witness :
    0 < Sample.env.maxConversationFetch ∧
    allocateConversation Sample.env 100 1 Sample.twoTenants = (.ok none, Sample.twoTenants) ∧
    ∃ r s', allocateConversation Sample.env 100 1 Sample.store = (.ok (some r), s') :=
  have hsub1 : Subscribed Sample.store 1 1 := ⟨⟨1, 1⟩, by simp [Sample.store], rfl, rfl⟩
  have hsub2 : Subscribed Sample.twoTenants 1 1 :=
    ⟨⟨1, 1⟩, by simp [Sample.twoTenants], rfl, rfl⟩
  have hnone : ¬ ∃ c ∈ Sample.twoTenants.conversations, Eligible Sample.twoTenants 1 1 c := by
    rintro ⟨c, hc, hq, _⟩
    simp only [Sample.twoTenants, List.mem_singleton] at hc
    subst hc
    cases hq
  ⟨by decide,
    (allocate_none_iff Sample.env 100 1 Sample.twoTenants ⟨1, 1, .OPERATOR, "Ann", "ann@a"⟩
      ⟨1, "Acme", some 4, some 6⟩ (by decide) rfl rfl rfl ⟨1, hsub2⟩).1.2 hnone,
    (allocate_none_iff Sample.env 100 1 Sample.store ⟨1, 1, .OPERATOR, "Ann", "ann@a"⟩
      ⟨1, "Acme", some 4, some 6⟩ (by decide) rfl rfl rfl ⟨1, hsub1⟩).2
      ⟨Sample.conv 1 1 1 .QUEUED none 5 (some 3), by simp [Sample.store], rfl, rfl, hsub1⟩⟩

/-! ## Deallocate -/

theorem updateConversations_of_filter_nil {p : Conversation → Bool}
    {f : Conversation → Conversation} {rows : List Conversation}
    (h : rows.filter p = []) : (updateConversations p f rows).1 = rows := by
  rw [List.filter_eq_nil_iff] at h
  unfold updateConversations
  simp only
  conv_rhs => rw [← List.map_id rows]
  apply List.map_congr_left
  intro c hc
  simp [h c hc]

theorem find?_map_of_id {f : Conversation → Conversation} (hf : ∀ c, (f c).id = c.id)
    (k : Nat) (rows : List Conversation) :
    (rows.map f).find? (fun c => decide (c.id = k))
      = (rows.find? (fun c => decide (c.id = k))).map f := by
  induction rows with
  | nil => rfl
  | cons c rows ih =>
    by_cases hc : c.id = k
    · simp [List.find?_cons, hf, hc]
    · simp [List.find?_cons, hf, hc, ih]

theorem mem_unique_conversation? {s : Store} (hpk : UniqueConversationIds s) {c : Conversation}
    (hc : c ∈ s.conversations) : s.conversation? c.id = some c := by
  have h := selectConversation_of_unique hpk c.id
  have hm : c ∈ selectConversation s c.id := by
    simp [selectConversation, hc]
  rw [h] at hm
  cases hf : s.conversation? c.id with
  | none => simp [hf] at hm
  | some x =>
    simp only [hf, Option.toList, List.mem_singleton] at hm
    rw [hm]

theorem find?_allocated_of_find? {rows : List Conversation} {k : Nat} {conv : Conversation}
    (h : rows.find? (fun c => decide (c.id = k)) = some conv) (hs : conv.state = .ALLOCATED) :
    rows.find? (fun c => decide (c.id = k) && decide (c.state = .ALLOCATED)) = some conv := by
  induction rows with
  | nil => simp at h
  | cons c rows ih =>
    by_cases hc : c.id = k
    · have : c = conv := by simpa [List.find?_cons, hc] using h
      subst this
      simp [List.find?_cons, hc, hs]
    · have h' : rows.find? (fun c => decide (c.id = k)) = some conv := by
        simpa [List.find?_cons, hc] using h
      simpa [List.find?_cons, hc] using ih h'

theorem recomputeScores_eq (env : Env) (now : Nat) (p : Conversation → Bool) (s : Store) :
    recomputeScores env now p s
      = { s with conversations :=
            s.conversations.map (fun c => if p c then rescore env now s.tenants c else c) } :=
  rfl

theorem rescore_fields (env : Env) (now : Nat) (tenants : List Tenant) (c : Conversation) :
    (rescore env now tenants c).id = c.id ∧ (rescore env now tenants c).state = c.state ∧
    (rescore env now tenants c).assigned_operator_id = c.assigned_operator_id ∧
    (rescore env now tenants c).tenant_id = c.tenant_id ∧
    (rescore env now tenants c).message_count = c.message_count ∧
    (rescore env now tenants c).last_message_at = c.last_message_at := by
  unfold rescore
  split <;> simp

theorem rescore_score (env : Env) (now : Nat) (s : Store) (c : Conversation) (t : Tenant)
    (ht : s.tenant? c.tenant_id = some t) :
    (rescore env now s.tenants c).priority_score
      = env.calculate_priority_score now c.message_count c.last_message_at
          t.priority_alpha t.priority_beta := by
  have hpred : (fun x : Tenant => decide (c.tenant_id = x.id))
      = (fun x => decide (x.id = c.tenant_id)) := by
    funext x
    simp [eq_comm]
  unfold Store.tenant? at ht
  rw [← head?_filter_eq_find?, ← hpred] at ht
  obtain ⟨ts, hts⟩ := exists_cons_of_head? ht
  unfold rescore
  simp only [hts]

/-- The stored row of a conversation after the score update by id. -/
theorem recomputeScores_conversation? (env : Env) (now k : Nat) (s : Store) :
    (recomputeScores env now (fun c => c.id = k) s).conversation? k
      = (s.conversation? k).map (rescore env now s.tenants) := by
  rw [recomputeScores_eq]
  unfold Store.conversation?
  simp only
  rw [find?_map_of_id]
  · cases hf : s.conversations.find? (fun c => decide (c.id = k)) with
    | none => rfl
    | some c =>
      have hid : c.id = k := by simpa using List.find?_some hf
      simp [hid]
  · intro c
    split
    · exact (rescore_fields env now s.tenants c).1
    · rfl

/-! ## The reclaim sweep -/

theorem mem_sweepIds (now : Nat) (s : Store) (cid : Nat) :
    cid ∈ sweepIds now s ↔
      ∃ g ∈ s.grace_period_assignments, g.expires_at ≤ now ∧ g.conversation_id = cid ∧
        ∃ c ∈ s.conversations, c.id = cid := by
  unfold sweepIds selectExpiredGracePeriods
  simp only [List.mem_map, List.mem_flatMap, List.mem_filter, decide_eq_true_eq]
  constructor
  · rintro ⟨r, ⟨g, ⟨hg, hexp⟩, c, ⟨hc, hid⟩, rfl⟩, rfl⟩
    exact ⟨g, hg, hexp, rfl, c, hc, hid.symm⟩
  · rintro ⟨g, hg, hexp, rfl, c, hc, hid⟩
    exact ⟨_, ⟨g, ⟨hg, hexp⟩, c, ⟨hc, hid.symm⟩, rfl⟩, rfl⟩

/-- The sweep never throws. -/
theorem processExpiredGracePeriods_eq_body (env : Env) (now : Nat) (s : Store) :
    processExpiredGracePeriods env now s = processExpiredGracePeriodsBody env now s ∧
    ∃ r, (processExpiredGracePeriodsBody env now s).1 = .ok r := by
  have hok : ∃ r, (processExpiredGracePeriodsBody env now s).1 = .ok r := by
    unfold processExpiredGracePeriodsBody
    split
    · exact ⟨_, rfl⟩
    · exact ⟨_, rfl⟩
  refine ⟨?_, hok⟩
  obtain ⟨r, hr⟩ := hok
  unfold processExpiredGracePeriods db.transaction
  rcases hb : processExpiredGracePeriodsBody env now s with ⟨res, s1⟩
  rw [hb] at hr
  simp only at hr
  subst hr
  rfl

/-- The conversation table the sweep leaves: the rows of the collected ids
are queued again when they were ALLOCATED, and rescored; all other rows are
as they were. -/
theorem sweep_conversations (env : Env) (now : Nat) (s : Store) :
    (processExpiredGracePeriodsBody env now s).2.conversations
      = s.conversations.map (fun c =>
          if (sweepIds now s).contains c.id then
            rescore env now s.tenants (if c.state = .ALLOCATED then setQueued now c else c)
          else c) := by
  unfold processExpiredGracePeriodsBody sweepIds
  cases h : selectExpiredGracePeriods now s with
  | nil => simp
  | cons row rows =>
    simp only [recomputeScores_eq, updateConversations, List.map_map]
    generalize List.map (fun r => r.1) (row :: rows) = ids
    apply List.map_congr_left
    intro c _
    have hid : (setQueued now c).id = c.id := rfl
    by_cases hin : c.id ∈ ids
    · by_cases hst : c.state = .ALLOCATED
      · simp [hin, hst, hid]
      · simp [hin, hst]
    · simp [hin]

/-- The holds the sweep leaves: those of the conversations it did not
collect. -/
theorem sweep_holds (env : Env) (now : Nat) (s : Store) :
    (processExpiredGracePeriodsBody env now s).2.grace_period_assignments
      = s.grace_period_assignments.filter (fun g => !(sweepIds now s).contains g.conversation_id) := by
  unfold processExpiredGracePeriodsBody sweepIds
  cases h : selectExpiredGracePeriods now s with
  | nil => simp
  | cons row rows => rfl

theorem sweep_conversation? (env : Env) (now : Nat) (s : Store) (cid : Nat) :
    (processExpiredGracePeriodsBody env now s).2.conversation? cid
      = (s.conversation? cid).map (fun c =>
          if (sweepIds now s).contains c.id then
            rescore env now s.tenants (if c.state = .ALLOCATED then setQueued now c else c)
          else c) := by
  unfold Store.conversation?
  rw [sweep_conversations, find?_map_of_id]
  intro c
  split
  · rw [(rescore_fields env now s.tenants _).1]
    split <;> rfl
  · rfl

/-- C16: with at most one hold per conversation and every hold referring to
a stored conversation, after `processExpiredGracePeriods` at `now` every
conversation that was ALLOCATED and had a hold due at `now` is QUEUED with
no assignee, no hold due at `now` is left, the conversations without such a
hold and the holds due later are as they were, and a second sweep at the
same `now` returns processed 0, released 0 and changes nothing. -/
theorem sweep_outcomes (env : Env) (now : Nat) (s : Store)
    (hu : UniqueHolds s) (hfk : HoldsReferToConversations s) :
    (∀ cid c, s.conversation? cid = some c → c.state = .ALLOCATED →
      (∃ g ∈ s.grace_period_assignments, g.conversation_id = cid ∧ g.expires_at ≤ now) →
      ∃ c', (processExpiredGracePeriods env now s).2.conversation? cid = some c' ∧
        c'.state = .QUEUED ∧ c'.assigned_operator_id = none) ∧
    (∀ g ∈ (processExpiredGracePeriods env now s).2.grace_period_assignments,
      now < g.expires_at) ∧
    (∀ cid, (¬ ∃ g ∈ s.grace_period_assignments, g.conversation_id = cid ∧ g.expires_at ≤ now) →
      (processExpiredGracePeriods env now s).2.conversation? cid = s.conversation? cid ∧
      ∀ c ∈ s.conversations, c.id = cid →
        c ∈ (processExpiredGracePeriods env now s).2.conversations) ∧
    (∀ g ∈ s.grace_period_assignments, now < g.expires_at →
      g ∈ (processExpiredGracePeriods env now s).2.grace_period_assignments) ∧
    (∀ g ∈ (processExpiredGracePeriods env now s).2.grace_period_assignments,
      g ∈ s.grace_period_assignments) ∧
    processExpiredGracePeriods env now (processExpiredGracePeriods env now s).2
      = (.ok ⟨0, 0⟩, (processExpiredGracePeriods env now s).2) := by
  rw [(processExpiredGracePeriods_eq_body env now s).1]
  have hleft : ∀ g ∈ (processExpiredGracePeriodsBody env now s).2.grace_period_assignments,
      now < g.expires_at := by
    intro g hg
    rw [sweep_holds, List.mem_filter] at hg
    obtain ⟨hg, hnot⟩ := hg
    by_contra hle
    have hin : g.conversation_id ∈ sweepIds now s :=
      (mem_sweepIds now s _).2 ⟨g, hg, Nat.le_of_not_lt hle, rfl, hfk g hg⟩
    simp [hin] at hnot
  refine ⟨?_, hleft, ?_, ?_, ?_, ?_⟩
  · rintro cid c hc hs ⟨g, hg, hgid, hexp⟩
    have hmem : c ∈ s.conversations := List.mem_of_find?_eq_some hc
    have hid : c.id = cid := by simpa using List.find?_some hc
    have hin : cid ∈ sweepIds now s := (mem_sweepIds now s _).2 ⟨g, hg, hexp, hgid, c, hmem, hid⟩
    refine ⟨rescore env now s.tenants (setQueued now c), ?_, ?_, ?_⟩
    · rw [sweep_conversation?, hc]
      simp [hid, hin, hs]
    · rw [(rescore_fields env now s.tenants _).2.1]
      rfl
    · rw [(rescore_fields env now s.tenants _).2.2.1]
      rfl
  · intro cid hno
    have hnin : cid ∉ sweepIds now s := by
      intro hin
      obtain ⟨g, hg, hexp, hgid, _⟩ := (mem_sweepIds now s _).1 hin
      exact hno ⟨g, hg, hgid, hexp⟩
    constructor
    · rw [sweep_conversation?]
      cases hc : s.conversation? cid with
      | none => rfl
      | some c =>
        have hid : c.id = cid := by simpa using List.find?_some hc
        simp [hid, hnin]
    · intro c hc hid
      rw [sweep_conversations, List.mem_map]
      exact ⟨c, hc, by simp [hid, hnin]⟩
  · intro g hg hlater
    rw [sweep_holds, List.mem_filter]
    refine ⟨hg, ?_⟩
    have hnin : g.conversation_id ∉ sweepIds now s := by
      intro hin
      obtain ⟨g', hg', hexp, hgid, _⟩ := (mem_sweepIds now s _).1 hin
      have : g' = g := List.inj_on_of_nodup_map hu hg' hg hgid
      subst this
      omega
    simp [hnin]
  · intro g hg
    rw [sweep_holds, List.mem_filter] at hg
    exact hg.1
  · have hnil : selectExpiredGracePeriods now (processExpiredGracePeriodsBody env now s).2 = [] := by
      unfold selectExpiredGracePeriods
      have : (processExpiredGracePeriodsBody env now s).2.grace_period_assignments.filter
          (fun gpa => decide (gpa.expires_at ≤ now)) = [] := by
        rw [List.filter_eq_nil_iff]
        intro g hg hle
        have := hleft g hg
        simp only [decide_eq_true_eq] at hle
        omega
      rw [this]
      rfl
    rw [(processExpiredGracePeriods_eq_body env now _).1]
    generalize (processExpiredGracePeriodsBody env now s).2 = s1 at hnil ⊢
    unfold processExpiredGracePeriodsBody
    rw [hnil]

theorem sweep_outcomes_witness :
    UniqueHolds Sample.store ∧ HoldsReferToConversations Sample.store ∧
    (∃ c', (processExpiredGracePeriods Sample.env 100 Sample.store).2.conversation? 3 = some c' ∧
      c'.state = .QUEUED ∧ c'.assigned_operator_id = none) ∧
    processExpiredGracePeriods Sample.env 100
        (processExpiredGracePeriods Sample.env 100 Sample.store).2
      = (.ok ⟨0, 0⟩, (processExpiredGracePeriods Sample.env 100 Sample.store).2) :=
  have hu : UniqueHolds Sample.store := by
    unfold UniqueHolds; decide
  have hfk : HoldsReferToConversations Sample.store := by
    unfold HoldsReferToConversations; decide
  ⟨hu, hfk,
    (sweep_outcomes Sample.env 100 Sample.store hu hfk).1 3 _ rfl rfl
      ⟨⟨3, 1, 10, .OFFLINE⟩, by simp [Sample.store], rfl, by decide⟩,
    (sweep_outcomes Sample.env 100 Sample.store hu hfk).2.2.2.2.2⟩

/-! ## Reassign -/

/-- C17 fails on the code: `reassignConversation` does not delete the hold of
the conversation, unlike resolve and deallocate.  The hold of the previous
operator stays, and the next sweep takes the conversation away from the
operator it was just reassigned to. -/
theorem reassign_keeps_hold :
    ∃ r s', reassignConversation 100 3 2 .MANAGER Sample.store = (.ok (some r), s') ∧
      r.state = .ALLOCATED ∧ r.assigned_operator_id = some 2 ∧
      s'.grace_period_assignments = [⟨3, 1, 10, .OFFLINE⟩] ∧
      ((processExpiredGracePeriods Sample.env 100 s').2.conversation? 3).map
        (fun c => (c.state, c.assigned_operator_id)) = some (.QUEUED, none) :=
  ⟨_, _, rfl, rfl, rfl, rfl, rfl⟩

/-- No error path of `reassignConversation` writes to the store. -/
theorem reassignConversationBody_error {now conversationId newOperatorId : Nat}
    {role : OperatorRole} {s s1 : Store} {e : AppError}
    (h : reassignConversationBody now conversationId newOperatorId role s = (.error e, s1)) :
    s1 = s := by
  unfold reassignConversationBody at h
  dsimp only at h
  repeat' split at h
  all_goals simp_all

/-- C18: with the target operator stored and AVAILABLE and the conversation
stored and not RESOLVED, `reassignConversation` by a MANAGER or ADMIN
succeeds whether or not the target is subscribed to the inbox, and by any
other role succeeds iff the target is subscribed; every success leaves the
conversation ALLOCATED to the new operator, whatever its state was. -/
theorem reassign_outcomes (now conversationId newOperatorId : Nat) (role : OperatorRole)
    (s : Store) (o : Operator) (conv : Conversation)
    (ho : s.operator? newOperatorId = some o) (hst : s.status? newOperatorId = some .AVAILABLE)
    (hc : s.conversation? conversationId = some conv) (hs : conv.state ≠ .RESOLVED) :
    ((role = .MANAGER ∨ role = .ADMIN) →
      ∃ r s', reassignConversation now conversationId newOperatorId role s = (.ok (some r), s')) ∧
    ((role ≠ .MANAGER ∧ role ≠ .ADMIN) →
      ((∃ r s', reassignConversation now conversationId newOperatorId role s = (.ok r, s')) ↔
        Subscribed s newOperatorId conv.inbox_id)) ∧
    (∀ r s', reassignConversation now conversationId newOperatorId role s = (.ok r, s') →
      ∃ row, r = some row ∧ row.id = conversationId ∧ row.state = .ALLOCATED ∧
        row.assigned_operator_id = some newOperatorId ∧
        s'.conversation? conversationId = some row ∧
        ∀ c ∈ s'.conversations, c.id = conversationId →
          c.state = .ALLOCATED ∧ c.assigned_operator_id = some newOperatorId) := by
  have hop : (selectOperatorWithStatus s newOperatorId).head? = some (o, some .AVAILABLE) := by
    rw [selectOperatorWithStatus_head?, ho, hst]
    rfl
  obtain ⟨ops, hops⟩ := exists_cons_of_head? hop
  obtain ⟨others, hsel⟩ := selectConversation_eq_cons hc
  have hr : (updateConversations (fun c => c.id = conversationId)
      (setAllocated newOperatorId now) s.conversations).2.head?
      = some (setAllocated newOperatorId now conv) := by
    rw [head?_updateConversations_id]
    have hc' : s.conversations.find? (fun c => decide (c.id = conversationId)) = some conv := hc
    rw [hc']
    rfl
  have hok : (role = .MANAGER ∨ role = .ADMIN ∨ Subscribed s newOperatorId conv.inbox_id) →
      reassignConversationBody now conversationId newOperatorId role s
        = (.ok (some (setAllocated newOperatorId now conv)),
            { s with conversations := (updateConversations (fun c => c.id = conversationId)
              (setAllocated newOperatorId now) s.conversations).1 }) := by
    intro hcond
    have hgate : (!([OperatorRole.MANAGER, OperatorRole.ADMIN].contains role)
        && (selectSubscription s newOperatorId conv.inbox_id).isEmpty) = false := by
      rcases hcond with rfl | rfl | hsub
      · rfl
      · rfl
      · have hne := (selectSubscription_ne_nil_iff s newOperatorId conv.inbox_id).2 hsub
        cases hl : selectSubscription s newOperatorId conv.inbox_id with
        | nil => exact absurd hl hne
        | cons x xs => simp
    unfold reassignConversationBody
    rw [hops, hsel]
    simp only [ne_eq, not_true_eq_false, if_false, hs, hgate, Bool.false_eq_true, hr]
  have hfail : (role ≠ .MANAGER ∧ role ≠ .ADMIN) → ¬ Subscribed s newOperatorId conv.inbox_id →
      reassignConversationBody now conversationId newOperatorId role s
        = (.error ⟨"Target operator is not subscribed to this inbox", 400⟩, s) := by
    intro hrole hsub
    have hnil : selectSubscription s newOperatorId conv.inbox_id = [] := by
      by_contra hne
      exact hsub ((selectSubscription_ne_nil_iff s newOperatorId conv.inbox_id).1 hne)
    have hgate : (!([OperatorRole.MANAGER, OperatorRole.ADMIN].contains role)
        && (selectSubscription s newOperatorId conv.inbox_id).isEmpty) = true := by
      rw [hnil]
      cases role
      · rfl
      · exact absurd rfl hrole.1
      · exact absurd rfl hrole.2
    unfold reassignConversationBody
    rw [hops, hsel]
    simp only [ne_eq, not_true_eq_false, if_false, hs, hgate, if_true]
  refine ⟨?_, ?_, ?_⟩
  · intro hrole
    refine ⟨_, _, (transaction_eq_ok_iff _ s _ _).2 (hok ?_)⟩
    rcases hrole with h | h
    · exact Or.inl h
    · exact Or.inr (Or.inl h)
  · intro hrole
    constructor
    · rintro ⟨r, s', h⟩
      by_contra hsub
      rw [reassignConversation, transaction_of_error _ s s _ (hfail hrole hsub)] at h
      simp at h
    · intro hsub
      exact ⟨_, _, (transaction_eq_ok_iff _ s _ _).2 (hok (Or.inr (Or.inr hsub)))⟩
  · intro r s' h
    rw [reassignConversation, transaction_eq_ok_iff] at h
    obtain ⟨_, _, _, _, _, _, hr', rfl⟩ := reassignConversationBody_ok h
    rw [hr] at hr'
    subst hr'
    obtain ⟨h1, h2, h3, h4, h5⟩ :=
      setAllocated_returning newOperatorId now conversationId _ _ hr
    exact ⟨_, rfl, h1, h2, h3, by simpa [Store.conversation?] using h4, h5⟩

theorem reassign_outcomes_witness :
    (∃ r s', reassignConversation 100 1 2 .MANAGER Sample.store = (.ok (some r), s')) ∧
    ¬ Subscribed Sample.store 2 1 ∧
    (¬ ∃ r s', reassignConversation 100 1 2 .OPERATOR Sample.store = (.ok r, s')) ∧
    (∃ row, (some (setAllocated 2 100 (Sample.conv 1 1 1 .QUEUED none 5 (some 3)))) = some row ∧
      row.id = 1 ∧ row.state = .ALLOCATED ∧ row.assigned_operator_id = some 2 ∧
      (reassignConversation 100 1 2 .MANAGER Sample.store).2.conversation? 1 = some row ∧
      ∀ c ∈ (reassignConversation 100 1 2 .MANAGER Sample.store).2.conversations, c.id = 1 →
        c.state = .ALLOCATED ∧ c.assigned_operator_id = some 2) :=
  have hsub : ¬ Subscribed Sample.store 2 1 := by
    rintro ⟨sub, hsub, hop, _⟩
    simp only [Sample.store, List.mem_singleton] at hsub
    subst hsub
    simp at hop
  ⟨(reassign_outcomes 100 1 2 .MANAGER Sample.store _ _ rfl rfl rfl (by decide)).1 (Or.inl rfl),
    hsub,
    fun h => hsub (((reassign_outcomes 100 1 2 .OPERATOR Sample.store _ _ rfl rfl rfl
      (by decide)).2.1 ⟨by decide, by decide⟩).1 h),
    (reassign_outcomes 100 1 2 .MANAGER Sample.store _ _ rfl rfl rfl (by decide)).2.2 _ _ rfl⟩

/-! ## Operator status transitions -/

/-- The status update never throws. -/
theorem updateOperatorStatus_eq_body (env : Env) (now operatorId : Nat)
    (status : OperatorStatusType) (s : Store) :
    updateOperatorStatus env now operatorId status s
      = updateOperatorStatusBody env now operatorId status s := by
  unfold updateOperatorStatus db.transaction updateOperatorStatusBody
  rfl

/-- The inserts of `initiateGracePeriod`, one per conversation id, each with
ON CONFLICT DO NOTHING: the holds that were there stay, in place, and a hold
is appended for each id that had none. -/
theorem foldl_insertOfflineGracePeriod (operatorId expiresAt : Nat) (ids : List Nat)
    (rows : List GracePeriodAssignment) :
    ∃ new, ids.foldl (insertOfflineGracePeriod operatorId expiresAt) rows = rows ++ new ∧
      (∀ g ∈ new, g.operator_id = operatorId ∧ g.expires_at = expiresAt ∧ g.reason = .OFFLINE ∧
        g.conversation_id ∈ ids ∧ ∀ g0 ∈ rows, g0.conversation_id ≠ g.conversation_id) ∧
      (∀ id ∈ ids, (∀ g0 ∈ rows, g0.conversation_id ≠ id) →
        (⟨id, operatorId, expiresAt, .OFFLINE⟩ : GracePeriodAssignment) ∈ rows ++ new) := by
  induction ids generalizing rows with
  | nil => exact ⟨[], by simp, by simp, by simp⟩
  | cons id rest ih =>
    rw [List.foldl_cons]
    by_cases hany : rows.any (fun g => decide (g.conversation_id = id)) = true
    · have hins : insertOfflineGracePeriod operatorId expiresAt rows id = rows := by
        simp [insertOfflineGracePeriod, hany]
      rw [hins]
      obtain ⟨new, hnew, h1, h2⟩ := ih rows
      refine ⟨new, hnew, ?_, ?_⟩
      · intro g hg
        obtain ⟨a, b, c, d, e⟩ := h1 g hg
        exact ⟨a, b, c, List.mem_cons_of_mem _ d, e⟩
      · intro id' hid' hno
        rcases List.mem_cons.1 hid' with rfl | hrest
        · rw [List.any_eq_true] at hany
          obtain ⟨g0, hg0, hcid⟩ := hany
          exact absurd (by simpa using hcid) (hno g0 hg0)
        · exact h2 id' hrest hno
    · have hins : insertOfflineGracePeriod operatorId expiresAt rows id
          = rows ++ [⟨id, operatorId, expiresAt, .OFFLINE⟩] := by
        simp [insertOfflineGracePeriod, hany]
      have hfree : ∀ g0 ∈ rows, g0.conversation_id ≠ id := by
        intro g0 hg0 hcid
        apply hany
        rw [List.any_eq_true]
        exact ⟨g0, hg0, by simpa using hcid⟩
      rw [hins]
      obtain ⟨new, hnew, h1, h2⟩ := ih (rows ++ [⟨id, operatorId, expiresAt, .OFFLINE⟩])
      refine ⟨⟨id, operatorId, expiresAt, .OFFLINE⟩ :: new, ?_, ?_, ?_⟩
      · rw [hnew, List.append_assoc]
        rfl
      · intro g hg
        rcases List.mem_cons.1 hg with rfl | hg'
        · exact ⟨rfl, rfl, rfl, List.mem_cons_self _ _, hfree⟩
        · obtain ⟨a, b, c, d, e⟩ := h1 g hg'
          exact ⟨a, b, c, List.mem_cons_of_mem _ d,
            fun g0 hg0 => e g0 (List.mem_append_left _ hg0)⟩
      · intro id' hid' hno
        by_cases heq : id' = id
        · subst heq
          simp
        · rcases List.mem_cons.1 hid' with h | hrest
          · exact absurd h heq
          · have := h2 id' hrest (by
              intro g0 hg0
              rcases List.mem_append.1 hg0 with h | h
              · exact hno g0 h
              · simp only [List.mem_singleton] at h
                subst h
                exact fun h => heq h.symm)
            rw [List.append_assoc] at this
            exact this

/-- The part of C19 that the code has: when an operator whose stored status
is AVAILABLE is set OFFLINE, every conversation ALLOCATED to that operator
that had no hold gets a hold with that operator, reason OFFLINE and expiry
`now` plus the configured grace minutes; every hold that was there before is
kept as it was (a conversation that already had a hold keeps that one),
every new hold is of that form, and no conversation is changed. -/
theorem offline_initiates_grace (env : Env) (now op : Nat) (s : Store)
    (hst : s.status? op = some .AVAILABLE) :
    (∀ c ∈ s.conversations, c.assigned_operator_id = some op → c.state = .ALLOCATED →
      (∀ g ∈ s.grace_period_assignments, g.conversation_id ≠ c.id) →
      (⟨c.id, op, now + env.gracePeriodMinutes * 60 * 1000, .OFFLINE⟩ : GracePeriodAssignment)
        ∈ (updateOperatorStatus env now op .OFFLINE s).2.grace_period_assignments) ∧
    (∀ c ∈ s.conversations, c.assigned_operator_id = some op → c.state = .ALLOCATED →
      ∃ g ∈ (updateOperatorStatus env now op .OFFLINE s).2.grace_period_assignments,
        g.conversation_id = c.id) ∧
    (∃ new, (updateOperatorStatus env now op .OFFLINE s).2.grace_period_assignments
        = s.grace_period_assignments ++ new ∧
      ∀ g ∈ new, g.operator_id = op ∧ g.expires_at = now + env.gracePeriodMinutes * 60 * 1000 ∧
        g.reason = .OFFLINE ∧
        (∃ c ∈ s.conversations, c.id = g.conversation_id ∧ c.assigned_operator_id = some op ∧
          c.state = .ALLOCATED) ∧
        ∀ g0 ∈ s.grace_period_assignments, g0.conversation_id ≠ g.conversation_id) ∧
    (updateOperatorStatus env now op .OFFLINE s).2.conversations = s.conversations := by
  have hholds : (updateOperatorStatus env now op .OFFLINE s).2.grace_period_assignments
      = ((s.conversations.filter (fun c =>
          decide (c.assigned_operator_id = some op) && decide (c.state = .ALLOCATED))).map
            (fun c => c.id)).foldl
          (insertOfflineGracePeriod op (now + env.gracePeriodMinutes * 60 * 1000))
          s.grace_period_assignments := by
    rw [updateOperatorStatus_eq_body]
    unfold updateOperatorStatusBody
    rw [selectStatus_head?, hst]
    simp [initiateGracePeriod]
  obtain ⟨new, hnew, h1, h2⟩ := foldl_insertOfflineGracePeriod op
    (now + env.gracePeriodMinutes * 60 * 1000)
    ((s.conversations.filter (fun c : Conversation =>
      decide (c.assigned_operator_id = some op) && decide (c.state = .ALLOCATED))).map
        (fun c : Conversation => c.id)) s.grace_period_assignments
  have hids : ∀ c ∈ s.conversations, c.assigned_operator_id = some op → c.state = .ALLOCATED →
      c.id ∈ (s.conversations.filter (fun c =>
        decide (c.assigned_operator_id = some op) && decide (c.state = .ALLOCATED))).map
          (fun c => c.id) := by
    intro c hc ha hs
    exact List.mem_map.2 ⟨c, List.mem_filter.2 ⟨hc, by simp [ha, hs]⟩, rfl⟩
  have hfresh : ∀ c ∈ s.conversations, c.assigned_operator_id = some op → c.state = .ALLOCATED →
      (∀ g ∈ s.grace_period_assignments, g.conversation_id ≠ c.id) →
      (⟨c.id, op, now + env.gracePeriodMinutes * 60 * 1000, .OFFLINE⟩ : GracePeriodAssignment)
        ∈ (updateOperatorStatus env now op .OFFLINE s).2.grace_period_assignments := by
    intro c hc ha hs hno
    rw [hholds, hnew]
    exact h2 c.id (hids c hc ha hs) hno
  refine ⟨hfresh, ?_, ⟨new, by rw [hholds, hnew], ?_⟩, ?_⟩
  · intro c hc ha hs
    by_cases hex : ∃ g ∈ s.grace_period_assignments, g.conversation_id = c.id
    · obtain ⟨g, hg, hcid⟩ := hex
      exact ⟨g, by rw [hholds, hnew]; exact List.mem_append_left _ hg, hcid⟩
    · exact ⟨_, hfresh c hc ha hs (fun g hg hcid => hex ⟨g, hg, hcid⟩), rfl⟩
  · intro g hg
    obtain ⟨a, b, c, d, e⟩ := h1 g hg
    refine ⟨a, b, c, ?_, e⟩
    obtain ⟨x, hx, hxid⟩ := List.mem_map.1 d
    obtain ⟨hxmem, hp⟩ := List.mem_filter.1 hx
    simp only [Bool.and_eq_true, decide_eq_true_eq] at hp
    exact ⟨x, hxmem, hxid, hp.1, hp.2⟩
  · rw [updateOperatorStatus_eq_body]
    exact updateOperatorStatus_conversations env now op .OFFLINE s

/-- C19 fails on the code: the insert of the offline hold is `ON CONFLICT
(conversation_id) DO NOTHING`, so a conversation that already has a hold
does not enter the grace period of its operator.  Conversation 3, ALLOCATED
to operator 1 with a hold created by hand, keeps that hold when operator 1
goes OFFLINE.  By the routes alone: conversation 3, held for operator 1, is
reassigned to operator 2, which keeps the hold; when operator 2 goes OFFLINE
at 200 the hold is still the one of operator 1 with expiry 10, no hold has
operator 2 or the expiry 200 plus the grace minutes, and the sweep one
millisecond later puts the conversation back to QUEUED. -/
theorem offline_keeps_existing_hold :
    Sample.manualHold.status? 1 = some .AVAILABLE ∧
    (Sample.manualHold.conversation? 3).map (fun c => (c.state, c.assigned_operator_id))
      = some (.ALLOCATED, some 1) ∧
    (updateOperatorStatus Sample.env 100 1 .OFFLINE Sample.manualHold).2.grace_period_assignments
      = [⟨3, 1, 10, .MANUAL⟩] ∧
    (¬ ∃ g ∈ (updateOperatorStatus Sample.env 100 1 .OFFLINE
        Sample.manualHold).2.grace_period_assignments,
      g.conversation_id = 3 ∧ g.operator_id = 1 ∧ g.reason = .OFFLINE ∧
        g.expires_at = 100 + Sample.env.gracePeriodMinutes * 60 * 1000) ∧
    ∃ r s1, reassignConversation 100 3 2 .MANAGER Sample.store = (.ok r, s1) ∧
      s1.status? 2 = some .AVAILABLE ∧
      (s1.conversation? 3).map (fun c => (c.state, c.assigned_operator_id))
        = some (.ALLOCATED, some 2) ∧
      (updateOperatorStatus Sample.env 200 2 .OFFLINE s1).2.grace_period_assignments
        = [⟨3, 1, 10, .OFFLINE⟩] ∧
      (¬ ∃ g ∈ (updateOperatorStatus Sample.env 200 2 .OFFLINE s1).2.grace_period_assignments,
        g.conversation_id = 3 ∧ g.operator_id = 2 ∧
          g.expires_at = 200 + Sample.env.gracePeriodMinutes * 60 * 1000) ∧
      ((processExpiredGracePeriods Sample.env 201
          (updateOperatorStatus Sample.env 200 2 .OFFLINE s1).2).2.conversation? 3).map
        (fun c => (c.state, c.assigned_operator_id)) = some (.QUEUED, none) := by
  refine ⟨rfl, rfl, rfl, ?_, _, _, rfl, rfl, rfl, rfl, ?_, rfl⟩
  · decide
  · decide

theorem offline_initiates_grace_witness :
    Sample.twoTenants.status? 1 = some .AVAILABLE ∧
    (⟨1, 1, 100 + Sample.env.gracePeriodMinutes * 60 * 1000, .OFFLINE⟩ : GracePeriodAssignment)
      ∈ (updateOperatorStatus Sample.env 100 1 .OFFLINE
          Sample.twoTenants).2.grace_period_assignments ∧
    (updateOperatorStatus Sample.env 100 1 .OFFLINE Sample.twoTenants).2.conversations
      = Sample.twoTenants.conversations :=
  ⟨rfl,
    (offline_initiates_grace Sample.env 100 1 Sample.twoTenants rfl).1
      (Sample.conv 1 1 1 .ALLOCATED (some 1) 5 (some 3)) (by simp [Sample.twoTenants]) rfl rfl
      (by simp [Sample.twoTenants]),
    (offline_initiates_grace Sample.env 100 1 Sample.twoTenants rfl).2.2.2⟩

/-- C20: when an operator whose stored status is OFFLINE is set AVAILABLE,
no hold of that operator with reason OFFLINE is left, every other hold is
kept as it was, and no conversation is changed. -/
theorem online_cancels_grace (env : Env) (now op : Nat) (s : Store)
    (hst : s.status? op = some .OFFLINE) :
    (∀ g ∈ (updateOperatorStatus env now op .AVAILABLE s).2.grace_period_assignments,
      ¬ (g.operator_id = op ∧ g.reason = .OFFLINE)) ∧
    (updateOperatorStatus env now op .AVAILABLE s).2.grace_period_assignments
      = s.grace_period_assignments.filter
          (fun g => !(decide (g.operator_id = op) && decide (g.reason = .OFFLINE))) ∧
    (∀ g ∈ s.grace_period_assignments, ¬ (g.operator_id = op ∧ g.reason = .OFFLINE) →
      g ∈ (updateOperatorStatus env now op .AVAILABLE s).2.grace_period_assignments) ∧
    (∀ g ∈ (updateOperatorStatus env now op .AVAILABLE s).2.grace_period_assignments,
      g ∈ s.grace_period_assignments) ∧
    (updateOperatorStatus env now op .AVAILABLE s).2.conversations = s.conversations := by
  have hholds : (updateOperatorStatus env now op .AVAILABLE s).2.grace_period_assignments
      = s.grace_period_assignments.filter
          (fun g => !(decide (g.operator_id = op) && decide (g.reason = .OFFLINE))) := by
    rw [updateOperatorStatus_eq_body]
    unfold updateOperatorStatusBody
    rw [selectStatus_head?, hst]
    simp [removeGracePeriod]
  refine ⟨?_, hholds, ?_, ?_, ?_⟩
  · intro g hg
    rw [hholds, List.mem_filter] at hg
    rintro ⟨h1, h2⟩
    have h3 := hg.2
    simp [h1, h2] at h3
  · intro g hg hno
    rw [hholds, List.mem_filter]
    refine ⟨hg, ?_⟩
    by_cases h1 : g.operator_id = op
    · by_cases h2 : g.reason = .OFFLINE
      · exact absurd ⟨h1, h2⟩ hno
      · simp [h2]
    · simp [h1]
  · intro g hg
    rw [hholds, List.mem_filter] at hg
    exact hg.1
  · rw [updateOperatorStatus_eq_body]
    exact updateOperatorStatus_conversations env now op .AVAILABLE s

theorem online_cancels_grace_witness :
    Sample.away.status? 1 = some .OFFLINE ∧
    (updateOperatorStatus Sample.env 100 1 .AVAILABLE Sample.away).2.grace_period_assignments
      = [⟨2, 2, 600, .MANUAL⟩] ∧
    (updateOperatorStatus Sample.env 100 1 .AVAILABLE Sample.away).2.conversations
      = Sample.away.conversations :=
  ⟨rfl, ((online_cancels_grace Sample.env 100 1 Sample.away rfl).2.1).trans rfl,
    (online_cancels_grace Sample.env 100 1 Sample.away rfl).2.2.2.2⟩

/-! ## Move to another inbox -/

theorem moveConversation_ok {now cid newInbox tenantId : Nat} {s s' : Store}
    {r : Option Conversation}
    (h : moveConversation now cid newInbox tenantId s = (.ok r, s')) :
    s' = { s with
      conversations :=
        s.conversations.map (fun c => if c.id = cid then setMoved newInbox now c else c),
      conversation_labels :=
        s.conversation_labels.filter (fun l => !(l.conversation_id = cid)) } ∧
    ∃ conv, s.conversation? cid = some conv ∧ r = some (setMoved newInbox now conv) := by
  rw [moveConversation, transaction_eq_ok_iff] at h
  unfold moveConversationBody at h
  dsimp only at h
  split at h
  · simp at h
  · split at h
    · simp at h
    · split at h
      · simp at h
      · rename_i row rest hrows
        simp only [Prod.mk.injEq, Except.ok.injEq] at h
        obtain ⟨hr, hs⟩ := h
        refine ⟨?_, ?_⟩
        · rw [← hs]
          simp [updateConversations]
        · have hh := head?_updateConversations_id cid (setMoved newInbox now) s.conversations
          rw [hrows] at hh
          cases hf : s.conversations.find? (fun c => decide (c.id = cid)) with
          | none => simp [hf] at hh
          | some conv =>
            refine ⟨conv, hf, ?_⟩
            rw [hf] at hh
            simp only [List.head?_cons, Option.map_some'] at hh
            rw [← hr]
            simpa using hh

theorem find?_map_ite_same (cid : Nat) (f : Conversation → Conversation)
    (hf : ∀ c, (f c).id = c.id) (rows : List Conversation) :
    (rows.map (fun c => if c.id = cid then f c else c)).find? (fun c => decide (c.id = cid))
      = (rows.find? (fun c => decide (c.id = cid))).map f := by
  induction rows with
  | nil => rfl
  | cons c rows ih =>
    by_cases hc : c.id = cid
    · simp [List.find?_cons, hc, hf]
    · simp only [List.map_cons, List.find?_cons, hc, if_false, decide_False]
      exact ih

theorem find?_map_ite_other (cid k : Nat) (hk : k ≠ cid) (f : Conversation → Conversation)
    (hf : ∀ c, (f c).id = c.id) (rows : List Conversation) :
    (rows.map (fun c => if c.id = cid then f c else c)).find? (fun c => decide (c.id = k))
      = rows.find? (fun c => decide (c.id = k)) := by
  induction rows with
  | nil => rfl
  | cons c rows ih =>
    by_cases hc : c.id = cid
    · have hk3 : ¬ cid = k := fun e => hk e.symm
      simp only [List.map_cons, List.find?_cons, hc, if_true, hf, hk3, decide_False]
      exact ih
    · by_cases hck : c.id = k
      · simp only [List.map_cons, List.find?_cons, hc, if_false]
        simp [hck]
      · simp only [List.map_cons, List.find?_cons, hc, if_false, hck, decide_False]
        exact ih

theorem filter_map_ite_other (cid : Nat) (f : Conversation → Conversation)
    (hf : ∀ c, (f c).id = c.id) (rows : List Conversation) :
    (rows.map (fun c => if c.id = cid then f c else c)).filter (fun c => decide (c.id ≠ cid))
      = rows.filter (fun c => decide (c.id ≠ cid)) := by
  induction rows with
  | nil => rfl
  | cons c rows ih =>
    by_cases hc : c.id = cid
    · simp only [List.map_cons, List.filter_cons, hc, if_true, hf, ne_eq, not_true_eq_false,
        decide_False, Bool.false_eq_true, if_false]
      exact ih
    · simp only [List.map_cons, List.filter_cons, hc, if_false, ne_eq, not_false_eq_true,
        decide_True, if_true]
      rw [ih]

/-- C24: when `moveConversation` succeeds, the stored row of the conversation
(and every row with its id) has the new inbox, state QUEUED and no assignee,
no label attachment of the conversation is left, and the rows of every other
conversation, the label attachments of every other conversation and the
lookup of every other conversation are as before. -/
theorem move_outcome (now cid newInbox tenantId : Nat) (s s' : Store)
    (r : Option Conversation)
    (h : moveConversation now cid newInbox tenantId s = (.ok r, s')) :
    (∃ row, s'.conversation? cid = some row ∧ r = some row ∧ row.inbox_id = newInbox ∧
      row.state = .QUEUED ∧ row.assigned_operator_id = none) ∧
    (∀ c ∈ s'.conversations, c.id = cid →
      c.inbox_id = newInbox ∧ c.state = .QUEUED ∧ c.assigned_operator_id = none) ∧
    (∀ l ∈ s'.conversation_labels, l.conversation_id ≠ cid) ∧
    s'.conversations.filter (fun c => c.id ≠ cid)
      = s.conversations.filter (fun c => c.id ≠ cid) ∧
    (∀ k, k ≠ cid → s'.conversation? k = s.conversation? k) ∧
    s'.conversation_labels.filter (fun l => l.conversation_id ≠ cid)
      = s.conversation_labels.filter (fun l => l.conversation_id ≠ cid) ∧
    s'.conversations.map (fun c => c.id) = s.conversations.map (fun c => c.id) := by
  obtain ⟨hs, conv, hconv, hr⟩ := moveConversation_ok h
  subst hs
  refine ⟨⟨setMoved newInbox now conv, ?_, hr, rfl, rfl, rfl⟩, ?_, ?_, ?_, ?_, ?_, ?_⟩
  · unfold Store.conversation? at hconv ⊢
    dsimp only
    rw [find?_map_ite_same cid (setMoved newInbox now) (fun c => rfl), hconv]
    rfl
  · intro c hc hid
    dsimp only at hc
    rw [List.mem_map] at hc
    obtain ⟨c0, _, rfl⟩ := hc
    by_cases h0 : c0.id = cid
    · simp [h0, setMoved]
    · simp [h0] at hid
  · intro l hl
    dsimp only at hl
    simpa using (List.mem_filter.mp hl).2
  · exact filter_map_ite_other cid (setMoved newInbox now) (fun c => rfl) s.conversations
  · intro k hk
    exact find?_map_ite_other cid k hk (setMoved newInbox now) (fun c => rfl) s.conversations
  · dsimp only
    rw [List.filter_filter]
    congr 1
    funext l
    by_cases hl : l.conversation_id = cid <;> simp [hl]
  · dsimp only
    rw [List.map_map]
    apply List.map_congr_left
    intro c _
    by_cases hc : c.id = cid <;> simp [hc, setMoved]

theorem move_outcome_witness :
    ∃ r s', moveConversation 100 3 2 1 Sample.store = (.ok r, s') ∧
      (∃ row, s'.conversation? 3 = some row ∧ r = some row ∧ row.inbox_id = 2 ∧
        row.state = .QUEUED ∧ row.assigned_operator_id = none) ∧
      (∀ c ∈ s'.conversations, c.id = 3 →
        c.inbox_id = 2 ∧ c.state = .QUEUED ∧ c.assigned_operator_id = none) ∧
      (∀ l ∈ s'.conversation_labels, l.conversation_id ≠ 3) ∧
      s'.conversations.filter (fun c => c.id ≠ 3)
        = Sample.store.conversations.filter (fun c => c.id ≠ 3) ∧
      (∀ k, k ≠ 3 → s'.conversation? k = Sample.store.conversation? k) ∧
      s'.conversation_labels.filter (fun l => l.conversation_id ≠ 3)
        = Sample.store.conversation_labels.filter (fun l => l.conversation_id ≠ 3) ∧
      s'.conversations.map (fun c => c.id) = Sample.store.conversations.map (fun c => c.id) :=
  ⟨_, _, rfl, move_outcome 100 3 2 1 Sample.store _ _ rfl⟩

/-! ## The row returned by deallocate -/

/-- C30 fails on the code: `deallocateConversation` returns the first row of
its UPDATE, read before `updatePriorityScore` runs, so the returned row
carries the score from before the call (9 here) while the stored row carries
the recomputed one (93). -/
theorem deallocate_returns_stale_score :
    ∃ r s' row, deallocateConversation Sample.env 100 3 Sample.store = (.ok (some r), s') ∧
      s'.conversation? 3 = some row ∧ r.priority_score = some 9 ∧
      row.priority_score = some 93 ∧ r.priority_score ≠ row.priority_score :=
  ⟨_, _, _, rfl, rfl, rfl, rfl, by decide⟩

/-! ## Manual grace periods -/

theorem filter_key_of_nodup {α : Type} (key : α → Nat) (rows : List α) (k : Nat)
    (hnd : (rows.map key).Nodup) :
    rows.filter (fun r => decide (key r = k))
      = (rows.find? (fun r => decide (key r = k))).toList := by
  induction rows with
  | nil => rfl
  | cons c rows ih =>
    rw [List.map_cons, List.nodup_cons] at hnd
    by_cases hc : key c = k
    · have hnone : rows.filter (fun r => decide (key r = k)) = [] := by
        rw [List.filter_eq_nil_iff]
        intro x hx hxid
        exact hnd.1 (List.mem_map.2 ⟨x, hx, by simpa [hc] using hxid⟩)
      simp [List.filter_cons, List.find?_cons, hc, hnone]
    · simpa [List.filter_cons, List.find?_cons, hc] using ih hnd.2

theorem filter_map_update_same (c : Nat) (f : GracePeriodAssignment → GracePeriodAssignment)
    (hf : ∀ g, (f g).conversation_id = g.conversation_id) (rows : List GracePeriodAssignment) :
    (rows.map (fun g => if g.conversation_id = c then f g else g)).filter
        (fun g => decide (g.conversation_id = c))
      = (rows.filter (fun g => decide (g.conversation_id = c))).map f := by
  induction rows with
  | nil => rfl
  | cons g rows ih =>
    by_cases hg : g.conversation_id = c
    · simp only [List.map_cons, List.filter_cons, hg, if_true, hf, decide_True]
      rw [ih]
    · simp only [List.map_cons, List.filter_cons, hg, if_false, decide_False,
        Bool.false_eq_true]
      exact ih

theorem filter_map_update_other (c : Nat) (f : GracePeriodAssignment → GracePeriodAssignment)
    (hf : ∀ g, (f g).conversation_id = g.conversation_id) (rows : List GracePeriodAssignment) :
    (rows.map (fun g => if g.conversation_id = c then f g else g)).filter
        (fun g => decide (g.conversation_id ≠ c))
      = rows.filter (fun g => decide (g.conversation_id ≠ c)) := by
  induction rows with
  | nil => rfl
  | cons g rows ih =>
    by_cases hg : g.conversation_id = c
    · simp only [List.map_cons, List.filter_cons, hg, if_true, hf, ne_eq, not_true_eq_false,
        decide_False, Bool.false_eq_true, if_false]
      exact ih
    · simp only [List.map_cons, List.filter_cons, hg, if_false, ne_eq, not_false_eq_true,
        decide_True, if_true]
      rw [ih]

/-- What `createGracePeriod` leaves in the table, under the unique
constraint on `conversation_id`: exactly one hold of the conversation, which
is the returned row and carries the `expires_at` and `reason` of the call;
its `operator_id` is the one of the call when the conversation had no hold,
and the one of the hold it had otherwise.  The holds of other conversations
are as before. -/
theorem createGracePeriod_upsert (c op expiresAt : Nat) (reason : GraceReason) (s : Store)
    (hu : UniqueHolds s) :
    (∃ g, (createGracePeriod c op expiresAt reason s).2.grace_period_assignments.filter
          (fun g => g.conversation_id = c) = [g] ∧
      (createGracePeriod c op expiresAt reason s).1 = some g ∧
      g.expires_at = expiresAt ∧ g.reason = reason ∧
      g.operator_id =
        ((s.grace_period_assignments.find? (fun g => g.conversation_id = c)).map
          (fun old => old.operator_id)).getD op) ∧
    (createGracePeriod c op expiresAt reason s).2.grace_period_assignments.filter
        (fun g => g.conversation_id ≠ c)
      = s.grace_period_assignments.filter (fun g => g.conversation_id ≠ c) := by
  have hf := filter_key_of_nodup (fun g : GracePeriodAssignment => g.conversation_id)
    s.grace_period_assignments c hu
  unfold createGracePeriod
  dsimp only
  cases hfind : s.grace_period_assignments.find? (fun g => decide (g.conversation_id = c)) with
  | none =>
    rw [hfind] at hf
    simp only [Option.toList] at hf
    rw [hf]
    refine ⟨⟨⟨c, op, expiresAt, reason⟩, ?_, rfl, rfl, rfl, by simp⟩, ?_⟩
    · simp [List.filter_append, hf]
    · simp [List.filter_append]
  | some old =>
    rw [hfind] at hf
    simp only [Option.toList] at hf
    rw [hf]
    dsimp only
    refine ⟨⟨{ old with expires_at := expiresAt, reason := reason }, ?_, ?_, rfl, rfl, by simp⟩,
      ?_⟩
    · rw [filter_map_update_same c
        (fun g : GracePeriodAssignment => { g with expires_at := expiresAt, reason := reason })
        (fun g => rfl), hf]
      rfl
    · rfl
    · exact filter_map_update_other c
        (fun g : GracePeriodAssignment => { g with expires_at := expiresAt, reason := reason })
        (fun g => rfl) s.grace_period_assignments

/-- C21 fails on the code: on a conflict `createGracePeriod` sets
`expires_at` and `reason` only, so the hold that conversation 3 already had
for operator 1 keeps `operator_id` 1 after a call made for operator 2. -/
theorem createGracePeriod_keeps_old_operator :
    UniqueHolds Sample.store ∧
    Sample.store.grace_period_assignments = [⟨3, 1, 10, .OFFLINE⟩] ∧
    createGracePeriod 3 2 500 .MANUAL Sample.store
      = (some ⟨3, 1, 500, .MANUAL⟩,
          { Sample.store with grace_period_assignments := [⟨3, 1, 500, .MANUAL⟩] }) ∧
    ((createGracePeriod 3 2 500 .MANUAL Sample.store).2.grace_period_assignments.filter
        (fun g => g.conversation_id = 3)).map (fun g => g.operator_id) = [1] := by
  refine ⟨?_, rfl, rfl, rfl⟩
  unfold UniqueHolds
  decide

/-! ## Authorization by role -/

/-- C26: `authorize(...allowedRoles)` calls `next()` iff `req.operator` is
present and its role is among `allowedRoles`; for an operator whose role is
not listed it calls `next` with the 403 error 'Insufficient permissions', and
without an operator with the 401 error.  On `POST /deallocate`, guarded by
`authorize('MANAGER', 'ADMIN')`, an OPERATOR gets the 403 error and a MANAGER
passes. -/
theorem authorize_outcomes (allowedRoles : List OperatorRole) (operator : Option Operator) :
    (authorize allowedRoles operator = .next ↔
      ∃ op, operator = some op ∧ op.role ∈ allowedRoles) ∧
    (∀ op, operator = some op → op.role ∉ allowedRoles →
      authorize allowedRoles operator = .nextError ⟨"Insufficient permissions", 403⟩) ∧
    (operator = none →
      authorize allowedRoles operator = .nextError ⟨"Authentication required", 401⟩) ∧
    (∀ op : Operator, op.role = .OPERATOR →
      deallocateRouteAuthorize (some op) = .nextError ⟨"Insufficient permissions", 403⟩) ∧
    (∀ op : Operator, op.role = .MANAGER → deallocateRouteAuthorize (some op) = .next) := by
  refine ⟨?_, ?_, ?_, ?_, ?_⟩
  · cases operator with
    | none => simp [authorize]
    | some op =>
      by_cases h : op.role ∈ allowedRoles
      · simp [authorize, h]
      · simp [authorize, h]
  · rintro op rfl h
    simp [authorize, h]
  · rintro rfl
    rfl
  · intro op h
    simp [deallocateRouteAuthorize, authorize, h]
  · intro op h
    simp [deallocateRouteAuthorize, authorize, h]

theorem authorize_outcomes_witness :
    authorize [.MANAGER, .ADMIN] (some ⟨1, 1, .OPERATOR, "Ann", "ann@a"⟩)
      = .nextError ⟨"Insufficient permissions", 403⟩ ∧
    (∃ op, some (⟨2, 1, .MANAGER, "Bob", "bob@a"⟩ : Operator) = some op ∧
      op.role ∈ [OperatorRole.MANAGER, .ADMIN]) ∧
    authorize [.MANAGER, .ADMIN] (some ⟨2, 1, .MANAGER, "Bob", "bob@a"⟩) = .next :=
  ⟨(authorize_outcomes [.MANAGER, .ADMIN] (some ⟨1, 1, .OPERATOR, "Ann", "ann@a"⟩)).2.1 _ rfl
      (by decide),
    ⟨_, rfl, by decide⟩,
    (authorize_outcomes [.MANAGER, .ADMIN] (some ⟨2, 1, .MANAGER, "Bob", "bob@a"⟩)).1.2
      ⟨_, rfl, by decide⟩⟩

/-! ## The reclaim job -/

/-- C25: a call of `GracePeriodJob.run` that finds `isRunning` true returns
without calling `processExpiredGracePeriods`, with `isRunning` still true and
the store untouched; a call that finds it false calls the sweep once and
returns with `isRunning` false and no error for the caller, whether the sweep
(or the score update after it) succeeds or throws.  This holds for every
behaviour of the two calls, and so for the job over the modelled services. -/
theorem job_run_guard (sweep : Store → Outcome SweepResult) (updateAll : Store → Outcome Nat)
    (env : Env) (now : Nat) (job : GracePeriodJob) (s : Store) :
    (job.isRunning = true →
      (GracePeriodJob.runWith sweep updateAll job s).sweeps = 0 ∧
      (GracePeriodJob.runWith sweep updateAll job s).job.isRunning = true ∧
      (GracePeriodJob.runWith sweep updateAll job s).store = s ∧
      (GracePeriodJob.runWith sweep updateAll job s).thrown = none ∧
      GracePeriodJob.run env now job s = ⟨job, s, 0, none⟩) ∧
    (job.isRunning = false →
      (GracePeriodJob.runWith sweep updateAll job s).sweeps = 1 ∧
      (GracePeriodJob.runWith sweep updateAll job s).job.isRunning = false ∧
      (GracePeriodJob.runWith sweep updateAll job s).thrown = none ∧
      (∀ e s1, sweep s = (.error e, s1) →
        GracePeriodJob.runWith sweep updateAll job s = ⟨job, s1, 1, none⟩) ∧
      (GracePeriodJob.run env now job s).sweeps = 1 ∧
      (GracePeriodJob.run env now job s).job.isRunning = false ∧
      (GracePeriodJob.run env now job s).thrown = none) := by
  have key : ∀ (sw : Store → Outcome SweepResult) (up : Store → Outcome Nat),
      job.isRunning = false →
      (GracePeriodJob.runWith sw up job s).sweeps = 1 ∧
      (GracePeriodJob.runWith sw up job s).job.isRunning = false ∧
      (GracePeriodJob.runWith sw up job s).thrown = none := by
    intro sw up h
    unfold GracePeriodJob.runWith
    simp only [h, Bool.false_eq_true, if_false]
    rcases sw s with ⟨r, s1⟩
    cases r with
    | error e => simp
    | ok result =>
      dsimp only
      split
      · rcases up s1 with ⟨r2, s2⟩
        cases r2 <;> simp
      · simp
  refine ⟨?_, ?_⟩
  · intro h
    simp [GracePeriodJob.run, GracePeriodJob.runWith, h]
  · intro h
    obtain ⟨h1, h2, h3⟩ := key sweep updateAll h
    refine ⟨h1, h2, h3, ?_, ?_⟩
    · intro e s1 hs
      unfold GracePeriodJob.runWith
      simp only [h, Bool.false_eq_true, if_false, hs]
      cases job
      simp_all
    · exact key _ _ h

theorem job_run_guard_witness :
    (GracePeriodJob.run Sample.env 100 ⟨1, true⟩ Sample.store = ⟨⟨1, true⟩, Sample.store, 0, none⟩) ∧
    (GracePeriodJob.runWith (fun s => (.error ⟨"connection lost", 500⟩, s))
        (updateAllPriorityScores Sample.env 100) ⟨1, false⟩ Sample.store
      = ⟨⟨1, false⟩, Sample.store, 1, none⟩) ∧
    (GracePeriodJob.run Sample.env 100 ⟨1, false⟩ Sample.store).job.isRunning = false :=
  ⟨((job_run_guard (processExpiredGracePeriods Sample.env 100)
        (updateAllPriorityScores Sample.env 100) Sample.env 100 ⟨1, true⟩ Sample.store).1
      rfl).2.2.2.2,
    ((job_run_guard (fun s => (.error ⟨"connection lost", 500⟩, s))
        (updateAllPriorityScores Sample.env 100) Sample.env 100 ⟨1, false⟩ Sample.store).2
      rfl).2.2.2.1 _ _ rfl,
    ((job_run_guard (processExpiredGracePeriods Sample.env 100)
        (updateAllPriorityScores Sample.env 100) Sample.env 100 ⟨1, false⟩ Sample.store).2
      rfl).2.2.2.2.2.1⟩

/-! ## Joins on primary keys -/

theorem filter_length_le_one {α : Type} (key : α → Nat) (p : α → Bool) (rows : List α)
    (hp : ∀ a b, p a = true → p b = true → key a = key b)
    (hnd : (rows.map key).Nodup) : (rows.filter p).length ≤ 1 := by
  induction rows with
  | nil => simp
  | cons a rows ih =>
    rw [List.map_cons, List.nodup_cons] at hnd
    by_cases ha : p a = true
    · have hnone : rows.filter p = [] := by
        rw [List.filter_eq_nil_iff]
        intro x hx hpx
        exact hnd.1 (List.mem_map.2 ⟨x, hx, hp x a hpx ha⟩)
      simp [List.filter_cons, ha, hnone]
    · simpa [List.filter_cons, ha] using ih hnd.2

theorem leftJoin_eq_map {α β : Type} (rows : List α) (table : List β) (cond : α → β → Bool)
    (h : ∀ a ∈ rows, (table.filter (cond a)).length ≤ 1) :
    leftJoin rows table cond = rows.map (fun a => (a, table.find? (cond a))) := by
  induction rows with
  | nil => rfl
  | cons a rows ih =>
    have ih2 := ih (fun x hx => h x (List.mem_cons_of_mem _ hx))
    unfold leftJoin at ih2 ⊢
    rw [List.flatMap_cons, ih2, List.map_cons]
    have ha := h a (List.mem_cons_self _ _)
    have hf := head?_filter_eq_find? (cond a) table
    cases hl : table.filter (cond a) with
    | nil =>
      rw [hl] at hf
      simp [← hf]
    | cons b bs =>
      rw [hl] at hf ha
      have hbs : bs = [] := by
        cases bs with
        | nil => rfl
        | cons x xs => simp at ha
      subst hbs
      simp [← hf]

/-- Under the primary keys of `inboxes` and `operators`, the joined rows are
the conversations in stored order, one row each. -/
theorem selectWithNames_eq_map (s : Store) (hi : UniqueInboxIds s) (ho : UniqueOperatorIds s) :
    selectWithNames s = s.conversations.map (withNames s) := by
  unfold selectWithNames
  rw [leftJoin_eq_map s.conversations s.inboxes _ (fun c _ =>
    filter_length_le_one (fun i : Inbox => i.id) _ s.inboxes
      (fun a b ha hb => by
        simp at ha hb
        show a.id = b.id
        rw [← ha, ← hb]) hi)]
  rw [leftJoin_eq_map _ s.operators _ (fun r _ =>
    filter_length_le_one (fun o : Operator => o.id) _ s.operators
      (fun a b ha hb => by
        simp at ha hb
        rw [ha] at hb
        exact Option.some.inj hb) ho)]
  simp only [List.map_map]
  rfl

theorem withNames_conversation (s : Store) (c : Conversation) :
    (withNames s c).conversation = c := rfl

/-! ## Search by phone number -/

/-- C28: under the primary keys of the joined tables, `searchByPhoneNumber`
returns one row for each stored conversation whose `customer_phone_number` is
`phone` and whose `tenant_id` is `tenantId` and no other row, in descending
order of `last_message_at`; a row carries the conversation as stored.  The
function is a query: it yields rows and no store. -/
theorem search_returns_matching (s : Store) (phone : String) (tenantId : Nat)
    (hi : UniqueInboxIds s) (ho : UniqueOperatorIds s) :
    ((searchByPhoneNumber s phone tenantId).map (fun r => r.conversation)).Perm
      (s.conversations.filter
        (fun c => c.customer_phone_number = phone && c.tenant_id = tenantId)) ∧
    ((searchByPhoneNumber s phone tenantId).map (fun r => r.conversation)).Pairwise
      (fun a b => b.last_message_at ≤ a.last_message_at) ∧
    (∀ c, c ∈ (searchByPhoneNumber s phone tenantId).map (fun r => r.conversation) ↔
      c ∈ s.conversations ∧ c.customer_phone_number = phone ∧ c.tenant_id = tenantId) ∧
    (searchByPhoneNumber s phone tenantId).length
      = (s.conversations.filter
          (fun c => c.customer_phone_number = phone && c.tenant_id = tenantId)).length := by
  have hperm : ((searchByPhoneNumber s phone tenantId).map (fun r => r.conversation)).Perm
      (s.conversations.filter
        (fun c => c.customer_phone_number = phone && c.tenant_id = tenantId)) := by
    unfold searchByPhoneNumber
    rw [selectWithNames_eq_map s hi ho]
    refine ((List.perm_insertionSort _ _).map _).trans ?_
    rw [List.filter_map, List.map_map]
    have : ((fun r : NamedConversation => r.conversation) ∘ withNames s) = id := by
      funext c
      rfl
    rw [this, List.map_id]
    exact List.Perm.of_eq rfl
  refine ⟨hperm, ?_, ?_, ?_⟩
  · unfold searchByPhoneNumber
    rw [List.pairwise_map]
    haveI : IsTotal NamedConversation (fun a b => b.conversation.last_message_at
        ≤ a.conversation.last_message_at) := ⟨fun a b => le_total _ _⟩
    haveI : IsTrans NamedConversation (fun a b => b.conversation.last_message_at
        ≤ a.conversation.last_message_at) := ⟨fun a b c hab hbc => le_trans hbc hab⟩
    have hs := List.sorted_insertionSort
      (fun a b : NamedConversation => b.conversation.last_message_at
        ≤ a.conversation.last_message_at)
      ((selectWithNames s).filter (fun r =>
        r.conversation.customer_phone_number = phone && r.conversation.tenant_id = tenantId))
    exact hs
  · intro c
    rw [hperm.mem_iff]
    simp [List.mem_filter]
  · have := hperm.length_eq
    simpa using this

theorem search_returns_matching_witness :
    UniqueInboxIds Sample.store ∧ UniqueOperatorIds Sample.store ∧
    (searchByPhoneNumber Sample.store "+100" 1).map
        (fun r => (r.conversation.id, r.inbox_name, r.operator_name))
      = [(2, some "Support", none), (3, some "Support", some "Ann"),
          (1, some "Support", none), (4, some "Support", some "Ann")] ∧
    ((searchByPhoneNumber Sample.store "+100" 1).map (fun r => r.conversation)).Perm
      (Sample.store.conversations.filter
        (fun c => c.customer_phone_number = "+100" && c.tenant_id = 1)) ∧
    ((searchByPhoneNumber Sample.store "+100" 1).map (fun r => r.conversation)).Pairwise
      (fun a b => b.last_message_at ≤ a.last_message_at) ∧
    (∀ c, c ∈ (searchByPhoneNumber Sample.store "+100" 1).map (fun r => r.conversation) ↔
      c ∈ Sample.store.conversations ∧ c.customer_phone_number = "+100" ∧ c.tenant_id = 1) ∧
    (searchByPhoneNumber Sample.store "+100" 1).length
      = (Sample.store.conversations.filter
          (fun c => c.customer_phone_number = "+100" && c.tenant_id = 1)).length :=
  have hi : UniqueInboxIds Sample.store := by unfold UniqueInboxIds; decide
  have ho : UniqueOperatorIds Sample.store := by unfold UniqueOperatorIds; decide
  ⟨hi, ho, by decide, search_returns_matching Sample.store "+100" 1 hi ho⟩

/-! ## Listing: where the code departs from the specification -/

/-- C29 fails on the code: `getConversations` has no condition on the
tenant and the list endpoint passes it the query alone, so operator 1 of
tenant 1, listing without an inbox filter, receives conversation 2 of
tenant 2. -/
theorem list_crosses_tenants :
    authenticate Sample.bothTenants (some 1) = .ok ⟨1, 1, .OPERATOR, "Ann", "ann@a"⟩ ∧
    ∃ page, listConversations Sample.env Sample.bothTenants (some 1)
        (Sample.listBy 20 .priority) = .json page ∧
      page.conversations.map (fun r => (r.conversation.id, r.conversation.tenant_id))
        = [(2, 2), (1, 1)] :=
  ⟨rfl, _, rfl, rfl⟩

/-- C23 fails on the code: under 'oldest' and 'newest' the cursor is the id
of the last row alone, while the order is by `last_message_at` first.  On
the sample store the 'oldest' order of ids is 4, 1, 2, 3: with limit 1 the
second page is empty (1 is skipped), with limit 2 it is 4, 2 (4 is repeated
and 1, 2, 3 should follow 4, 1); the 'newest' order is 3, 2, 1, 4 and with
limit 3 the second page is empty (4 is skipped). -/
theorem id_cursor_skips_and_repeats :
    (matchingInOrder Sample.store (Sample.listBy 1 .oldest)).map (fun r => r.conversation.id)
      = [4, 1, 2, 3] ∧
    (twoPages Sample.env Sample.store (Sample.listBy 1 .oldest)).map
        (fun rows => rows.map (fun r => r.conversation.id)) = .ok [4] ∧
    (twoPages Sample.env Sample.store (Sample.listBy 2 .oldest)).map
        (fun rows => rows.map (fun r => r.conversation.id)) = .ok [4, 1, 4, 2] ∧
    (matchingInOrder Sample.store (Sample.listBy 3 .newest)).map (fun r => r.conversation.id)
      = [3, 2, 1, 4] ∧
    (twoPages Sample.env Sample.store (Sample.listBy 3 .newest)).map
        (fun rows => rows.map (fun r => r.conversation.id)) = .ok [3, 2, 1] :=
  ⟨rfl, rfl, rfl, rfl, rfl⟩

/-- C22 fails on the code: a row without a score renders the cursor text
`null|...`, whose score the next request reads as NaN, and no comparison of
the cursor condition is true of a row without a score.  With limit 1 on two
conversations without a score, ordered 1, 2, the first page is conversation 1
with a cursor and the second page is empty: conversation 2 is skipped. -/
theorem priority_cursor_skips_unscored :
    (matchingInOrder Sample.unscored (Sample.listBy 1 .priority)).map
        (fun r => (r.conversation.id, r.conversation.priority_score))
      = [(1, none), (2, none)] ∧
    (getConversations Sample.env Sample.unscored (Sample.listBy 1 .priority)).map
        (fun page => (page.conversations.map (fun r => r.conversation.id), page.next_cursor,
          page.has_more))
      = .ok ([1], some (.priority ⟨none, 5, 1⟩), true) ∧
    (getConversations Sample.env Sample.unscored
        { Sample.listBy 1 .priority with cursor := some (.priority ⟨none, 5, 1⟩) }).map
        (fun page => (page.conversations.map (fun r => r.conversation.id), page.has_more))
      = .ok ([], false) ∧
    (twoPages Sample.env Sample.unscored (Sample.listBy 1 .priority)).map
        (fun rows => rows.map (fun r => r.conversation.id)) = .ok [1] :=
  ⟨rfl, rfl, rfl, rfl⟩

/-! ## Validation of the list query -/

theorem joiInteger_eq_some (toNumber : String → Option ℚ) (lo hi : Int) (text : String)
    (n : Int) :
    joiInteger toNumber (some lo) (some hi) text = some n ↔
      toNumber text = some (n : ℚ) ∧ lo ≤ n ∧ n ≤ hi := by
  unfold joiInteger
  cases hq : toNumber text with
  | none => simp
  | some q =>
    simp only [Option.all_some, Bool.and_eq_true, decide_eq_true_eq, Option.some.injEq]
    constructor
    · intro h
      split at h
      · rename_i hc
        obtain ⟨⟨hint, hlo⟩, hhi⟩ := hc
        have hden : q.den = 1 := by simpa [Rat.isInt] using hint
        have hqn : (q.num : ℚ) = q := Rat.coe_int_num_of_den_eq_one hden
        have hn : q.num = n := Option.some.inj h
        rw [hn] at hqn
        rw [← hqn] at hlo hhi
        exact ⟨hqn.symm, by exact_mod_cast hlo, by exact_mod_cast hhi⟩
      · simp at h
    · rintro ⟨hq2, hlo, hhi⟩
      subst hq2
      have hint : (n : ℚ).isInt = true := by simp [Rat.isInt]
      have hlo2 : (lo : ℚ) ≤ (n : ℚ) := by exact_mod_cast hlo
      have hhi2 : (n : ℚ) ≤ (hi : ℚ) := by exact_mod_cast hhi
      simp [hint, hlo2, hhi2]

/-- C27: the rule of `limit` in the list schema yields 20 for an absent
limit and, for a present one, yields `n` iff the text stands for the integer
`n` and 1 ≤ n ≤ 100.  When the rule rejects the limit, `validate` responds
with status 400 and message 'Validation failed' and does not call `next`,
whatever the other fields are; when `validate` calls `next`, the limit of the
validated query is the value of the rule; a query with an accepted limit and
no other field passes; and `validate` never does anything but one of the
two. -/
theorem list_limit_validation (toNumber : String → Option ℚ) (data : ListQueryText) :
    (data.limit = none → conversationSchemas.listLimit toNumber data.limit = some 20) ∧
    (∀ text n, data.limit = some text →
      (conversationSchemas.listLimit toNumber data.limit = some n ↔
        toNumber text = some (n : ℚ) ∧ 1 ≤ n ∧ n ≤ 100)) ∧
    (conversationSchemas.listLimit toNumber data.limit = none →
      validate (conversationSchemas.list toNumber) data
        = (.respond 400 "Validation failed", none)) ∧
    (∀ value, validate (conversationSchemas.list toNumber) data = (.next, some value) →
      conversationSchemas.listLimit toNumber data.limit = some value.limit) ∧
    (∀ n, conversationSchemas.listLimit toNumber data.limit = some n →
      validate (conversationSchemas.list toNumber)
          ⟨data.limit, none, none, none, none, none, none⟩
        = (.next, some ⟨n, none, none, none, none, none, .priority⟩)) ∧
    (validate (conversationSchemas.list toNumber) data
        = (.respond 400 "Validation failed", none) ∨
      ∃ value, validate (conversationSchemas.list toNumber) data = (.next, some value)) := by
  refine ⟨?_, ?_, ?_, ?_, ?_, ?_⟩
  · intro h
    rw [h]
    rfl
  · intro text n h
    rw [h]
    exact joiInteger_eq_some toNumber 1 100 text n
  · intro h
    unfold validate conversationSchemas.list
    dsimp only
    rw [h]
  · intro value h
    unfold validate conversationSchemas.list at h
    dsimp only at h
    split at h
    · rename_i herr
      simp at h
    · rename_i v hv
      simp only [Prod.mk.injEq, Option.some.injEq, true_and] at h
      subst h
      split at hv
      · rename_i hl _ _ _ _ _ _
        simp only [Except.ok.injEq] at hv
        subst hv
        exact hl
      · simp at hv
  · intro n h
    unfold validate conversationSchemas.list
    dsimp only
    rw [h]
    rfl
  · unfold validate
    cases conversationSchemas.list toNumber data with
    | error e => left; rfl
    | ok v => right; exact ⟨v, rfl⟩

theorem list_limit_validation_witness :
    conversationSchemas.listLimit Sample.toNumber (some "10") = some 10 ∧
    validate (conversationSchemas.list Sample.toNumber) (Sample.limitOnly "10")
      = (.next, some ⟨10, none, none, none, none, none, .priority⟩) ∧
    conversationSchemas.listLimit Sample.toNumber (some "150") = none ∧
    validate (conversationSchemas.list Sample.toNumber) (Sample.limitOnly "150")
      = (.respond 400 "Validation failed", none) ∧
    validate (conversationSchemas.list Sample.toNumber) (Sample.limitOnly "2.5")
      = (.respond 400 "Validation failed", none) :=
  have h10 : conversationSchemas.listLimit Sample.toNumber (some "10") = some 10 :=
    ((list_limit_validation Sample.toNumber (Sample.limitOnly "10")).2.1 "10" 10 rfl).2
      ⟨by simp [Sample.toNumber], by decide, by decide⟩
  have h150 : conversationSchemas.listLimit Sample.toNumber (some "150") = none := by
    cases h : conversationSchemas.listLimit Sample.toNumber (some "150") with
    | none => rfl
    | some n =>
      have := ((list_limit_validation Sample.toNumber (Sample.limitOnly "150")).2.1 "150" n
        rfl).1 h
      obtain ⟨h1, _, h3⟩ := this
      simp [Sample.toNumber] at h1
      have : (150 : ℚ) = ((150 : Int) : ℚ) := by norm_num
      rw [this] at h1
      have h4 : (150 : Int) = n := by exact_mod_cast h1
      omega
  have h25 : conversationSchemas.listLimit Sample.toNumber (some "2.5") = none := by
    cases h : conversationSchemas.listLimit Sample.toNumber (some "2.5") with
    | none => rfl
    | some n =>
      have := ((list_limit_validation Sample.toNumber (Sample.limitOnly "2.5")).2.1 "2.5" n
        rfl).1 h
      obtain ⟨h1, _, _⟩ := this
      simp [Sample.toNumber] at h1
      have h5 : ((5 / 2 : ℚ)).den = 1 := by rw [h1]; simp
      norm_num at h5
  ⟨h10, (list_limit_validation Sample.toNumber (Sample.limitOnly "10")).2.2.2.2.1 10 h10,
    h150, (list_limit_validation Sample.toNumber (Sample.limitOnly "150")).2.2.1 h150,
    (list_limit_validation Sample.toNumber (Sample.limitOnly "2.5")).2.2.1 h25⟩

/-! ## Pagination by the priority cursor -/

theorem filter_orderedInsert {α : Type} (r : α → α → Prop) [DecidableRel r] [IsTrans α r]
    (p : α → Bool) (a : α) (l : List α) (hl : l.Sorted r) :
    (l.orderedInsert r a).filter p
      = if p a = true then (l.filter p).orderedInsert r a else l.filter p := by
  induction l with
  | nil => by_cases ha : p a = true <;> simp [ha]
  | cons b l ih =>
    have hl2 : l.Sorted r := hl.of_cons
    have hb : ∀ x ∈ l, r b x := fun x hx => List.rel_of_sorted_cons hl x hx
    by_cases hab : r a b
    · rw [List.orderedInsert, if_pos hab]
      by_cases ha : p a = true
      · rw [List.filter_cons, if_pos ha, if_pos ha]
        have hall : ∀ x ∈ (b :: l).filter p, r a x := by
          intro x hx
          have hx2 := (List.mem_filter.mp hx).1
          rcases List.mem_cons.mp hx2 with rfl | hx3
          · exact hab
          · exact IsTrans.trans a b x hab (hb x hx3)
        cases hf : (b :: l).filter p with
        | nil => rfl
        | cons y ys =>
          rw [List.orderedInsert, if_pos (hall y (by rw [hf]; exact List.mem_cons_self _ _))]
      · rw [List.filter_cons, if_neg ha, if_neg ha]
    · rw [List.orderedInsert, if_neg hab, List.filter_cons, ih hl2]
      by_cases ha : p a = true
      · simp only [ha, if_true]
        by_cases hpb : p b = true
        · simp only [hpb, if_true, List.filter_cons]
          rw [List.orderedInsert, if_neg hab]
        · simp only [hpb, if_false, List.filter_cons]
          simp
      · rw [List.filter_cons]
        simp [ha]

theorem filter_insertionSort {α : Type} (r : α → α → Prop) [DecidableRel r] [IsTrans α r]
    [IsTotal α r] (p : α → Bool) (l : List α) :
    (l.insertionSort r).filter p = (l.filter p).insertionSort r := by
  induction l with
  | nil => rfl
  | cons a l ih =>
    rw [List.insertionSort, filter_orderedInsert r p a _ (List.sorted_insertionSort r l), ih]
    by_cases ha : p a = true
    · rw [if_pos ha, List.filter_cons, if_pos ha, List.insertionSort]
    · rw [if_neg ha, List.filter_cons, if_neg ha]

theorem listOrder_total (sort : ListSort) (a b : Conversation) :
    listOrder sort a b = true ∨ listOrder sort b a = true := by
  cases sort
  · rcases ha : a.priority_score with _ | x <;> rcases hb : b.priority_score with _ | y <;>
      simp only [listOrder, orderByTimeDescIdAsc, ha, hb, Bool.or_eq_true, Bool.and_eq_true,
        decide_eq_true_eq, Bool.false_eq_true, or_false, false_or, or_true, true_or] <;>
      omega
  · simp only [listOrder, Bool.or_eq_true, Bool.and_eq_true, decide_eq_true_eq]
    omega
  · simp only [listOrder, Bool.or_eq_true, Bool.and_eq_true, decide_eq_true_eq]
    omega

theorem listOrder_trans (sort : ListSort) (a b c : Conversation)
    (hab : listOrder sort a b = true) (hbc : listOrder sort b c = true) :
    listOrder sort a c = true := by
  cases sort
  · rcases ha : a.priority_score with _ | x <;> rcases hb : b.priority_score with _ | y <;>
      rcases hc : c.priority_score with _ | z <;>
      simp only [listOrder, orderByTimeDescIdAsc, ha, hb, hc, Bool.or_eq_true,
        Bool.and_eq_true, decide_eq_true_eq, Bool.false_eq_true] at hab hbc ⊢ <;>
      omega
  · simp only [listOrder, Bool.or_eq_true, Bool.and_eq_true, decide_eq_true_eq] at hab hbc ⊢
    omega
  · simp only [listOrder, Bool.or_eq_true, Bool.and_eq_true, decide_eq_true_eq] at hab hbc ⊢
    omega

theorem listOrder_antisymm_id (sort : ListSort) (a b : Conversation)
    (hab : listOrder sort a b = true) (hba : listOrder sort b a = true) : a.id = b.id := by
  cases sort
  · rcases ha : a.priority_score with _ | x <;> rcases hb : b.priority_score with _ | y <;>
      simp only [listOrder, orderByTimeDescIdAsc, ha, hb, Bool.or_eq_true,
        Bool.and_eq_true, decide_eq_true_eq, Bool.false_eq_true] at hab hba <;>
      omega
  · simp only [listOrder, Bool.or_eq_true, Bool.and_eq_true, decide_eq_true_eq] at hab hba
    omega
  · simp only [listOrder, Bool.or_eq_true, Bool.and_eq_true, decide_eq_true_eq] at hab hba
    omega

/-- For scored rows the cursor condition of sort 'priority' holds exactly of
the rows that the order places strictly after the row of the cursor. -/
theorem afterPriorityCursor_iff (last c : Conversation)
    (hl : last.priority_score ≠ none) (hc : c.priority_score ≠ none) :
    afterPriorityCursor ⟨last.priority_score, last.last_message_at, last.id⟩ c = true ↔
      ¬ listOrder .priority c last = true := by
  rcases h1 : last.priority_score with _ | x
  · exact absurd h1 hl
  rcases h2 : c.priority_score with _ | y
  · exact absurd h2 hc
  simp only [afterPriorityCursor, listOrder, orderByTimeDescIdAsc, h1, h2, Bool.or_eq_true,
    Bool.and_eq_true, decide_eq_true_eq]
  omega

theorem listOrder_isTotal (sort : ListSort) :
    IsTotal ListedConversation
      (fun a b => listOrder sort a.conversation b.conversation = true) :=
  ⟨fun a b => listOrder_total sort a.conversation b.conversation⟩

theorem listOrder_isTrans (sort : ListSort) :
    IsTrans ListedConversation
      (fun a b => listOrder sort a.conversation b.conversation = true) :=
  ⟨fun a b c => listOrder_trans sort a.conversation b.conversation c.conversation⟩

theorem take_succ_page {α : Type} (X : List α) (N : Nat) :
    (if decide ((X.take (N + 1)).length > N) = true then (X.take (N + 1)).take N
      else X.take (N + 1)) = X.take N ∧
    (decide ((X.take (N + 1)).length > N) = decide (X.length > N)) := by
  by_cases h : X.length > N
  · have h1 : (X.take (N + 1)).length > N := by
      rw [List.length_take]
      omega
    simp only [h1, h, decide_True, if_true, List.take_take]
    simp
  · have h1 : ¬ (X.take (N + 1)).length > N := by
      rw [List.length_take]
      omega
    simp only [h1, h, decide_False, Bool.false_eq_true, if_false, and_true]
    rw [List.take_of_length_le (by omega), List.take_of_length_le (by omega)]

/-- In a list sorted by the 'priority' order, with distinct ids and scored
rows, the rows that satisfy the cursor condition for the last row of the
first `N` are the rows after the first `N`. -/
theorem filter_after_eq_drop (M : List ListedConversation) (N : Nat)
    (hs : M.Sorted (fun a b => listOrder .priority a.conversation b.conversation = true))
    (hnd : (M.map (fun r => r.conversation.id)).Nodup)
    (hscore : ∀ r ∈ M, r.conversation.priority_score ≠ none)
    (last : ListedConversation) (hlast : (M.take N).getLast? = some last) :
    M.filter (fun r => afterPriorityCursor
        ⟨last.conversation.priority_score, last.conversation.last_message_at,
          last.conversation.id⟩ r.conversation)
      = M.drop N := by
  have hsplit : M.take N ++ M.drop N = M := List.take_append_drop N M
  have hA : ∃ A, M.take N = A ++ [last] := by
    refine ⟨(M.take N).dropLast, ?_⟩
    have := List.dropLast_append_getLast? last hlast
    exact this.symm
  obtain ⟨A, hA⟩ := hA
  have hM : M = A ++ [last] ++ M.drop N := by rw [← hA, hsplit]
  have hlastM : last ∈ M := by rw [hM]; simp
  have hsl := hscore last hlastM
  rw [hM] at hs hnd
  unfold List.Sorted at hs
  rw [List.pairwise_append] at hs
  obtain ⟨hs1, hs2, hs3⟩ := hs
  rw [List.pairwise_append] at hs1
  obtain ⟨_, _, hs4⟩ := hs1
  rw [List.map_append, List.nodup_append] at hnd
  obtain ⟨hnd1, _, hnd3⟩ := hnd
  rw [List.map_append, List.nodup_append] at hnd1
  obtain ⟨_, _, hnd4⟩ := hnd1
  conv_lhs => rw [hM]
  rw [List.filter_append, List.filter_append]
  have e1 : A.filter (fun r => afterPriorityCursor
      ⟨last.conversation.priority_score, last.conversation.last_message_at,
        last.conversation.id⟩ r.conversation) = [] := by
    rw [List.filter_eq_nil_iff]
    intro x hx hax
    have hxM : x ∈ M := by rw [hM]; simp [hx]
    rw [afterPriorityCursor_iff _ _ hsl (hscore x hxM)] at hax
    exact hax (hs4 x hx last (List.mem_singleton_self _))
  have e2 : [last].filter (fun r => afterPriorityCursor
      ⟨last.conversation.priority_score, last.conversation.last_message_at,
        last.conversation.id⟩ r.conversation) = [] := by
    rw [List.filter_eq_nil_iff]
    intro x hx hax
    rw [List.mem_singleton] at hx
    subst hx
    rw [afterPriorityCursor_iff _ _ hsl hsl] at hax
    exact hax ((listOrder_total .priority x.conversation x.conversation).elim id id)
  have e3 : (M.drop N).filter (fun r => afterPriorityCursor
      ⟨last.conversation.priority_score, last.conversation.last_message_at,
        last.conversation.id⟩ r.conversation) = M.drop N := by
    rw [List.filter_eq_self]
    intro y hy
    have hyM : y ∈ M := List.mem_of_mem_drop hy
    rw [afterPriorityCursor_iff _ _ hsl (hscore y hyM)]
    intro hyl
    have hly := hs3 last (by simp) y hy
    have hid := listOrder_antisymm_id .priority _ _ hly hyl
    have h1 : last.conversation.id ∈ (A ++ [last]).map (fun r => r.conversation.id) := by
      simp
    have h2 : y.conversation.id ∈ (M.drop N).map (fun r => r.conversation.id) :=
      List.mem_map.2 ⟨y, hy, rfl⟩
    rw [← hid] at h2
    exact hnd3 h1 h2
  rw [e1, e2, e3]
  rfl

/-- What `getConversations` returns for a limit of at least 1 when the
database accepts the cursor: the first `limit` rows of the sorted selection,
whether there are more, and the cursor of the last returned row if so. -/
theorem getConversations_page (env : Env) (s : Store) (filters : ListFilters)
    (afterCursor : Conversation → Bool) (N : Nat)
    (hc : cursorClause (filters.sort.getD .priority) filters.cursor = .ok afterCursor)
    (hl : filters.limit.getD env.defaultLimit = N) (hN : 1 ≤ N) :
    ∃ page, getConversations env s filters = .ok page ∧
      page.conversations
        = (((selectListed s).filter (fun r =>
            filterClause s filters r.conversation && afterCursor r.conversation)).insertionSort
          (fun a b => listOrder (filters.sort.getD .priority) a.conversation b.conversation
            = true)).take N ∧
      page.has_more = decide ((((selectListed s).filter (fun r =>
            filterClause s filters r.conversation && afterCursor r.conversation)).insertionSort
          (fun a b => listOrder (filters.sort.getD .priority) a.conversation b.conversation
            = true)).length > N) ∧
      page.next_cursor
        = if page.has_more = true then
            page.conversations.getLast?.map
              (fun r => nextCursor (filters.sort.getD .priority) r.conversation)
          else none := by
  unfold getConversations
  simp only [hc, hl]
  generalize (((selectListed s).filter (fun r =>
    filterClause s filters r.conversation && afterCursor r.conversation)).insertionSort
    (fun a b => listOrder (filters.sort.getD .priority) a.conversation b.conversation
      = true)) = X
  obtain ⟨h1, h2⟩ := take_succ_page X N
  rw [h1, h2]
  by_cases hX : X.length > N
  · simp only [hX, decide_True, if_true]
    have hne : X.take N ≠ [] := by
      intro h
      have := congrArg List.length h
      rw [List.length_take, List.length_nil] at this
      omega
    cases hlast : (X.take N).getLast? with
    | none => exact absurd (List.getLast?_eq_none_iff.mp hlast) hne
    | some last => exact ⟨_, rfl, rfl, rfl, by simp [hlast]⟩
  · simp only [hX, decide_False, Bool.false_eq_true, if_false]
    exact ⟨_, rfl, rfl, rfl, rfl⟩

theorem cursorClause_none (sort : ListSort) :
    cursorClause sort none = .ok (fun _ => true) := by
  cases sort <;> rfl

theorem cursorClause_priority (k : PriorityCursor) :
    cursorClause .priority (some (.priority k)) = .ok (afterPriorityCursor k) := by
  obtain ⟨score, time, id⟩ := k
  cases score <;> rfl

theorem selectListed_conversations (s : Store) (hi : UniqueInboxIds s)
    (ho : UniqueOperatorIds s) :
    (selectListed s).map (fun r => r.conversation) = s.conversations := by
  unfold selectListed
  rw [selectWithNames_eq_map s hi ho, List.map_map, List.map_map]
  conv_rhs => rw [← List.map_id s.conversations]
  apply List.map_congr_left
  intro c _
  rfl

/-- The rows that match the filters, in the order of the sort: a sorted
rearrangement of the matching stored conversations, one row each. -/
theorem matchingInOrder_spec (s : Store) (filters : ListFilters) (hi : UniqueInboxIds s)
    (ho : UniqueOperatorIds s) :
    ((matchingInOrder s filters).map (fun r => r.conversation)).Perm
      (s.conversations.filter (fun c => filterClause s filters c)) ∧
    (matchingInOrder s filters).Sorted
      (fun a b => listOrder (filters.sort.getD .priority) a.conversation b.conversation
        = true) := by
  haveI := listOrder_isTotal (filters.sort.getD .priority)
  haveI := listOrder_isTrans (filters.sort.getD .priority)
  refine ⟨?_, List.sorted_insertionSort _ _⟩
  unfold matchingInOrder
  refine ((List.perm_insertionSort _ _).map _).trans ?_
  rw [← selectListed_conversations s hi ho, List.filter_map]
  exact List.Perm.of_eq rfl

/-- The half of C22 that the code has: when every matching conversation has
a score, the page of a 'priority' request of limit `N ≥ 1` followed by the
page for its `next_cursor` is the first `2 * N` rows of the matching rows in
the order `priority_score DESC, last_message_at DESC, id ASC`, with no id
twice; this needs the primary keys of the three tables of the query. -/
theorem priority_pages_continue (env : Env) (s : Store) (filters : ListFilters) (N : Nat)
    (hN : 1 ≤ N) (hl : filters.limit = some N)
    (hsort : filters.sort.getD .priority = .priority)
    (hpk : UniqueConversationIds s) (hi : UniqueInboxIds s) (ho : UniqueOperatorIds s)
    (hscored : ∀ c ∈ s.conversations, filterClause s filters c = true →
      c.priority_score ≠ none) :
    twoPages env s filters = .ok ((matchingInOrder s filters).take (2 * N)) ∧
    (((matchingInOrder s filters).take (2 * N)).map (fun r => r.conversation.id)).Nodup := by
  haveI := listOrder_isTotal ListSort.priority
  haveI := listOrder_isTrans ListSort.priority
  have hconv := selectListed_conversations s hi ho
  have hLnd : ((selectListed s).map (fun r => r.conversation.id)).Nodup := by
    have : (selectListed s).map (fun r => r.conversation.id)
        = ((selectListed s).map (fun r => r.conversation)).map (fun c => c.id) := by
      rw [List.map_map]
      rfl
    rw [this, hconv]
    exact hpk
  have hM : matchingInOrder s filters
      = ((selectListed s).filter (fun r => filterClause s filters r.conversation)).insertionSort
          (fun a b => listOrder .priority a.conversation b.conversation = true) := by
    unfold matchingInOrder
    rw [hsort]
  have hMsub : ∀ r ∈ matchingInOrder s filters,
      r ∈ selectListed s ∧ filterClause s filters r.conversation = true := by
    intro r hr
    rw [hM, List.mem_insertionSort, List.mem_filter] at hr
    exact hr
  have hMnd : ((matchingInOrder s filters).map (fun r => r.conversation.id)).Nodup := by
    rw [hM]
    refine (List.Perm.nodup_iff ((List.perm_insertionSort _ _).map _)).2 ?_
    exact (List.Sublist.map _ (List.filter_sublist _)).nodup hLnd
  have hMscore : ∀ r ∈ matchingInOrder s filters, r.conversation.priority_score ≠ none := by
    intro r hr
    obtain ⟨hrL, hrF⟩ := hMsub r hr
    refine hscored r.conversation ?_ hrF
    rw [← hconv]
    exact List.mem_map.2 ⟨r, hrL, rfl⟩
  have hMs : (matchingInOrder s filters).Sorted
      (fun a b => listOrder .priority a.conversation b.conversation = true) := by
    rw [hM]
    exact List.sorted_insertionSort _ _
  refine ⟨?_, (List.Sublist.map _ (List.take_sublist _ _)).nodup hMnd⟩
  -- the first page
  obtain ⟨p1, hp1, hc1, hm1, hk1⟩ := getConversations_page env s { filters with cursor := none }
    (fun _ => true) N (by
      rw [show ({ filters with cursor := none } : ListFilters).sort = filters.sort from rfl,
        hsort]
      exact cursorClause_none _)
    (by
      rw [show ({ filters with cursor := none } : ListFilters).limit = filters.limit from rfl,
        hl]
      rfl) hN
  have hX1 : (((selectListed s).filter (fun r =>
      filterClause s { filters with cursor := none } r.conversation
        && (fun _ => true) r.conversation)).insertionSort
      (fun a b => listOrder (({ filters with cursor := none } : ListFilters).sort.getD .priority)
        a.conversation b.conversation = true)) = matchingInOrder s filters := by
    rw [hM]
    simp only [Bool.and_true]
    rw [show ({ filters with cursor := none } : ListFilters).sort = filters.sort from rfl, hsort]
    rfl
  rw [hX1] at hc1 hm1
  unfold twoPages
  rw [hp1]
  dsimp only
  rw [hk1]
  by_cases hmore : (matchingInOrder s filters).length > N
  · have hm1t : p1.has_more = true := by rw [hm1]; simpa using hmore
    rw [hm1t, if_pos rfl, hc1]
    have hne : (matchingInOrder s filters).take N ≠ [] := by
      intro h
      have := congrArg List.length h
      rw [List.length_take, List.length_nil] at this
      omega
    cases hlast : ((matchingInOrder s filters).take N).getLast? with
    | none => exact absurd (List.getLast?_eq_none_iff.mp hlast) hne
    | some last =>
      simp only [Option.map_some']
      rw [show ({ filters with cursor := none } : ListFilters).sort = filters.sort from rfl, hsort]
      obtain ⟨p2, hp2, hc2, _, _⟩ := getConversations_page env s
        { filters with cursor := some (nextCursor .priority last.conversation) }
        (afterPriorityCursor ⟨last.conversation.priority_score,
          last.conversation.last_message_at, last.conversation.id⟩) N
        (by
          rw [show ({ filters with cursor := some (nextCursor .priority last.conversation) }
            : ListFilters).sort = filters.sort from rfl, hsort]
          exact cursorClause_priority _)
        (by
          rw [show ({ filters with cursor := some (nextCursor .priority last.conversation) }
            : ListFilters).limit = filters.limit from rfl, hl]
          rfl) hN
      rw [hp2]
      dsimp only
      rw [hc2]
      have hX2 : (((selectListed s).filter (fun r =>
          filterClause s { filters with cursor := some (nextCursor .priority last.conversation) }
            r.conversation
          && afterPriorityCursor ⟨last.conversation.priority_score,
            last.conversation.last_message_at, last.conversation.id⟩ r.conversation)).insertionSort
          (fun a b => listOrder
            (({ filters with cursor := some (nextCursor .priority last.conversation) }
              : ListFilters).sort.getD .priority)
            a.conversation b.conversation = true))
          = (matchingInOrder s filters).drop N := by
        rw [show ({ filters with cursor := some (nextCursor .priority last.conversation) }
            : ListFilters).sort = filters.sort from rfl, hsort]
        rw [← filter_after_eq_drop (matchingInOrder s filters) N hMs hMnd hMscore last hlast]
        rw [hM, filter_insertionSort, List.filter_filter]
        congr 2
        funext r
        rw [Bool.and_comm]
        rfl
      rw [hX2, ← List.take_add, two_mul]
  · have hm1f : p1.has_more = false := by rw [hm1]; simpa using hmore
    rw [hm1f]
    simp only [Bool.false_eq_true, if_false]
    rw [hc1, List.take_of_length_le (by omega), List.take_of_length_le (by omega)]

theorem priority_pages_continue_witness :
    twoPages Sample.env Sample.store (Sample.listBy 1 .priority)
      = .ok ((matchingInOrder Sample.store (Sample.listBy 1 .priority)).take (2 * 1)) ∧
    (((matchingInOrder Sample.store (Sample.listBy 1 .priority)).take (2 * 1)).map
      (fun r => r.conversation.id)).Nodup ∧
    ((matchingInOrder Sample.store (Sample.listBy 1 .priority)).take (2 * 1)).map
      (fun r => r.conversation.id) = [2, 3] :=
  have h := priority_pages_continue Sample.env Sample.store (Sample.listBy 1 .priority) 1
    (by decide) rfl rfl (by unfold UniqueConversationIds; decide)
    (by unfold UniqueInboxIds; decide) (by unfold UniqueOperatorIds; decide) (by decide)
  ⟨h.1, h.2, by decide⟩

/-! ## Deallocate and the listing -/

theorem mem_leftJoin {α β : Type} (rows : List α) (table : List β) (cond : α → β → Bool)
    (a : α) (ha : a ∈ rows) : ∃ b, (a, b) ∈ leftJoin rows table cond := by
  unfold leftJoin
  cases hf : table.filter (cond a) with
  | nil =>
    refine ⟨none, List.mem_flatMap.2 ⟨a, ha, ?_⟩⟩
    simp [hf]
  | cons b bs =>
    refine ⟨some b, List.mem_flatMap.2 ⟨a, ha, ?_⟩⟩
    simp [hf]

/-- Every stored conversation has a row in the list query before its WHERE
clause. -/
theorem exists_mem_selectListed (s : Store) (c : Conversation) (hc : c ∈ s.conversations) :
    ∃ r ∈ selectListed s, r.conversation = c := by
  obtain ⟨i, hi⟩ := mem_leftJoin s.conversations s.inboxes (fun c i => c.inbox_id = i.id) c hc
  obtain ⟨o, ho⟩ := mem_leftJoin _ s.operators
    (fun (r : Conversation × Option Inbox) o => r.1.assigned_operator_id = some o.id) (c, i) hi
  unfold selectListed selectWithNames
  refine ⟨_, List.mem_map.2 ⟨_, List.mem_map.2 ⟨((c, i), o), ho, rfl⟩, rfl⟩, rfl⟩

/-- A stored QUEUED conversation matches the list query filtered by state =
QUEUED, and `getConversations` with that filter and no cursor returns the
first `limit` matching rows. -/
theorem listed_of_queued (env : Env) (s : Store) (row : Conversation)
    (hrow : row ∈ s.conversations) (hst : row.state = .QUEUED)
    (limit : Option Nat) (sort : Option ListSort) (hN : 1 ≤ limit.getD env.defaultLimit) :
    ∃ page listed,
      getConversations env s ⟨limit, none, none, some .QUEUED, none, none, sort⟩ = .ok page ∧
      page.conversations
        = (matchingInOrder s ⟨limit, none, none, some .QUEUED, none, none, sort⟩).take
            (limit.getD env.defaultLimit) ∧
      listed ∈ matchingInOrder s ⟨limit, none, none, some .QUEUED, none, none, sort⟩ ∧
      listed.conversation = row ∧
      ((matchingInOrder s ⟨limit, none, none, some .QUEUED, none, none, sort⟩).length
          ≤ limit.getD env.defaultLimit → listed ∈ page.conversations) := by
  obtain ⟨page, hp, hc, _, _⟩ := getConversations_page env s
    ⟨limit, none, none, some .QUEUED, none, none, sort⟩ (fun _ => true)
    (limit.getD env.defaultLimit) (cursorClause_none _) rfl hN
  have hX : (((selectListed s).filter (fun r =>
      filterClause s ⟨limit, none, none, some .QUEUED, none, none, sort⟩ r.conversation
        && (fun _ => true) r.conversation)).insertionSort
      (fun a b => listOrder
        ((⟨limit, none, none, some .QUEUED, none, none, sort⟩ : ListFilters).sort.getD .priority)
        a.conversation b.conversation = true))
      = matchingInOrder s ⟨limit, none, none, some .QUEUED, none, none, sort⟩ := by
    unfold matchingInOrder
    simp only [Bool.and_true]
  rw [hX] at hc
  obtain ⟨listed, hl, hlc⟩ := exists_mem_selectListed s row hrow
  have hmem : listed ∈ matchingInOrder s ⟨limit, none, none, some .QUEUED, none, none, sort⟩ := by
    unfold matchingInOrder
    rw [List.mem_insertionSort, List.mem_filter]
    refine ⟨hl, ?_⟩
    rw [hlc]
    simp [filterClause, truthy, hst]
  refine ⟨page, listed, hp, hc, hmem, hlc, ?_⟩
  intro hlen
  rw [hc, List.take_of_length_le hlen]
  exact hmem

/-- C15, as the code has it: under the primary key, `deallocateConversation`
fails iff the conversation does not exist or is not ALLOCATED, with the 404
error and the store as it was; on success the stored row of the conversation
is QUEUED with no assignee, no grace-period hold is left for it, and its
priority score is `calculate_priority_score` of its message count, its last
message time and the weights of its tenant.  The row then matches the list
query filtered by state = QUEUED; `getConversations` with that filter, no
cursor and a limit `N ≥ 1` returns the first `N` matching rows in the order
of its sort, so it returns the conversation when at most `N` rows match. -/
theorem deallocate_outcomes (env : Env) (now cid : Nat) (s : Store)
    (hpk : UniqueConversationIds s) :
    ((∃ e s1, deallocateConversation env now cid s = (.error e, s1)) ↔
      ¬ ∃ conv, s.conversation? cid = some conv ∧ conv.state = .ALLOCATED) ∧
    ((¬ ∃ conv, s.conversation? cid = some conv ∧ conv.state = .ALLOCATED) →
      deallocateConversationBody env now cid s
        = (.error ⟨"Conversation not found or not allocated", 404⟩, s) ∧
      deallocateConversation env now cid s
        = (.error ⟨"Conversation not found or not allocated", 404⟩, s)) ∧
    (∀ conv, s.conversation? cid = some conv → conv.state = .ALLOCATED →
      ∃ r s' row, deallocateConversation env now cid s = (.ok (some r), s') ∧
        s'.conversation? cid = some row ∧ row.state = .QUEUED ∧
        row.assigned_operator_id = none ∧
        (∀ g ∈ s'.grace_period_assignments, g.conversation_id ≠ cid) ∧
        (∀ t, s.tenant? row.tenant_id = some t →
          row.priority_score = env.calculate_priority_score now row.message_count
            row.last_message_at t.priority_alpha t.priority_beta) ∧
        ∀ (limit : Option Nat) (sort : Option ListSort), 1 ≤ limit.getD env.defaultLimit →
          ∃ page listed,
            getConversations env s' ⟨limit, none, none, some .QUEUED, none, none, sort⟩
              = .ok page ∧
            page.conversations
              = (matchingInOrder s' ⟨limit, none, none, some .QUEUED, none, none, sort⟩).take
                  (limit.getD env.defaultLimit) ∧
            listed ∈ matchingInOrder s' ⟨limit, none, none, some .QUEUED, none, none, sort⟩ ∧
            listed.conversation = row ∧
            ((matchingInOrder s' ⟨limit, none, none, some .QUEUED, none, none, sort⟩).length
                ≤ limit.getD env.defaultLimit → listed ∈ page.conversations)) := by
  have hfail : (¬ ∃ conv, s.conversation? cid = some conv ∧ conv.state = .ALLOCATED) →
      deallocateConversationBody env now cid s
        = (.error ⟨"Conversation not found or not allocated", 404⟩, s) := by
    intro hno
    have hnil : s.conversations.filter
        (fun c => decide (c.id = cid) && decide (c.state = .ALLOCATED)) = [] := by
      rw [List.filter_eq_nil_iff]
      intro x hx hp
      simp only [Bool.and_eq_true, decide_eq_true_eq] at hp
      have := mem_unique_conversation? hpk hx
      rw [hp.1] at this
      exact hno ⟨x, this, hp.2⟩
    have h1 : (updateConversations
        (fun c => decide (c.id = cid) && decide (c.state = .ALLOCATED)) (setQueued now)
        s.conversations).1 = s.conversations := updateConversations_of_filter_nil hnil
    have h2 : (updateConversations
        (fun c => decide (c.id = cid) && decide (c.state = .ALLOCATED)) (setQueued now)
        s.conversations).2 = [] := by
      simp [updateConversations, hnil]
    unfold deallocateConversationBody
    simp only [h1, h2]
  have hsucc : ∀ conv, s.conversation? cid = some conv → conv.state = .ALLOCATED →
      ∃ rest, deallocateConversationBody env now cid s
        = (.ok (some (setQueued now conv)),
            updatePriorityScore env now
              (deleteGracePeriod { s with conversations := (updateConversations
                (fun c => decide (c.id = cid) && decide (c.state = .ALLOCATED)) (setQueued now)
                s.conversations).1 } cid) cid) ∧
        (updateConversations
          (fun c => decide (c.id = cid) && decide (c.state = .ALLOCATED)) (setQueued now)
          s.conversations).2 = setQueued now conv :: rest := by
    intro conv hc hs
    have hhead : (updateConversations
        (fun c => decide (c.id = cid) && decide (c.state = .ALLOCATED)) (setQueued now)
        s.conversations).2.head? = some (setQueued now conv) := by
      simp only [updateConversations, List.head?_map, head?_filter_eq_find?]
      rw [find?_allocated_of_find? hc hs]
      rfl
    obtain ⟨rest, hrest⟩ := exists_cons_of_head? hhead
    refine ⟨rest, ?_, hrest⟩
    unfold deallocateConversationBody
    simp only [hrest]
  refine ⟨⟨?_, ?_⟩, fun hno => ⟨hfail hno, transaction_of_error _ s s _ (hfail hno)⟩, ?_⟩
  · rintro ⟨e, s1, h⟩ ⟨conv, hc, hs⟩
    obtain ⟨rest, hb, _⟩ := hsucc conv hc hs
    rw [deallocateConversation, (transaction_eq_ok_iff _ s _ _).2 hb] at h
    simp at h
  · intro hno
    exact ⟨_, s, transaction_of_error _ s s _ (hfail hno)⟩
  · intro conv hc hs
    obtain ⟨rest, hb, _⟩ := hsucc conv hc hs
    have hrow : (updatePriorityScore env now
        (deleteGracePeriod { s with conversations := (updateConversations
          (fun c => decide (c.id = cid) && decide (c.state = .ALLOCATED)) (setQueued now)
          s.conversations).1 } cid) cid).conversation? cid
        = some (rescore env now s.tenants (setQueued now conv)) := by
      unfold updatePriorityScore
      rw [recomputeScores_conversation?]
      have hq : (deleteGracePeriod { s with conversations := (updateConversations
          (fun c => decide (c.id = cid) && decide (c.state = .ALLOCATED)) (setQueued now)
          s.conversations).1 } cid).conversation? cid = some (setQueued now conv) := by
        simp only [deleteGracePeriod, Store.conversation?, updateConversations]
        rw [find?_map_of_id]
        · have hc' : s.conversations.find? (fun c => decide (c.id = cid)) = some conv := hc
          have hid : conv.id = cid := by simpa using List.find?_some hc
          simp [hc', hid, hs]
        · intro c
          split <;> rfl
      rw [hq]
      rfl
    obtain ⟨_, hst, has, hten, hmc, hlm⟩ := rescore_fields env now s.tenants (setQueued now conv)
    refine ⟨setQueued now conv, _, _, (transaction_eq_ok_iff _ s _ _).2 hb, hrow, ?_, ?_, ?_, ?_,
      ?_⟩
    · rw [hst]; rfl
    · rw [has]; rfl
    · intro g hg
      simp only [updatePriorityScore, recomputeScores, deleteGracePeriod, List.mem_filter] at hg
      simpa using hg.2
    · intro t ht
      rw [hten] at ht
      rw [hmc, hlm]
      exact rescore_score env now s (setQueued now conv) t ht
    · intro limit sort hN
      exact listed_of_queued env _ _ (List.mem_of_find?_eq_some hrow) (by rw [hst]; rfl)
        limit sort hN


theorem deallocate_outcomes_witness :
    UniqueConversationIds Sample.store ∧
    deallocateConversation Sample.env 100 1 Sample.store
      = (.error ⟨"Conversation not found or not allocated", 404⟩, Sample.store) ∧
    ∃ r s' row, deallocateConversation Sample.env 100 3 Sample.store = (.ok (some r), s') ∧
      s'.conversation? 3 = some row ∧ row.state = .QUEUED ∧
      row.assigned_operator_id = none ∧
      (∀ g ∈ s'.grace_period_assignments, g.conversation_id ≠ 3) ∧
      (∀ t, Sample.store.tenant? row.tenant_id = some t →
        row.priority_score = Sample.env.calculate_priority_score 100 row.message_count
          row.last_message_at t.priority_alpha t.priority_beta) ∧
      ∀ (limit : Option Nat) (sort : Option ListSort),
        1 ≤ limit.getD Sample.env.defaultLimit →
        ∃ page listed,
          getConversations Sample.env s' ⟨limit, none, none, some .QUEUED, none, none, sort⟩
            = .ok page ∧
          page.conversations
            = (matchingInOrder s' ⟨limit, none, none, some .QUEUED, none, none, sort⟩).take
                (limit.getD Sample.env.defaultLimit) ∧
          listed ∈ matchingInOrder s' ⟨limit, none, none, some .QUEUED, none, none, sort⟩ ∧
          listed.conversation = row ∧
          ((matchingInOrder s' ⟨limit, none, none, some .QUEUED, none, none, sort⟩).length
              ≤ limit.getD Sample.env.defaultLimit → listed ∈ page.conversations) :=
  have hpk : UniqueConversationIds Sample.store := by
    unfold UniqueConversationIds; decide
  have hno : ¬ ∃ conv, Sample.store.conversation? 1 = some conv ∧ conv.state = .ALLOCATED := by
    rintro ⟨conv, hc, hs⟩
    have h1 : Sample.store.conversation? 1 = some (Sample.conv 1 1 1 .QUEUED none 5 (some 3)) :=
      rfl
    rw [h1] at hc
    cases hc
    cases hs
  ⟨hpk, ((deallocate_outcomes Sample.env 100 1 Sample.store hpk).2.1 hno).2,
    (deallocate_outcomes Sample.env 100 3 Sample.store hpk).2.2 _ rfl rfl⟩

/-- C15 as stated fails: the listing is cut at its limit, so a deallocated
conversation need not be on the page that `getConversations` returns for
state = QUEUED.  Conversation 3, deallocated at 10, is QUEUED with score 3
behind conversation 2 of score 9, and the listing with limit 1 returns
conversation 2 alone; with twenty queued conversations of score 1000 the
listing with the default limit of 20 returns those twenty and not the
deallocated conversation 3. -/
theorem deallocated_beyond_limit :
    (∃ r s', deallocateConversation Sample.env 10 3 Sample.store = (.ok (some r), s') ∧
      (s'.conversation? 3).map (fun c => (c.state, c.priority_score)) = some (.QUEUED, some 3) ∧
      (getConversations Sample.env s'
          ⟨some 1, none, none, some .QUEUED, none, none, some .priority⟩).map
        (fun page => (page.conversations.map (fun l => l.conversation.id), page.has_more))
        = .ok ([2], true)) ∧
    ∃ r s', deallocateConversation Sample.env 100 3 Sample.crowded = (.ok (some r), s') ∧
      (s'.conversation? 3).map (fun c => (c.state, c.priority_score)) = some (.QUEUED, some 93) ∧
      (getConversations Sample.env s' ⟨none, none, none, some .QUEUED, none, none, none⟩).map
        (fun page => (page.conversations.map (fun l => l.conversation.id), page.has_more))
        = .ok ((List.range 20).map (fun k => k + 10), true) :=
  ⟨⟨_, _, rfl, rfl, rfl⟩, ⟨_, _, rfl, rfl, rfl⟩⟩

end Backend
